import Mathlib

/-!
# Doom Chemistry Escape: grid world, collision resolver and DDA raycaster

A shallow embedding of the core of `src/doom-chemistry-escape/game.js`
(class `DoomChemistryGame`): `generateLevel`, `checkGridCollision`,
`handleMovement`, `castRay`, and the progression logic `update`,
`checkItemCollisions`, `updatePuzzleStations`, `interact`, `showPuzzle`,
`submitPuzzleAnswer`, `solvePuzzle`, `closePuzzle` and `renderSprites`; the
`mousemove` handler, the bearing test of `renderSprite` and the wall strip of
`render3DView`; and `validateChemistryPuzzles` of `game-validator.js`.

Numbers.  JavaScript numbers are modelled in exact arithmetic: every
definition is generic in a linearly ordered field `α` with a floor function
(`ℚ` for evaluation, `ℝ` for real directions).  `Math.floor` is `Int.floor`.
`Math.sin(angle)` and `Math.cos(angle)` are inputs of the embedding: the
functions take the two numbers the source computes from the angle.

Distances.  The source compares `Math.sqrt(q)` with a radius or with another
distance; the embedding compares the numbers `q` under the root (`sqrtLt`,
`Sprite.distSq`), which is the same test in exact arithmetic.

State.  Methods that mutate the game object are functions on `GameState`;
an object found by `find` and then mutated is the first matching element of the
list, replaced in place.

Angles.  The constant `Math.PI` and the values of `Math.tan` and
`Math.atan2` are inputs of the definitions; the theorems about angles take
them from `Real.pi`, `Real.tan` and `Complex.arg`.  A `while` loop is a
function with fuel that returns `none` when the fuel does not suffice.

Grid.  `this.map` and `this.wallTypes` are lists of rows.  The source reads
`this.map[my][mx]` only after checking `0 <= mx < MAP_WIDTH` and
`0 <= my < MAP_HEIGHT`, on the 9 x 12 arrays built by `generateLevel`.
-/

namespace DoomChemistry

/-! ## Constants (constructor, game.js 19-21 and 58) -/

/-- Side length of a grid tile in world units (`this.TILE_SIZE = 64`). -/
def TILE_SIZE : Nat := 64

/-- Number of grid columns (`this.MAP_WIDTH = 12`). -/
def MAP_WIDTH : Nat := 12

/-- Number of grid rows (`this.MAP_HEIGHT = 9`). -/
def MAP_HEIGHT : Nat := 9

/-- Largest distance a ray reports (`this.MAX_DEPTH = 800`). -/
def MAX_DEPTH : Nat := 800

/-- Cell code of an empty cell. -/
def EMPTY : Nat := 0

/-- Cell code of a wall. -/
def WALL : Nat := 1

/-- Cell code of a door. -/
def DOOR : Nat := 2

/-- Cell code of a puzzle station. -/
def STATION : Nat := 3

/-- Cell code of an item. -/
def ITEM : Nat := 4

/-! ## Data model -/

/-- The tile map: a list of rows, each a list of cell codes. -/
abbrev Grid := List (List Nat)

/-- An entry of `this.doors`. -/
structure Door where
  mapX : Int
  mapY : Int
  locked : Bool
  puzzleId : Nat
deriving DecidableEq, Repr

/-- Equipment tag of a puzzle station (`type`). -/
inductive StationType where
  | computer
  | periodicTable
  | microscope
deriving DecidableEq, Repr

/-- An entry of `this.puzzleStations`. -/
structure Station where
  mapX : Int
  mapY : Int
  puzzleId : Nat
  active : Bool
  type : StationType
  height : Nat
  width : Nat
deriving DecidableEq, Repr

/-- Kind of an item (`type`). -/
inductive ItemType where
  | health
  | key
deriving DecidableEq, Repr

/-- An entry of `this.items`. -/
structure Item where
  mapX : Int
  mapY : Int
  type : ItemType
  value : Nat
deriving DecidableEq, Repr

/-- The object `this.player`, without the heading `angle` (the functions that
read the heading take its cosine and sine as inputs). -/
structure Player (α : Type) where
  x : α
  y : α
  speed : α
  health : Nat
  keys : Nat

/-- The movement keys of `this.keys`. -/
structure Keys where
  KeyW : Bool
  KeyS : Bool
  KeyA : Bool
  KeyD : Bool
deriving DecidableEq, Repr

/-- The values `handleMovement` gets from `Math.cos` and `Math.sin`: at the
heading `angle`, at `angle - Math.PI/2` (strafe left) and at
`angle + Math.PI/2` (strafe right). -/
structure Heading (α : Type) where
  cosA : α
  sinA : α
  cosL : α
  sinL : α
  cosR : α
  sinR : α

/-- The object `castRay` returns. -/
structure RayResult (α : Type) where
  distance : α
  side : Nat
  wallType : Nat
  mapX : Int
  mapY : Int
  textureX : α

/-! ## Grid access -/

/-- The read `grid[my][mx]`; a cell that does not exist compares unequal to
every code the source tests for, like `EMPTY`. -/
def cellAt (map : Grid) (mx my : Int) : Nat :=
  (map.getD my.toNat []).getD mx.toNat 0

/-- The write `grid[my][mx] = v`. -/
def setCell (map : Grid) (mx my : Int) (v : Nat) : Grid :=
  map.set my.toNat ((map.getD my.toNat []).set mx.toNat v)

/-- The lookup `this.doors.find(d => d.mapX === mx && d.mapY === my)`. -/
def findDoor (doors : List Door) (mx my : Int) : Option Door :=
  doors.find? (fun d => d.mapX == mx && d.mapY == my)

/-- The test `door && door.locked` on the result of the lookup. -/
def doorLockedAt (doors : List Door) (mx my : Int) : Bool :=
  match findDoor doors mx my with
  | some d => d.locked
  | none => false

/-! ## generateLevel (game.js 829-894) -/

/-- The level that `generateLevel` builds. -/
structure Level where
  map : Grid
  wallTypes : Grid
  doors : List Door
  puzzleStations : List Station
  items : List Item

/-- The map literal of `generateLevel`, before stations and items are marked. -/
def baseMap : Grid :=
  [[1,1,1,1,1,1,1,1,1,1,1,1],
   [1,0,0,0,1,0,0,0,1,0,0,1],
   [1,0,0,0,1,0,0,0,1,0,0,1],
   [1,0,0,0,2,0,0,0,2,0,0,1],
   [1,2,1,1,1,0,1,1,1,1,2,1],
   [1,0,0,0,2,0,0,0,2,0,0,1],
   [1,0,0,0,1,0,0,0,1,0,0,1],
   [1,0,0,0,1,0,0,0,1,0,0,1],
   [1,1,1,1,1,1,1,1,1,1,1,1]]

/-- The wall-type literal of `generateLevel`. -/
def levelWallTypes : Grid :=
  [[1,1,1,1,2,2,2,1,1,1,1,1],
   [1,0,0,0,1,0,0,0,1,0,0,1],
   [1,0,0,0,1,0,0,0,1,0,0,1],
   [1,0,0,0,2,0,0,0,2,0,0,1],
   [1,2,2,2,1,0,2,2,2,2,2,1],
   [1,0,0,0,2,0,0,0,2,0,0,1],
   [1,0,0,0,1,0,0,0,1,0,0,1],
   [1,0,0,0,1,0,0,0,1,0,0,1],
   [2,2,2,1,1,1,1,1,2,2,2,2]]

/-- The doors literal of `generateLevel`. -/
def levelDoors : List Door :=
  [{ mapX := 4, mapY := 3, locked := true, puzzleId := 1 },
   { mapX := 8, mapY := 3, locked := true, puzzleId := 2 },
   { mapX := 4, mapY := 5, locked := true, puzzleId := 3 },
   { mapX := 8, mapY := 5, locked := true, puzzleId := 4 },
   { mapX := 1, mapY := 4, locked := true, puzzleId := 5 },
   { mapX := 10, mapY := 4, locked := true, puzzleId := 6 }]

/-- The puzzle-station literal of `generateLevel`. -/
def levelStations : List Station :=
  [{ mapX := 2, mapY := 2, puzzleId := 1, active := true, type := .computer, height := 40, width := 30 },
   { mapX := 6, mapY := 2, puzzleId := 2, active := false, type := .periodicTable, height := 50, width := 40 },
   { mapX := 10, mapY := 2, puzzleId := 3, active := false, type := .microscope, height := 45, width := 25 },
   { mapX := 2, mapY := 6, puzzleId := 4, active := false, type := .computer, height := 40, width := 30 },
   { mapX := 6, mapY := 6, puzzleId := 5, active := false, type := .periodicTable, height := 50, width := 40 },
   { mapX := 10, mapY := 6, puzzleId := 6, active := false, type := .microscope, height := 45, width := 25 }]

/-- The items literal of `generateLevel`. -/
def levelItems : List Item :=
  [{ mapX := 1, mapY := 1, type := .health, value := 25 },
   { mapX := 10, mapY := 7, type := .health, value := 25 },
   { mapX := 5, mapY := 4, type := .key, value := 1 }]

/-- The loop `puzzleStations.forEach(station => map[station.mapY][station.mapX] = 3)`. -/
def markStations (map : Grid) (stations : List Station) : Grid :=
  stations.foldl (fun m s => setCell m s.mapX s.mapY STATION) map

/-- The loop over `items` that marks an item on a cell that is still `0`. -/
def markItems (map : Grid) (items : List Item) : Grid :=
  items.foldl (fun m i => if cellAt m i.mapX i.mapY = 0 then setCell m i.mapX i.mapY ITEM else m) map

/-- The level as `generateLevel` leaves it. -/
def generateLevel : Level where
  map := markItems (markStations baseMap levelStations) levelItems
  wallTypes := levelWallTypes
  doors := levelDoors
  puzzleStations := levelStations
  items := levelItems

/-! ## checkGridCollision (game.js 972-1024) -/

section Collision

variable {α : Type} [LinearOrderedField α] [FloorRing α]

/-- The body of the loop over `corners`: whether the corner point `(cx, cy)`
makes `checkGridCollision` return `true`.  A corner whose cell is outside the
grid is skipped. -/
def cornerHit (map : Grid) (doors : List Door) (cx cy : α) : Bool :=
  let cornerMapX : Int := ⌊cx / (TILE_SIZE : α)⌋
  let cornerMapY : Int := ⌊cy / (TILE_SIZE : α)⌋
  if cornerMapX ≥ 0 ∧ cornerMapX < MAP_WIDTH ∧ cornerMapY ≥ 0 ∧ cornerMapY < MAP_HEIGHT then
    if cellAt map cornerMapX cornerMapY = 1 then true
    else if cellAt map cornerMapX cornerMapY = 2 then doorLockedAt doors cornerMapX cornerMapY
    else false
  else false

/-- The four corners of the square of half-side `radius` around `(x, y)`, in
the order of the source. -/
def corners (x y radius : α) : List (α × α) :=
  [(x - radius, y - radius), (x + radius, y - radius),
   (x - radius, y + radius), (x + radius, y + radius)]

/-- The method `checkGridCollision(x, y, radius)`. -/
def checkGridCollision (map : Grid) (doors : List Door) (x y radius : α) : Bool :=
  let mapX : Int := ⌊x / (TILE_SIZE : α)⌋
  let mapY : Int := ⌊y / (TILE_SIZE : α)⌋
  if mapX < 0 ∨ mapX ≥ MAP_WIDTH ∨ mapY < 0 ∨ mapY ≥ MAP_HEIGHT then true
  else if cellAt map mapX mapY = 1 then true
  else if cellAt map mapX mapY = 2 ∧ doorLockedAt doors mapX mapY = true then true
  else (corners x y radius).any (fun c => cornerHit map doors c.1 c.2)

/-! ## handleMovement (game.js 932-970) -/

/-- The displacement `(dx, dy)` that `handleMovement` computes from the keys:
`KeyW` and `KeyS` assign it, `KeyA` and `KeyD` add to it. -/
def moveDelta (keys : Keys) (h : Heading α) (speed : α) : α × α :=
  let dx0 : α := 0
  let dy0 : α := 0
  let dx1 := if keys.KeyW then h.cosA * speed else dx0
  let dy1 := if keys.KeyW then h.sinA * speed else dy0
  let dx2 := if keys.KeyS then -h.cosA * speed else dx1
  let dy2 := if keys.KeyS then -h.sinA * speed else dy1
  let dx3 := if keys.KeyA then dx2 + h.cosL * speed else dx2
  let dy3 := if keys.KeyA then dy2 + h.sinL * speed else dy2
  let dx4 := if keys.KeyD then dx3 + h.cosR * speed else dx3
  let dy4 := if keys.KeyD then dy3 + h.sinR * speed else dy3
  (dx4, dy4)

/-- The collision part of `handleMovement` for a displacement `(dx, dy)`: the X
move is tried first and written to `player.x`, then the Y move is tried at the
`player.x` that results. -/
def resolveMove (map : Grid) (doors : List Door) (p : Player α) (dx dy : α) : Player α :=
  let newX := p.x + dx
  let newY := p.y + dy
  let playerRadius : α := 8
  let p1 : Player α := if !checkGridCollision map doors newX p.y playerRadius then { p with x := newX } else p
  let p2 : Player α := if !checkGridCollision map doors p1.x newY playerRadius then { p1 with y := newY } else p1
  p2

/-- The method `handleMovement()`. -/
def handleMovement (map : Grid) (doors : List Door) (keys : Keys) (h : Heading α)
    (p : Player α) : Player α :=
  let d := moveDelta keys h p.speed
  resolveMove map doors p d.1 d.2

/-! ## castRay (game.js 1027-1144) -/

/-- The guard `if (Math.abs(c) < 0.0001) c = c < 0 ? -0.0001 : 0.0001`. -/
def clampEps (c : α) : α :=
  if |c| < 1 / 10000 then (if c < 0 then -(1 / 10000) else 1 / 10000) else c

/-- The remainder `a % b` of JavaScript: `a - b * trunc(a / b)`, with the
quotient truncated toward zero. -/
def jsRem (a b : α) : α :=
  a - b * (((if 0 ≤ a / b then ⌊a / b⌋ else ⌈a / b⌉ : Int) : α))

/-- The variables the DDA loop of `castRay` reads and writes. -/
structure DDAState (α : Type) where
  sideDistX : α
  sideDistY : α
  currentMapX : Int
  currentMapY : Int
  side : Nat
  hit : Bool
  wallType : Nat
  iterations : Nat

/-- The bound `Math.max(this.MAP_WIDTH, this.MAP_HEIGHT) * 2` of the loop. -/
def maxIterations : Nat := max MAP_WIDTH MAP_HEIGHT * 2

/-- One pass through the body of the DDA loop. -/
def ddaStep (map wallTypes : Grid) (doors : List Door) (deltaX deltaY : α) (stepX stepY : Int)
    (s : DDAState α) : DDAState α :=
  let s1 : DDAState α := { s with iterations := s.iterations + 1 }
  let s2 : DDAState α :=
    if s1.sideDistX < s1.sideDistY then
      { s1 with sideDistX := s1.sideDistX + deltaX, currentMapX := s1.currentMapX + stepX, side := 0 }
    else
      { s1 with sideDistY := s1.sideDistY + deltaY, currentMapY := s1.currentMapY + stepY, side := 1 }
  if s2.currentMapX < 0 ∨ s2.currentMapX ≥ MAP_WIDTH ∨ s2.currentMapY < 0 ∨ s2.currentMapY ≥ MAP_HEIGHT then
    { s2 with hit := true, wallType := 1 }
  else
    let cell := cellAt map s2.currentMapX s2.currentMapY
    if cell = 1 then
      { s2 with hit := true,
                wallType := if cellAt wallTypes s2.currentMapX s2.currentMapY ≠ 0
                            then cellAt wallTypes s2.currentMapX s2.currentMapY else 1 }
    else if cell = 2 then
      if doorLockedAt doors s2.currentMapX s2.currentMapY then { s2 with hit := true, wallType := 3 }
      else s2
    else s2

/-- The loop `while (!hit && iterations < maxIterations)`, run for at most
`fuel` passes; `castRay` gives it `maxIterations` passes, which the loop
condition never lets it exceed. -/
def ddaLoop (map wallTypes : Grid) (doors : List Door) (deltaX deltaY : α) (stepX stepY : Int) :
    Nat → DDAState α → DDAState α
  | 0, s => s
  | fuel + 1, s =>
    if !s.hit && decide (s.iterations < maxIterations) then
      ddaLoop map wallTypes doors deltaX deltaY stepX stepY fuel
        (ddaStep map wallTypes doors deltaX deltaY stepX stepY s)
    else s

/-- The direction and stepping data `castRay` sets up before the loop. -/
structure RaySetup (α : Type) where
  sin : α
  cos : α
  deltaX : α
  deltaY : α
  stepX : Int
  stepY : Int
  init : DDAState α

/-- The part of `castRay` before the loop, from the player position `(x, y)` and
the values `sinA = Math.sin(angle)`, `cosA = Math.cos(angle)`. -/
def raySetup (x y sinA cosA : α) : RaySetup α :=
  let sin := clampEps sinA
  let cos := clampEps cosA
  let deltaX := |1 / cos|
  let deltaY := |1 / sin|
  let mapX : Int := ⌊x / (TILE_SIZE : α)⌋
  let mapY : Int := ⌊y / (TILE_SIZE : α)⌋
  let stepX : Int := if cos < 0 then -1 else 1
  let sideDistX : α :=
    if cos < 0 then (x / (TILE_SIZE : α) - mapX) * deltaX
    else (mapX + 1 - x / (TILE_SIZE : α)) * deltaX
  let stepY : Int := if sin < 0 then -1 else 1
  let sideDistY : α :=
    if sin < 0 then (y / (TILE_SIZE : α) - mapY) * deltaY
    else (mapY + 1 - y / (TILE_SIZE : α)) * deltaY
  { sin := sin, cos := cos, deltaX := deltaX, deltaY := deltaY, stepX := stepX, stepY := stepY,
    init := { sideDistX := sideDistX, sideDistY := sideDistY, currentMapX := mapX,
              currentMapY := mapY, side := 0, hit := false, wallType := 1, iterations := 0 } }

/-- The state in which the DDA loop of `castRay` ends. -/
def rayLoop (map wallTypes : Grid) (doors : List Door) (x y sinA cosA : α) : DDAState α :=
  let r := raySetup x y sinA cosA
  ddaLoop map wallTypes doors r.deltaX r.deltaY r.stepX r.stepY maxIterations r.init

/-- The part of `castRay` after the loop: the distance in tiles along the ray,
then `(hitY or hitX, distance * TILE_SIZE in absolute value)`. -/
def rayHit (x y : α) (r : RaySetup α) (s : DDAState α) : α × α :=
  if s.side = 0 then
    let distance := ((s.currentMapX : α) - x / (TILE_SIZE : α) + (((1 - r.stepX : Int) : α)) / 2) / r.cos
    (y + distance * r.sin, |distance * (TILE_SIZE : α)|)
  else
    let distance := ((s.currentMapY : α) - y / (TILE_SIZE : α) + (((1 - r.stepY : Int) : α)) / 2) / r.sin
    (x + distance * r.cos, |distance * (TILE_SIZE : α)|)

/-- The texture coordinate: `h % TILE_SIZE`, divided by `TILE_SIZE`, plus one
when negative. -/
def textureCoord (h : α) : α :=
  let t := jsRem h (TILE_SIZE : α) / (TILE_SIZE : α)
  if t < 0 then t + 1 else t

/-- The method `castRay(angle)`, for a player at `(x, y)`, with
`sinA = Math.sin(angle)` and `cosA = Math.cos(angle)`. -/
def castRay (map wallTypes : Grid) (doors : List Door) (x y sinA cosA : α) : RayResult α :=
  let r := raySetup x y sinA cosA
  let s := rayLoop map wallTypes doors x y sinA cosA
  let h := rayHit x y r s
  { distance := max 1 (min h.2 (MAX_DEPTH : α)),
    side := s.side,
    wallType := s.wallType,
    mapX := s.currentMapX,
    mapY := s.currentMapY,
    textureX := textureCoord h.1 }

end Collision

/-! ## The rules of the specification, for comparison -/

section SpecRules

variable {α : Type} [LinearOrderedField α] [FloorRing α]

/-- The blocking rule in the words of the specification: the cell of the point
`(px, py)` is outside the grid, is a WALL, or is a DOOR whose door is locked. -/
def specBlockingPoint (map : Grid) (doors : List Door) (px py : α) : Prop :=
  let mx : Int := ⌊px / (TILE_SIZE : α)⌋
  let my : Int := ⌊py / (TILE_SIZE : α)⌋
  (mx < 0 ∨ mx ≥ MAP_WIDTH ∨ my < 0 ∨ my ≥ MAP_HEIGHT)
  ∨ cellAt map mx my = WALL
  ∨ (cellAt map mx my = DOOR ∧ doorLockedAt doors mx my = true)

/-- The rule that `checkGridCollision` applies to a corner point: its cell is
inside the grid and is a WALL or a DOOR whose door is locked. -/
def cornerBlockingPoint (map : Grid) (doors : List Door) (px py : α) : Prop :=
  let mx : Int := ⌊px / (TILE_SIZE : α)⌋
  let my : Int := ⌊py / (TILE_SIZE : α)⌋
  (0 ≤ mx ∧ mx < MAP_WIDTH ∧ 0 ≤ my ∧ my < MAP_HEIGHT)
  ∧ (cellAt map mx my = WALL ∨ (cellAt map mx my = DOOR ∧ doorLockedAt doors mx my = true))

/-- The blocking rule shared by the collision test and the ray march, for a
cell inside the grid: the cell is a WALL, or a DOOR whose door is locked. -/
def cellBlocks (map : Grid) (doors : List Door) (mx my : Int) : Bool :=
  decide (cellAt map mx my = 1) || (decide (cellAt map mx my = 2) && doorLockedAt doors mx my)

/-- The bounds test of the source: `0 <= mx < MAP_WIDTH` and `0 <= my < MAP_HEIGHT`. -/
def inGrid (mx my : Int) : Bool :=
  decide (0 ≤ mx) && decide (mx < MAP_WIDTH) && decide (0 ≤ my) && decide (my < MAP_HEIGHT)

/-- The claim of the specification for `checkGridCollision`: one of the five
points (centre and four corners) lies in a blocking cell, with the same rule
for all five. -/
def specIsBlocked (map : Grid) (doors : List Door) (x y r : α) : Prop :=
  specBlockingPoint map doors x y
  ∨ specBlockingPoint map doors (x - r) (y - r)
  ∨ specBlockingPoint map doors (x + r) (y - r)
  ∨ specBlockingPoint map doors (x - r) (y + r)
  ∨ specBlockingPoint map doors (x + r) (y + r)

end SpecRules

/-- Two loop states agree in every variable except possibly `wallType`. -/
def sameButWallType {α : Type} (s t : DDAState α) : Prop :=
  s.sideDistX = t.sideDistX ∧ s.sideDistY = t.sideDistY
  ∧ s.currentMapX = t.currentMapX ∧ s.currentMapY = t.currentMapY
  ∧ s.side = t.side ∧ s.hit = t.hit ∧ s.iterations = t.iterations

/-! ## Progression state (constructor, game.js 24-51 and 96-163) -/

/-- An entry of `this.chemistryPuzzles`. -/
structure Puzzle where
  id : Nat
  type : String
  title : String
  question : String
  options : List String
  correct : Nat
  explanation : String
  reward : Nat
  funFact : String
deriving DecidableEq, Repr

/-- The puzzle bank `this.chemistryPuzzles` of the constructor. -/
def chemistryPuzzles : List Puzzle :=
  [
  { id := 1,
    type := "periodic-table",
    title := "🧪 Periodic Table Challenge",
    question := "What is the atomic number of Carbon?",
    options := ["4", "6", "8", "12"],
    correct := 1,
    explanation := "Carbon has 6 protons, so its atomic number is 6. 💎 Fun fact: Diamond and graphite are both made of carbon!",
    reward := 100,
    funFact := "🌟 Carbon is the building block of all life on Earth!" },
  { id := 2,
    type := "equation-balancing",
    title := "⚖️ Balance the Chemical Equation",
    question := "Balance: H₂ + O₂ → H₂O",
    options := ["2H₂ + O₂ → 2H₂O", "H₂ + 2O₂ → H₂O", "H₂ + O₂ → 2H₂O", "3H₂ + O₂ → 3H₂O"],
    correct := 0,
    explanation := "2H₂ + O₂ → 2H₂O balances the equation with 4 H atoms and 2 O atoms on each side. 💧 This is how water is made!",
    reward := 150,
    funFact := "🚀 This reaction powers rocket engines when hydrogen and oxygen combust!" },
  { id := 3,
    type := "molecular-structure",
    title := "🔬 Molecular Structure",
    question := "Which molecule has a bent shape?",
    options := ["CO₂ (carbon dioxide)", "H₂O (water)", "CH₄ (methane)", "NH₃ (ammonia)"],
    correct := 1,
    explanation := "Water (H₂O) has a bent molecular geometry due to the two lone pairs on oxygen. 🌊 This shape is why water has so many unique properties!",
    reward := 120,
    funFact := "❄️ The bent shape of water makes ice less dense than liquid water, so it floats!" },
  { id := 4,
    type := "stoichiometry",
    title := "🧮 Stoichiometry Problem",
    question := "How many moles of O₂ are needed to react with 2 moles of CH₄ in: CH₄ + 2O₂ → CO₂ + 2H₂O",
    options := ["2 moles", "4 moles", "1 mole", "6 moles"],
    correct := 1,
    explanation := "According to the equation, 1 mole CH₄ needs 2 moles O₂, so 2 moles CH₄ needs 4 moles O₂. 🔥 This is methane combustion!",
    reward := 180,
    funFact := "🏠 This reaction happens in your gas stove when you cook with natural gas!" },
  { id := 5,
    type := "ph-calculation",
    title := "🌡️ pH Calculation",
    question := "What is the pH of a solution with [H⁺] = 1 × 10⁻⁴ M?",
    options := ["4", "10", "-4", "14"],
    correct := 0,
    explanation := "pH = -log[H⁺] = -log(1 × 10⁻⁴) = 4. 🍋 This is slightly acidic, like weak coffee!",
    reward := 200,
    funFact := "🧪 The pH scale was invented by Danish chemist Søren Sørensen in 1909!" },
  { id := 6,
    type := "gas-laws",
    title := "🎈 Gas Laws Challenge",
    question := "Using PV = nRT, if pressure doubles and temperature stays constant, what happens to volume?",
    options := ["Volume doubles", "Volume halves", "Volume stays the same", "Volume quadruples"],
    correct := 1,
    explanation := "According to Boyle's Law (part of ideal gas law), P and V are inversely proportional when T is constant. 🎈 Like squeezing a balloon!",
    reward := 160,
    funFact := "🏔️ This is why your ears pop when you go up a mountain - air pressure changes!" }
  ]

/-- The fields of the game object that the progression logic reads and writes. -/
structure GameState (α : Type) where
  map : Grid
  wallTypes : Grid
  doors : List Door
  puzzleStations : List Station
  items : List Item
  player : Player α
  score : Nat
  puzzlesSolved : Nat
  currentPuzzle : Option Puzzle
  gameStarted : Bool

section Progression

variable {α : Type} [LinearOrderedField α] [FloorRing α]

/-- The state after the constructor and the `generateLevel` call of `init`. -/
def initialState : GameState α where
  map := generateLevel.map
  wallTypes := generateLevel.wallTypes
  doors := generateLevel.doors
  puzzleStations := generateLevel.puzzleStations
  items := generateLevel.items
  player := { x := 3 / 2 * (TILE_SIZE : α), y := 3 / 2 * (TILE_SIZE : α), speed := 3,
              health := 100, keys := 0 }
  score := 0
  puzzlesSolved := 0
  currentPuzzle := none
  gameStarted := false

/-- The method `startGame()`. -/
def startGame (s : GameState α) : GameState α :=
  { s with gameStarted := true }

/-- The world anchor of a cell index: `m * TILE_SIZE + TILE_SIZE / 2`. -/
def anchor (m : Int) : α :=
  (m : α) * (TILE_SIZE : α) + (TILE_SIZE : α) / 2

/-- The number under the square root of a distance: `Math.pow(px - ax, 2) +
Math.pow(py - ay, 2)` for the anchor `(ax, ay)` of the cell `(mx, my)`. -/
def distSq (px py : α) (mx my : Int) : α :=
  (px - anchor mx) ^ 2 + (py - anchor my) ^ 2

/-- The test `Math.sqrt(q) < r` for a sum of squares `q` and a radius `r > 0`;
in exact arithmetic it is `q < r * r`. -/
def sqrtLt (q r : α) : Bool :=
  decide (q < r * r)

/-! ### checkItemCollisions (game.js 1146-1176) -/

/-- The effect of picking up one item: a health item sets
`health = Math.min(100, health + value)`, a key item adds its value to `keys`. -/
def applyItem (p : Player α) (item : Item) : Player α :=
  match item.type with
  | .health => { p with health := min 100 (p.health + item.value) }
  | .key => { p with keys := p.keys + item.value }

/-- The method `checkItemCollisions()`: the loop runs from the last item to the
first; an item at distance below 30 is applied and spliced out. -/
def checkItemCollisions (p : Player α) (items : List Item) : Player α × List Item :=
  items.foldr
    (fun item acc =>
      if sqrtLt (distSq acc.1.x acc.1.y item.mapX item.mapY) 30 then (applyItem acc.1 item, acc.2)
      else (acc.1, item :: acc.2))
    (p, [])

/-! ### updatePuzzleStations (game.js 1178-1185) -/

/-- The method `updatePuzzleStations()`. -/
def updatePuzzleStations (stations : List Station) (puzzlesSolved : Nat) : List Station :=
  stations.map (fun st => if st.puzzleId ≤ puzzlesSolved + 1 then { st with active := true } else st)

/-! ### interact and showPuzzle (game.js 1187-1259) -/

/-- The loop of `interact()`: the `puzzleId` handed to `showPuzzle`, if any. -/
def interactScan (px py : α) : List Station → Option Nat
  | [] => none
  | st :: rest =>
    if st.active then
      if sqrtLt (distSq px py st.mapX st.mapY) 50 then some st.puzzleId
      else interactScan px py rest
    else interactScan px py rest

/-- The method `showPuzzle(puzzleId)`. -/
def showPuzzle (s : GameState α) (puzzleId : Nat) : GameState α :=
  match chemistryPuzzles.find? (fun p => p.id == puzzleId) with
  | none => s
  | some puzzle => { s with currentPuzzle := some puzzle }

/-- The method `interact()`. -/
def interact (s : GameState α) : GameState α :=
  match interactScan s.player.x s.player.y s.puzzleStations with
  | some puzzleId => showPuzzle s puzzleId
  | none => s

/-! ### solvePuzzle, closePuzzle, submitPuzzleAnswer (game.js 1261-1348) -/

/-- The door part of `solvePuzzle`: `doors.find(d => d.puzzleId === id)` and, on
the door found, `door.locked = false`. -/
def unlockDoor (id : Nat) : List Door → List Door
  | [] => []
  | d :: ds => if d.puzzleId = id then { d with locked := false } :: ds else d :: unlockDoor id ds

/-- The station part of `solvePuzzle`: `puzzleStations.find(s => s.puzzleId === id)`
and, on the station found, `station.active = false`. -/
def deactivateStation (id : Nat) : List Station → List Station
  | [] => []
  | st :: sts =>
    if st.puzzleId = id then { st with active := false } :: sts else st :: deactivateStation id sts

/-- The method `solvePuzzle(puzzle)`. -/
def solvePuzzle (s : GameState α) (puzzle : Puzzle) : GameState α :=
  { s with puzzlesSolved := s.puzzlesSolved + 1,
           score := s.score + puzzle.reward,
           doors := unlockDoor puzzle.id s.doors,
           puzzleStations := deactivateStation puzzle.id s.puzzleStations }

/-- The method `closePuzzle()`. -/
def closePuzzle (s : GameState α) : GameState α :=
  { s with currentPuzzle := none }

/-- The method `submitPuzzleAnswer()` together with its delayed callback;
`selected` is the index of the selected option, if one is selected. -/
def submitPuzzleAnswer (s : GameState α) (selected : Option Nat) : GameState α :=
  match s.currentPuzzle with
  | none => s
  | some puzzle =>
    match selected with
    | none => s
    | some selectedIndex =>
      let isCorrect := selectedIndex == puzzle.correct
      closePuzzle (if isCorrect then solvePuzzle s puzzle else s)

/-! ### update (game.js 902-930) -/

/-- The method `update()`, for the key state and heading of the frame. -/
def update (s : GameState α) (keys : Keys) (h : Heading α) : GameState α :=
  if !s.gameStarted then s
  else
    let p1 := handleMovement s.map s.doors keys h s.player
    let r := checkItemCollisions p1 s.items
    { s with player := r.1, items := r.2,
             puzzleStations := updatePuzzleStations s.puzzleStations s.puzzlesSolved }

/-- The operations that change the progression state. -/
inductive Action (α : Type) where
  | startGame
  | update (keys : Keys) (h : Heading α)
  | interact
  | submitPuzzleAnswer (selected : Option Nat)
  | closePuzzle
  | solvePuzzle (puzzle : Puzzle)

/-- The state after one operation. -/
def step (s : GameState α) : Action α → GameState α
  | .startGame => startGame s
  | .update keys h => update s keys h
  | .interact => interact s
  | .submitPuzzleAnswer selected => submitPuzzleAnswer s selected
  | .closePuzzle => closePuzzle s
  | .solvePuzzle puzzle => solvePuzzle s puzzle

/-- The state after a sequence of operations. -/
def run (s : GameState α) (actions : List (Action α)) : GameState α :=
  actions.foldl step s

/-- A state of a session: reached from the generated level by operations. -/
def Reachable (s : GameState α) : Prop :=
  ∃ actions : List (Action α), s = run initialState actions

/-! ### renderSprites (game.js 1548-1615) -/

/-- The `type` of a sprite: `puzzle` for a station, the item type for an item. -/
inductive SpriteType where
  | puzzle
  | item (t : ItemType)
deriving DecidableEq, Repr

/-- An entry of the array `sprites`; `distSq` is the number whose square root
the source stores in `distance`. -/
structure Sprite (α : Type) where
  x : α
  y : α
  distSq : α
  type : SpriteType
  color : String
  size : Nat
  equipment : Option StationType

/-- The colour of a station sprite, by equipment type. -/
def stationColor : StationType → String
  | .computer => "#00ffff"
  | .periodicTable => "#ffff00"
  | .microscope => "#ff00ff"

/-- The sprites pushed for the active stations, in list order. -/
def stationSprites (px py : α) (stations : List Station) : List (Sprite α) :=
  (stations.filter (fun st => st.active)).map (fun st =>
    { x := anchor st.mapX, y := anchor st.mapY, distSq := distSq px py st.mapX st.mapY,
      type := .puzzle, color := stationColor st.type, size := st.height,
      equipment := some st.type })

/-- The sprites pushed for the items, in list order. -/
def itemSprites (px py : α) (items : List Item) : List (Sprite α) :=
  items.map (fun item =>
    { x := anchor item.mapX, y := anchor item.mapY, distSq := distSq px py item.mapX item.mapY,
      type := .item item.type,
      color := if item.type = .health then "#ff6666" else "#ffff00", size := 15,
      equipment := none })

/-- The call `sprites.sort((a, b) => b.distance - a.distance)`: a stable sort
that puts `a` before `b` when `a` is at least as far as `b`. -/
def sortSprites (sprites : List (Sprite α)) : List (Sprite α) :=
  sprites.insertionSort (fun a b => b.distSq ≤ a.distSq)

/-- The method `renderSprites()`: the sprites in the order in which they are
handed to `renderSprite`. -/
def renderSprites (s : GameState α) : List (Sprite α) :=
  sortSprites (stationSprites s.player.x s.player.y s.puzzleStations
    ++ itemSprites s.player.x s.player.y s.items)

end Progression

/-! ## Sample inputs -/

/-- The keys `KeyW` and `KeyD` held down together. -/
def keysWD : Keys := { KeyW := true, KeyS := false, KeyA := false, KeyD := true }

/-- The heading `angle = 0`: cosine and sine at `0`, `-π/2` and `π/2`. -/
def headingEast : Heading ℚ :=
  { cosA := 1, sinA := 0, cosL := 0, sinL := -1, cosR := 0, sinR := 1 }

/-- A player in the cell (5, 3) of the generated level, 10 units above and to
the left of the corner of the WALL cell (6, 4), with the speed of the source. -/
def playerAtCorner : Player ℚ := { x := 374, y := 246, speed := 3, health := 100, keys := 0 }

/-- The doors of the generated level after puzzle 1 was solved: the door at
(4, 3) is unlocked. -/
def doorsAfterPuzzle1 : List Door :=
  [{ mapX := 4, mapY := 3, locked := false, puzzleId := 1 },
   { mapX := 8, mapY := 3, locked := true, puzzleId := 2 },
   { mapX := 4, mapY := 5, locked := true, puzzleId := 3 },
   { mapX := 8, mapY := 5, locked := true, puzzleId := 4 },
   { mapX := 1, mapY := 4, locked := true, puzzleId := 5 },
   { mapX := 10, mapY := 4, locked := true, puzzleId := 6 }]

/-- Every active station of `l` has `puzzleId <= n + 1`. -/
def activeBounded (l : List Station) (n : Nat) : Prop :=
  ∀ st ∈ l, st.active = true → st.puzzleId ≤ n + 1

/-- The first puzzle of the bank, the one with `id` 1 and reward 100. -/
def puzzleOne : Puzzle :=
  chemistryPuzzles.headD
    { id := 0, type := "", title := "", question := "", options := [], correct := 0,
      explanation := "", reward := 0, funFact := "" }

/-- A key state with no movement key held. -/
def noKeys : Keys := { KeyW := false, KeyS := false, KeyA := false, KeyD := false }

/-- Two locked doors that belong to the same puzzle. -/
def twoDoorsOnePuzzle : List Door :=
  [{ mapX := 4, mapY := 3, locked := true, puzzleId := 1 },
   { mapX := 8, mapY := 3, locked := true, puzzleId := 1 }]

/-- A started game with two active stations in adjacent cells and the player at
(200, 160), at distance 40 from the first station and 24 from the second. -/
def stateTwoStations : GameState ℚ :=
  { startGame (initialState : GameState ℚ) with
    puzzleStations :=
      [{ mapX := 2, mapY := 2, puzzleId := 1, active := true, type := .computer,
         height := 40, width := 30 },
       { mapX := 3, mapY := 2, puzzleId := 2, active := true, type := .periodicTable,
         height := 50, width := 40 }],
    player := { x := 200, y := 160, speed := 3, health := 100, keys := 0 } }

/-- A player at the anchor (96, 96) of the health pack in cell (1, 1), with
health 60. -/
def playerAtHealthPack : Player ℚ := { x := 96, y := 96, speed := 3, health := 60, keys := 0 }

/-- A started game on the generated level with the player at the anchor
(160, 160) of station 1. -/
def stateAtStationOne : GameState ℚ :=
  { startGame (initialState : GameState ℚ) with
    player := { x := 160, y := 160, speed := 3, health := 100, keys := 0 } }

/-! ## GameValidator (game-validator.js 130-206) -/

/-- An issue that `validateChemistryPuzzles` reports for a puzzle id. -/
inductive PuzzleIssue where
  | missing (id : Nat)
  | incomplete (id : Nat)
  | incorrect (id : Nat)
deriving DecidableEq, Repr

/-- The table `expectedPuzzles` of the validator: id, type and expected answer. -/
def expectedPuzzles : List (Nat × String × Nat) :=
  [(1, "periodic-table", 1), (2, "equation-balancing", 0), (3, "molecular-structure", 1),
   (4, "stoichiometry", 1), (5, "ph-calculation", 0), (6, "gas-laws", 1)]

/-- The issues `validateChemistryPuzzles` reports for one expected entry: the
puzzle is looked up by id; a puzzle whose question or explanation is the empty
string is incomplete (an options array is never falsy); a puzzle whose
`correct` differs from the expected answer is incorrect. -/
def validatePuzzle (puzzles : List Puzzle) (expected : Nat × String × Nat) : List PuzzleIssue :=
  match puzzles.find? (fun p => p.id == expected.1) with
  | none => [.missing expected.1]
  | some puzzle =>
    (if puzzle.question.isEmpty || puzzle.explanation.isEmpty then [.incomplete expected.1] else [])
    ++ (if puzzle.correct ≠ expected.2.2 then [.incorrect expected.1] else [])

/-- The method `validateChemistryPuzzles()`: the issues reported, and the result
of the test `puzzles.length === 6`. -/
def validateChemistryPuzzles (puzzles : List Puzzle) : List PuzzleIssue × Bool :=
  (expectedPuzzles.flatMap (validatePuzzle puzzles), decide (puzzles.length = 6))

/-- The test 'Puzzle Stations' of `validateGameMechanics()`:
`puzzleStations.filter(s => s.active).length > 0`. -/
def validatePuzzleStations (stations : List Station) : Bool :=
  decide ((stations.filter (fun s => s.active)).length > 0)

/-! ## Level connectivity -/

/-- A cell that can be entered when the puzzles with id below `k` are solved:
inside the grid, not a WALL, and not a DOOR whose door has `puzzleId >= k`. -/
def cellOpen (map : Grid) (doors : List Door) (k : Nat) (c : Int × Int) : Bool :=
  decide (0 ≤ c.1) && decide (c.1 < MAP_WIDTH) && decide (0 ≤ c.2) && decide (c.2 < MAP_HEIGHT)
  && decide (cellAt map c.1 c.2 ≠ WALL)
  && !(decide (cellAt map c.1 c.2 = DOOR)
        && (match findDoor doors c.1 c.2 with
            | some d => decide (k ≤ d.puzzleId)
            | none => false))

/-- Two cells are 4-neighbours. -/
def adjacent (a b : Int × Int) : Bool :=
  decide ((a.1 = b.1 ∧ (a.2 = b.2 + 1 ∨ b.2 = a.2 + 1))
    ∨ (a.2 = b.2 ∧ (a.1 = b.1 + 1 ∨ b.1 = a.1 + 1)))

/-- Consecutive cells of the list are 4-neighbours. -/
def stepsAdjacent : List (Int × Int) → Bool
  | a :: b :: rest => adjacent a b && stepsAdjacent (b :: rest)
  | _ => true

/-- The list is a path of open 4-neighbour cells from `start` to `target`. -/
def isOpenPath (map : Grid) (doors : List Door) (k : Nat) (start target : Int × Int)
    (path : List (Int × Int)) : Bool :=
  decide (path.head? = some start) && decide (path.getLast? = some target)
  && stepsAdjacent path && path.all (cellOpen map doors k)

/-- Paths from the start cell (1, 1) to the stations 1 to 6 of the generated level. -/
def stationPath : Nat → List (Int × Int)
  | 1 => [(1, 1), (2, 1), (2, 2)]
  | 2 => [(1, 1), (1, 2), (1, 3), (2, 3), (3, 3), (4, 3), (5, 3), (6, 3), (6, 2)]
  | 3 => [(1, 1), (1, 2), (1, 3), (2, 3), (3, 3), (4, 3), (5, 3), (6, 3), (7, 3), (8, 3),
          (9, 3), (10, 3), (10, 2)]
  | 4 => [(1, 1), (1, 2), (1, 3), (2, 3), (3, 3), (4, 3), (5, 3), (5, 4), (5, 5), (4, 5),
          (3, 5), (2, 5), (2, 6)]
  | 5 => [(1, 1), (1, 2), (1, 3), (2, 3), (3, 3), (4, 3), (5, 3), (5, 4), (5, 5), (6, 5),
          (6, 6)]
  | 6 => [(1, 1), (1, 2), (1, 3), (2, 3), (3, 3), (4, 3), (5, 3), (5, 4), (5, 5), (6, 5),
          (7, 5), (8, 5), (9, 5), (10, 5), (10, 6)]
  | _ => []

/-! ## Heading, sprite bearing and wall strips -/

section View

variable {α : Type} [LinearOrderedField α]

/-- The loop `while (angle > twoPi) angle -= twoPi`, run for at most `fuel`
subtractions; `none` when the loop would need more. -/
def normalizeDown (twoPi : α) : Nat → α → Option α
  | 0, a => if a > twoPi then none else some a
  | fuel + 1, a => if a > twoPi then normalizeDown twoPi fuel (a - twoPi) else some a

/-- The loop `while (angle < 0) angle += twoPi`, run for at most `fuel`
additions; `none` when the loop would need more. -/
def normalizeUp (twoPi : α) : Nat → α → Option α
  | 0, a => if a < 0 then none else some a
  | fuel + 1, a => if a < 0 then normalizeUp twoPi fuel (a + twoPi) else some a

/-- The `mousemove` handler (game.js 753-760) on `player.angle`, with
`twoPi = Math.PI * 2`: `none` when a loop needs more than `fuel` passes. -/
def mouseMove (twoPi : α) (fuel : Nat) (mouseLocked : Bool) (angle movementX : α) : Option α :=
  if mouseLocked then
    match normalizeDown twoPi fuel (angle + movementX * (3 / 1000)) with
    | none => none
    | some a => normalizeUp twoPi fuel a
  else some angle

/-- The constant `this.FOV = Math.PI / 3`, for `pi = Math.PI`. -/
def FOV (pi : α) : α := pi / 3

/-- The constant `this.HALF_FOV = this.FOV / 2`. -/
def HALF_FOV (pi : α) : α := FOV pi / 2

/-- The constant `this.WALL_HEIGHT = 100`. -/
def WALL_HEIGHT : Nat := 100

/-- The constant `this.PROJECTION_DIST = (canvas.width / 2) / Math.tan(HALF_FOV)`
that the constructor computes, from the canvas width at that time and the
value `tanHalfFov = Math.tan(HALF_FOV)`. -/
def projectionDist (canvasWidth tanHalfFov : α) : α :=
  (canvasWidth / 2) / tanHalfFov

/-- The bearing test of `renderSprite`, `Math.abs(angle) > HALF_FOV + 0.5` for
`angle = Math.atan2(dy, dx) - player.angle`; `atan2Val` is the value of
`Math.atan2(dy, dx)`. -/
def spriteDiscarded (pi atan2Val playerAngle : α) : Bool :=
  decide (|atan2Val - playerAngle| > HALF_FOV pi + 1 / 2)

/-- The width `renderWidth = Math.min(canvas.width, 400)` of `render3DView`. -/
def renderWidth (canvasWidth : α) : α := min canvasWidth 400

/-- The angle `rayAngle` of column `i` in `render3DView`. -/
def rayAngleAt (pi playerAngle : α) (i : Nat) (canvasWidth : α) : α :=
  playerAngle - HALF_FOV pi + ((i : α) / renderWidth canvasWidth) * FOV pi

/-- The numbers `render3DView` computes for one column. -/
structure WallStrip (α : Type) where
  correctedDistance : α
  wallHeight : α
  wallTop : α
  wallBottom : α

/-- The strip of one column of `render3DView`, from the canvas height, the
constant `PROJECTION_DIST`, the distance of the ray and the value
`cosOffset = Math.cos(rayAngle - player.angle)`. -/
def wallStrip (canvasHeight projDist rayDistance cosOffset : α) : WallStrip α :=
  let halfHeight := canvasHeight / 2
  let correctedDistance := rayDistance * cosOffset
  let wallHeight := ((WALL_HEIGHT : α) / correctedDistance) * projDist
  { correctedDistance := correctedDistance,
    wallHeight := wallHeight,
    wallTop := halfHeight - wallHeight / 2,
    wallBottom := halfHeight + wallHeight / 2 }

end View

/-- The fourth station of the generated level. -/
def stationFour : Station :=
  { mapX := 2, mapY := 6, puzzleId := 4, active := false, type := .computer, height := 40,
    width := 30 }

/-! ## Invariants of the ray march -/

section MarchInvariants

variable {α : Type} [LinearOrderedField α]

/-- The progress invariant of the DDA loop from the cell `(mx0, my0)`: the
cell has moved `iterations` steps in the stepping directions; a state that is
not a hit is inside the grid; a hit is outside the grid or on a blocking cell. -/
def marchInv (map : Grid) (doors : List Door) (stepX stepY mx0 my0 : Int) (s : DDAState α) : Prop :=
  0 ≤ (s.currentMapX - mx0) * stepX ∧ 0 ≤ (s.currentMapY - my0) * stepY
  ∧ (s.currentMapX - mx0) * stepX + (s.currentMapY - my0) * stepY = (s.iterations : Int)
  ∧ (s.hit = false → inGrid s.currentMapX s.currentMapY = true)
  ∧ (s.hit = true → inGrid s.currentMapX s.currentMapY = false
      ∨ cellBlocks map doors s.currentMapX s.currentMapY = true)
  ∧ s.iterations ≤ 20

/-- The geometric invariant of the DDA loop for a ray from `(X0, Y0)` (in
tiles) with direction `(c, sn)`: `sideDistX` is the ray parameter at which the
ray leaves the current column in the stepping direction, `sideDistY` the one
at which it leaves the current row, both are non-negative, and each is at most
one `delta` ahead of the other. -/
def rayInv (X0 Y0 c sn dX dY : α) (stepX stepY : Int) (s : DDAState α) : Prop :=
  X0 + s.sideDistX * c = (s.currentMapX : α) + (1 + (stepX : α)) / 2
  ∧ Y0 + s.sideDistY * sn = (s.currentMapY : α) + (1 + (stepY : α)) / 2
  ∧ 0 ≤ s.sideDistX ∧ 0 ≤ s.sideDistY
  ∧ s.sideDistX - dX ≤ s.sideDistY ∧ s.sideDistY - dY ≤ s.sideDistX

/-- The invariant after a pass of the loop: the ray parameter of the boundary
just crossed (`sideDistX - dX` after an X step, `sideDistY - dY` after a Y
step) is non-negative and lies between the parameters at which the ray enters
and leaves the current row (or column). -/
def hitInv (X0 Y0 c sn dX dY : α) (stepX stepY : Int) (s : DDAState α) : Prop :=
  X0 + s.sideDistX * c = (s.currentMapX : α) + (1 + (stepX : α)) / 2
  ∧ Y0 + s.sideDistY * sn = (s.currentMapY : α) + (1 + (stepY : α)) / 2
  ∧ ((s.side = 0 ∧ 0 ≤ s.sideDistX - dX ∧ s.sideDistY - dY ≤ s.sideDistX - dX
        ∧ s.sideDistX - dX ≤ s.sideDistY)
    ∨ (s.side = 1 ∧ 0 ≤ s.sideDistY - dY ∧ s.sideDistX - dX ≤ s.sideDistY - dY
        ∧ s.sideDistY - dY ≤ s.sideDistX))

end MarchInvariants

/-! ## Grid lemmas -/

theorem cellAt_setCell (map : Grid) (cx cy : Int) (v : Nat) (mx my : Int)
    (hcx : 0 ≤ cx) (hcy : 0 ≤ cy) (hmx : 0 ≤ mx) (hmy : 0 ≤ my)
    (hrow : cy.toNat < map.length) (hcol : cx.toNat < (map.getD cy.toNat []).length) :
    cellAt (setCell map cx cy v) mx my = if mx = cx ∧ my = cy then v else cellAt map mx my := by
  unfold cellAt setCell
  by_cases hy : my = cy
  · subst hy
    by_cases hx : mx = cx
    · subst hx
      have hcol2 : mx.toNat < (map[my.toNat]).length := by
        simpa [List.getD_eq_getElem?_getD, hrow] using hcol
      simp [List.getD_eq_getElem?_getD, List.getElem?_set, hrow, hcol2]
    · have hne : cx.toNat ≠ mx.toNat := by
        intro h
        apply hx
        have := congrArg (fun n : Nat => (n : Int)) h
        simp only [Int.toNat_of_nonneg hcx, Int.toNat_of_nonneg hmx] at this
        exact this.symm
      simp [List.getD_eq_getElem?_getD, List.getElem?_set, hrow, hx, hne]
  · have hne : cy.toNat ≠ my.toNat := by
      intro h
      apply hy
      have := congrArg (fun n : Nat => (n : Int)) h
      simp only [Int.toNat_of_nonneg hcy, Int.toNat_of_nonneg hmy] at this
      exact this.symm
    simp [List.getD_eq_getElem?_getD, List.getElem?_set, hy, hne]

theorem cell_exists_of_ne_zero (map : Grid) (cx cy : Int) (h : cellAt map cx cy ≠ 0) :
    cy.toNat < map.length ∧ cx.toNat < (map.getD cy.toNat []).length := by
  unfold cellAt at h
  constructor
  · by_contra hlt
    apply h
    simp [List.getD_eq_getElem?_getD, List.getElem?_eq_none (not_lt.mp hlt)]
  · by_contra hlt
    apply h
    rw [List.getD_eq_getElem?_getD (map.getD cy.toNat []), List.getElem?_eq_none (not_lt.mp hlt)]
    rfl

/-! ## Collision lemmas -/

section CollisionLemmas

variable {α : Type} [LinearOrderedField α] [FloorRing α]

theorem cornerHit_eq (map : Grid) (doors : List Door) (cx cy : α) :
    cornerHit map doors cx cy =
      (inGrid ⌊cx / (TILE_SIZE : α)⌋ ⌊cy / (TILE_SIZE : α)⌋
        && cellBlocks map doors ⌊cx / (TILE_SIZE : α)⌋ ⌊cy / (TILE_SIZE : α)⌋) := by
  unfold cornerHit inGrid cellBlocks
  simp only []
  split_ifs <;> simp_all

theorem checkGridCollision_eq (map : Grid) (doors : List Door) (x y r : α) :
    checkGridCollision map doors x y r =
      (!inGrid ⌊x / (TILE_SIZE : α)⌋ ⌊y / (TILE_SIZE : α)⌋
        || cellBlocks map doors ⌊x / (TILE_SIZE : α)⌋ ⌊y / (TILE_SIZE : α)⌋
        || (corners x y r).any (fun c => cornerHit map doors c.1 c.2)) := by
  unfold checkGridCollision inGrid cellBlocks
  simp only []
  split_ifs <;> simp_all
  omega

theorem checkGridCollision_congr (map map2 : Grid) (doors doors2 : List Door) (x y r : α)
    (h : ∀ mx my, inGrid mx my = true → cellBlocks map doors mx my = cellBlocks map2 doors2 mx my) :
    checkGridCollision map doors x y r = checkGridCollision map2 doors2 x y r := by
  have hc : ∀ cx cy : α, cornerHit map doors cx cy = cornerHit map2 doors2 cx cy := by
    intro cx cy
    rw [cornerHit_eq, cornerHit_eq]
    cases hg : inGrid ⌊cx / (TILE_SIZE : α)⌋ ⌊cy / (TILE_SIZE : α)⌋
    · simp
    · simp [h _ _ hg]
  rw [checkGridCollision_eq, checkGridCollision_eq]
  simp only [hc]
  cases hg : inGrid ⌊x / (TILE_SIZE : α)⌋ ⌊y / (TILE_SIZE : α)⌋
  · simp
  · simp [h _ _ hg]

theorem floor_div_tile (x : α) (k : Int) (h1 : (k : α) * 64 ≤ x) (h2 : x < ((k : α) + 1) * 64) :
    ⌊x / (TILE_SIZE : α)⌋ = k := by
  rw [Int.floor_eq_iff]
  have h64 : ((TILE_SIZE : Nat) : α) = 64 := by norm_num [TILE_SIZE]
  rw [h64]
  constructor
  · rw [le_div_iff₀ (by norm_num)]; exact h1
  · rw [div_lt_iff₀ (by norm_num)]; exact h2

/-- Replacing a DOOR cell by WALL (door locked) or EMPTY (door unlocked) leaves
the blocking rule of every cell unchanged. -/
theorem cellBlocks_setCell_door (map : Grid) (doors : List Door) (cx cy : Int) (d : Door)
    (hcx : 0 ≤ cx) (hcy : 0 ≤ cy) (hcell : cellAt map cx cy = DOOR)
    (hdoor : findDoor doors cx cy = some d) (mx my : Int) (hg : inGrid mx my = true) :
    cellBlocks map doors mx my
      = cellBlocks (setCell map cx cy (if d.locked then WALL else EMPTY)) doors mx my := by
  have hex := cell_exists_of_ne_zero map cx cy (by rw [hcell]; decide)
  have hm : 0 ≤ mx ∧ 0 ≤ my := by
    simp only [inGrid, Bool.and_eq_true, decide_eq_true_eq] at hg
    exact ⟨hg.1.1.1, hg.1.2⟩
  unfold cellBlocks
  rw [cellAt_setCell map cx cy _ mx my hcx hcy hm.1 hm.2 hex.1 hex.2]
  by_cases hc : mx = cx ∧ my = cy
  · obtain ⟨rfl, rfl⟩ := hc
    have hl : doorLockedAt doors mx my = d.locked := by simp [doorLockedAt, hdoor]
    cases hlk : d.locked <;> simp [hcell, hl, hlk, DOOR, WALL, EMPTY]
  · simp [hc]

/-- The result of `checkGridCollision` from the cells of its five points. -/
theorem checkGridCollision_cells (map : Grid) (doors : List Door) (x y r : α)
    (mx my x0 x1 y0 y1 : Int)
    (hx : ⌊x / (TILE_SIZE : α)⌋ = mx) (hy : ⌊y / (TILE_SIZE : α)⌋ = my)
    (hx0 : ⌊(x - r) / (TILE_SIZE : α)⌋ = x0) (hx1 : ⌊(x + r) / (TILE_SIZE : α)⌋ = x1)
    (hy0 : ⌊(y - r) / (TILE_SIZE : α)⌋ = y0) (hy1 : ⌊(y + r) / (TILE_SIZE : α)⌋ = y1) :
    checkGridCollision map doors x y r =
      (!inGrid mx my || cellBlocks map doors mx my
        || ((inGrid x0 y0 && cellBlocks map doors x0 y0)
          || ((inGrid x1 y0 && cellBlocks map doors x1 y0)
            || ((inGrid x0 y1 && cellBlocks map doors x0 y1)
              || ((inGrid x1 y1 && cellBlocks map doors x1 y1) || false))))) := by
  rw [checkGridCollision_eq]
  simp only [corners, cornerHit_eq, List.any_cons, List.any_nil, hx, hy, hx0, hx1, hy0, hy1]

end CollisionLemmas

/-! ## Ray march lemmas -/

section StepLemmas

variable {α : Type} [LinearOrderedField α]

/-- What one pass of the loop does to every variable but `wallType`: the axis
with the smaller side-distance is advanced (Y on a tie), and `hit` is set when
the new cell is outside the grid or blocking. -/
theorem ddaStep_fields (map wallTypes : Grid) (doors : List Door) (deltaX deltaY : α)
    (stepX stepY : Int) (s : DDAState α) :
    (ddaStep map wallTypes doors deltaX deltaY stepX stepY s).sideDistX
        = (if s.sideDistX < s.sideDistY then s.sideDistX + deltaX else s.sideDistX)
    ∧ (ddaStep map wallTypes doors deltaX deltaY stepX stepY s).sideDistY
        = (if s.sideDistX < s.sideDistY then s.sideDistY else s.sideDistY + deltaY)
    ∧ (ddaStep map wallTypes doors deltaX deltaY stepX stepY s).currentMapX
        = (if s.sideDistX < s.sideDistY then s.currentMapX + stepX else s.currentMapX)
    ∧ (ddaStep map wallTypes doors deltaX deltaY stepX stepY s).currentMapY
        = (if s.sideDistX < s.sideDistY then s.currentMapY else s.currentMapY + stepY)
    ∧ (ddaStep map wallTypes doors deltaX deltaY stepX stepY s).side
        = (if s.sideDistX < s.sideDistY then 0 else 1)
    ∧ (ddaStep map wallTypes doors deltaX deltaY stepX stepY s).iterations = s.iterations + 1
    ∧ (ddaStep map wallTypes doors deltaX deltaY stepX stepY s).hit
        = (s.hit
            || !inGrid (ddaStep map wallTypes doors deltaX deltaY stepX stepY s).currentMapX
                  (ddaStep map wallTypes doors deltaX deltaY stepX stepY s).currentMapY
            || cellBlocks map doors
                  (ddaStep map wallTypes doors deltaX deltaY stepX stepY s).currentMapX
                  (ddaStep map wallTypes doors deltaX deltaY stepX stepY s).currentMapY)
    ∧ ((ddaStep map wallTypes doors deltaX deltaY stepX stepY s).hit = false →
        (ddaStep map wallTypes doors deltaX deltaY stepX stepY s).wallType = s.wallType) := by
  unfold ddaStep inGrid cellBlocks
  simp only []
  by_cases hlt : s.sideDistX < s.sideDistY
  · simp only [hlt, if_true]
    split_ifs <;> simp_all
    omega
  · simp only [hlt, if_false]
    split_ifs <;> simp_all
    omega

/-- One pass of the loop on two maps with the same blocking cells, from states
that agree up to `wallType`, gives states that agree up to `wallType`. -/
theorem ddaStep_congr (map map2 wallTypes wallTypes2 : Grid) (doors doors2 : List Door)
    (deltaX deltaY : α) (stepX stepY : Int) (s t : DDAState α)
    (h : ∀ mx my, inGrid mx my = true → cellBlocks map doors mx my = cellBlocks map2 doors2 mx my)
    (hst : sameButWallType s t) :
    sameButWallType (ddaStep map wallTypes doors deltaX deltaY stepX stepY s)
      (ddaStep map2 wallTypes2 doors2 deltaX deltaY stepX stepY t) := by
  obtain ⟨a1, a2, a3, a4, a5, a6, a7, _⟩ :=
    ddaStep_fields map wallTypes doors deltaX deltaY stepX stepY s
  obtain ⟨b1, b2, b3, b4, b5, b6, b7, _⟩ :=
    ddaStep_fields map2 wallTypes2 doors2 deltaX deltaY stepX stepY t
  obtain ⟨e1, e2, e3, e4, _, e6, e7⟩ := hst
  have c3 : (ddaStep map wallTypes doors deltaX deltaY stepX stepY s).currentMapX
      = (ddaStep map2 wallTypes2 doors2 deltaX deltaY stepX stepY t).currentMapX := by
    rw [a3, b3, e1, e2, e3]
  have c4 : (ddaStep map wallTypes doors deltaX deltaY stepX stepY s).currentMapY
      = (ddaStep map2 wallTypes2 doors2 deltaX deltaY stepX stepY t).currentMapY := by
    rw [a4, b4, e1, e2, e4]
  refine ⟨by rw [a1, b1, e1, e2], by rw [a2, b2, e1, e2], c3, c4, by rw [a5, b5, e1, e2], ?_,
    by rw [a6, b6, e7]⟩
  rw [a7, b7, c3, c4, e6]
  cases hg : inGrid (ddaStep map2 wallTypes2 doors2 deltaX deltaY stepX stepY t).currentMapX
      (ddaStep map2 wallTypes2 doors2 deltaX deltaY stepX stepY t).currentMapY
  · simp
  · rw [h _ _ hg]

theorem ddaLoop_congr (map map2 wallTypes wallTypes2 : Grid) (doors doors2 : List Door)
    (deltaX deltaY : α) (stepX stepY : Int)
    (h : ∀ mx my, inGrid mx my = true → cellBlocks map doors mx my = cellBlocks map2 doors2 mx my)
    (fuel : Nat) : ∀ s t : DDAState α, sameButWallType s t →
      sameButWallType (ddaLoop map wallTypes doors deltaX deltaY stepX stepY fuel s)
        (ddaLoop map2 wallTypes2 doors2 deltaX deltaY stepX stepY fuel t) := by
  induction fuel with
  | zero => intro s t hst; exact hst
  | succ n ih =>
    intro s t hst
    have e6 : s.hit = t.hit := hst.2.2.2.2.2.1
    have e7 : s.iterations = t.iterations := hst.2.2.2.2.2.2
    simp only [ddaLoop, e6, e7]
    split_ifs
    · exact ih _ _ (ddaStep_congr map map2 wallTypes wallTypes2 doors doors2 deltaX deltaY
        stepX stepY s t h hst)
    · exact hst

/-- Replacing the DOOR cell of an unlocked door by EMPTY changes nothing in a
pass of the loop, `wallType` included. -/
theorem ddaStep_setCell_unlocked (map wallTypes : Grid) (doors : List Door) (cx cy : Int)
    (d : Door) (hcx : 0 ≤ cx) (hcy : 0 ≤ cy) (hcell : cellAt map cx cy = DOOR)
    (hdoor : findDoor doors cx cy = some d) (hl : d.locked = false)
    (deltaX deltaY : α) (stepX stepY : Int) (s : DDAState α) :
    ddaStep (setCell map cx cy EMPTY) wallTypes doors deltaX deltaY stepX stepY s
      = ddaStep map wallTypes doors deltaX deltaY stepX stepY s := by
  have hex := cell_exists_of_ne_zero map cx cy (by rw [hcell]; decide)
  have hlk : doorLockedAt doors cx cy = false := by simp [doorLockedAt, hdoor, hl]
  unfold ddaStep
  simp only []
  generalize (if s.sideDistX < s.sideDistY then
      ({ s with iterations := s.iterations + 1, sideDistX := s.sideDistX + deltaX,
                currentMapX := s.currentMapX + stepX, side := 0 } : DDAState α)
    else { s with iterations := s.iterations + 1, sideDistY := s.sideDistY + deltaY,
                  currentMapY := s.currentMapY + stepY, side := 1 }) = u
  by_cases hb : u.currentMapX < 0 ∨ u.currentMapX ≥ MAP_WIDTH ∨ u.currentMapY < 0
      ∨ u.currentMapY ≥ MAP_HEIGHT
  · simp only [hb, if_true]
  · simp only [hb, if_false]
    have hnn : 0 ≤ u.currentMapX ∧ 0 ≤ u.currentMapY := by
      constructor <;> by_contra hneg <;> apply hb <;> simp only [not_le] at hneg <;> tauto
    rw [cellAt_setCell map cx cy _ _ _ hcx hcy hnn.1 hnn.2 hex.1 hex.2]
    by_cases hc : u.currentMapX = cx ∧ u.currentMapY = cy
    · obtain ⟨h1, h2⟩ := hc
      simp [h1, h2, hcell, hlk, DOOR, EMPTY]
    · simp only [hc, if_false]

theorem ddaLoop_setCell_unlocked (map wallTypes : Grid) (doors : List Door) (cx cy : Int)
    (d : Door) (hcx : 0 ≤ cx) (hcy : 0 ≤ cy) (hcell : cellAt map cx cy = DOOR)
    (hdoor : findDoor doors cx cy = some d) (hl : d.locked = false)
    (deltaX deltaY : α) (stepX stepY : Int) (fuel : Nat) : ∀ s : DDAState α,
    ddaLoop (setCell map cx cy EMPTY) wallTypes doors deltaX deltaY stepX stepY fuel s
      = ddaLoop map wallTypes doors deltaX deltaY stepX stepY fuel s := by
  induction fuel with
  | zero => intro s; rfl
  | succ n ih =>
    intro s
    simp only [ddaLoop]
    rw [ddaStep_setCell_unlocked map wallTypes doors cx cy d hcx hcy hcell hdoor hl, ih]

/-- The loop ends within the cap, with its condition false, and without a hit
`wallType` still has its initial value. -/
theorem ddaLoop_exit (map wallTypes : Grid) (doors : List Door) (deltaX deltaY : α)
    (stepX stepY : Int) (fuel : Nat) : ∀ s : DDAState α,
    maxIterations ≤ s.iterations + fuel → s.iterations ≤ maxIterations →
    (s.hit = false → s.wallType = 1) →
    (ddaLoop map wallTypes doors deltaX deltaY stepX stepY fuel s).iterations ≤ maxIterations
    ∧ ((ddaLoop map wallTypes doors deltaX deltaY stepX stepY fuel s).hit = true
        ∨ (ddaLoop map wallTypes doors deltaX deltaY stepX stepY fuel s).iterations = maxIterations)
    ∧ ((ddaLoop map wallTypes doors deltaX deltaY stepX stepY fuel s).hit = false →
        (ddaLoop map wallTypes doors deltaX deltaY stepX stepY fuel s).wallType = 1) := by
  induction fuel with
  | zero =>
    intro s h1 h2 h3
    simp only [ddaLoop]
    exact ⟨h2, Or.inr (by omega), h3⟩
  | succ n ih =>
    intro s h1 h2 h3
    simp only [ddaLoop]
    by_cases hc : (!s.hit && decide (s.iterations < maxIterations)) = true
    · rw [if_pos hc]
      simp only [Bool.and_eq_true, Bool.not_eq_true', decide_eq_true_eq] at hc
      obtain ⟨_, _, _, _, _, f6, _, f8⟩ :=
        ddaStep_fields map wallTypes doors deltaX deltaY stepX stepY s
      apply ih
      · rw [f6]; omega
      · rw [f6]; omega
      · intro hh
        rw [f8 hh]
        exact h3 hc.1
    · rw [if_neg hc]
      simp only [Bool.and_eq_true, Bool.not_eq_true', decide_eq_true_eq, not_and, not_lt] at hc
      refine ⟨h2, ?_, h3⟩
      rcases Bool.eq_false_or_eq_true s.hit with hh | hh
      · left; exact hh
      · right
        have := hc hh
        omega

/-- As long as the loop has no hit, `wallType` keeps the value 1 it starts with. -/
theorem ddaLoop_wallType (map wallTypes : Grid) (doors : List Door) (deltaX deltaY : α)
    (stepX stepY : Int) (fuel : Nat) : ∀ s : DDAState α,
    (s.hit = false → s.wallType = 1) →
    (ddaLoop map wallTypes doors deltaX deltaY stepX stepY fuel s).hit = false →
    (ddaLoop map wallTypes doors deltaX deltaY stepX stepY fuel s).wallType = 1 := by
  induction fuel with
  | zero => intro s h3 hh; exact h3 hh
  | succ n ih =>
    intro s h3
    simp only [ddaLoop]
    by_cases hc : (!s.hit && decide (s.iterations < maxIterations)) = true
    · rw [if_pos hc]
      simp only [Bool.and_eq_true, Bool.not_eq_true', decide_eq_true_eq] at hc
      apply ih
      intro hh
      rw [(ddaStep_fields map wallTypes doors deltaX deltaY stepX stepY s).2.2.2.2.2.2.2 hh]
      exact h3 hc.1
    · rw [if_neg hc]
      exact h3

/-- More passes than the cap allows change nothing. -/
theorem ddaLoop_fuel (map wallTypes : Grid) (doors : List Door) (deltaX deltaY : α)
    (stepX stepY : Int) (k : Nat) (fuel : Nat) : ∀ s : DDAState α,
    maxIterations ≤ s.iterations + fuel →
    ddaLoop map wallTypes doors deltaX deltaY stepX stepY (fuel + k) s
      = ddaLoop map wallTypes doors deltaX deltaY stepX stepY fuel s := by
  induction fuel with
  | zero =>
    intro s h1
    cases k with
    | zero => rfl
    | succ k =>
      have : ¬ (s.iterations < maxIterations) := by omega
      simp [ddaLoop, this]
  | succ n ih =>
    intro s h1
    have e : n + 1 + k = (n + k) + 1 := by omega
    rw [e]
    simp only [ddaLoop]
    split_ifs
    · apply ih
      rw [(ddaStep_fields map wallTypes doors deltaX deltaY stepX stepY s).2.2.2.2.2.1]
      omega
    · rfl

theorem clampEps_ne_zero (c : α) : clampEps c ≠ 0 := by
  unfold clampEps
  split_ifs with h1 h2
  · norm_num
  · norm_num
  · intro h0
    apply h1
    rw [h0]
    norm_num

theorem clampEps_zero : clampEps (0 : α) = 1 / 10000 := by
  unfold clampEps
  rw [if_pos (by rw [abs_zero]; norm_num), if_neg (lt_irrefl _)]

theorem clampEps_one : clampEps (1 : α) = 1 := by
  unfold clampEps
  rw [if_neg]
  rw [abs_one]; norm_num

theorem clampEps_neg_one : clampEps (-1 : α) = -1 := by
  unfold clampEps
  rw [if_neg]
  rw [abs_neg, abs_one]; norm_num

theorem abs_inv_eps : |(1 : α) / (1 / 10000)| = 10000 := by
  rw [one_div_one_div]
  exact abs_of_pos (by norm_num)

theorem ddaLoop_running (map wallTypes : Grid) (doors : List Door) (deltaX deltaY : α)
    (stepX stepY : Int) (fuel : Nat) (s : DDAState α) (h : s.hit = false)
    (hi : s.iterations < maxIterations) :
    ddaLoop map wallTypes doors deltaX deltaY stepX stepY (fuel + 1) s
      = ddaLoop map wallTypes doors deltaX deltaY stepX stepY fuel
          (ddaStep map wallTypes doors deltaX deltaY stepX stepY s) := by
  simp [ddaLoop, h, hi]

theorem ddaLoop_of_hit (map wallTypes : Grid) (doors : List Door) (deltaX deltaY : α)
    (stepX stepY : Int) (fuel : Nat) (s : DDAState α) (h : s.hit = true) :
    ddaLoop map wallTypes doors deltaX deltaY stepX stepY fuel s = s := by
  cases fuel with
  | zero => rfl
  | succ n => simp [ddaLoop, h]

/-- A run of X steps: while `sideDistX` stays below `sideDistY`, the loop walks
along the row through `n` cells that are inside the grid and do not block, and
stops with `side = 0` in the next cell, which is outside the grid or blocks. -/
theorem ddaLoop_marchX (map wallTypes : Grid) (doors : List Door) (deltaX deltaY : α)
    (stepX stepY : Int) (hd : 0 ≤ deltaX) (n : Nat) : ∀ (fuel : Nat) (s : DDAState α),
    s.hit = false → n + 1 ≤ fuel → s.iterations + n + 1 ≤ maxIterations →
    s.sideDistX + (n : α) * deltaX < s.sideDistY →
    (∀ j : Nat, 1 ≤ j → j ≤ n →
      inGrid (s.currentMapX + (j : Int) * stepX) s.currentMapY = true
      ∧ cellBlocks map doors (s.currentMapX + (j : Int) * stepX) s.currentMapY = false) →
    (inGrid (s.currentMapX + ((n : Int) + 1) * stepX) s.currentMapY = false
      ∨ cellBlocks map doors (s.currentMapX + ((n : Int) + 1) * stepX) s.currentMapY = true) →
    (ddaLoop map wallTypes doors deltaX deltaY stepX stepY fuel s).hit = true
    ∧ (ddaLoop map wallTypes doors deltaX deltaY stepX stepY fuel s).side = 0
    ∧ (ddaLoop map wallTypes doors deltaX deltaY stepX stepY fuel s).currentMapX
        = s.currentMapX + ((n : Int) + 1) * stepX
    ∧ (ddaLoop map wallTypes doors deltaX deltaY stepX stepY fuel s).currentMapY
        = s.currentMapY := by
  induction n with
  | zero =>
    intro fuel s hh hf hi hlt _ hend
    obtain ⟨f, rfl⟩ : ∃ f, fuel = f + 1 := ⟨fuel - 1, by omega⟩
    have hlt0 : s.sideDistX < s.sideDistY := by simpa using hlt
    have hcond : (!s.hit && decide (s.iterations < maxIterations)) = true := by
      simp only [hh, Bool.not_false, Bool.true_and, decide_eq_true_eq]; omega
    obtain ⟨_, _, f3, f4, f5, _, f7, _⟩ :=
      ddaStep_fields map wallTypes doors deltaX deltaY stepX stepY s
    simp only [hlt0, if_true] at f3 f4 f5
    have hend2 : inGrid (s.currentMapX + stepX) s.currentMapY = false
        ∨ cellBlocks map doors (s.currentMapX + stepX) s.currentMapY = true := by
      simpa using hend
    have hhit : (ddaStep map wallTypes doors deltaX deltaY stepX stepY s).hit = true := by
      rw [f7, f3, f4]
      rcases hend2 with h | h <;> simp [h]
    simp only [ddaLoop]
    rw [if_pos hcond, ddaLoop_of_hit _ _ _ _ _ _ _ _ _ hhit]
    refine ⟨hhit, f5, ?_, f4⟩
    rw [f3]; simp
  | succ n ih =>
    intro fuel s hh hf hi hlt hfree hend
    obtain ⟨f, rfl⟩ : ∃ f, fuel = f + 1 := ⟨fuel - 1, by omega⟩
    have hnd : 0 ≤ ((n : α) + 1) * deltaX := mul_nonneg (by positivity) hd
    have hlt0 : s.sideDistX < s.sideDistY := by
      push_cast at hlt
      linarith
    have hcond : (!s.hit && decide (s.iterations < maxIterations)) = true := by
      simp only [hh, Bool.not_false, Bool.true_and, decide_eq_true_eq]; omega
    obtain ⟨f1, f2, f3, f4, _, f6, f7, _⟩ :=
      ddaStep_fields map wallTypes doors deltaX deltaY stepX stepY s
    simp only [hlt0, if_true] at f1 f2 f3 f4
    have h1 := hfree 1 (le_refl 1) (by omega)
    simp only [Nat.cast_one, one_mul] at h1
    have hnohit : (ddaStep map wallTypes doors deltaX deltaY stepX stepY s).hit = false := by
      rw [f7, f3, f4, hh, h1.1, h1.2]; rfl
    simp only [ddaLoop]
    rw [if_pos hcond]
    have key := ih f (ddaStep map wallTypes doors deltaX deltaY stepX stepY s) hnohit
      (by omega) (by rw [f6]; omega)
      (by rw [f1, f2]; push_cast at hlt; linarith)
      (by
        intro j hj1 hj2
        have := hfree (j + 1) (by omega) (by omega)
        rw [f3, f4]
        have e : s.currentMapX + stepX + (j : Int) * stepX
            = s.currentMapX + ((j + 1 : Nat) : Int) * stepX := by push_cast; ring
        rw [e]; exact this)
      (by
        rw [f3, f4]
        have e : s.currentMapX + stepX + ((n : Int) + 1) * stepX
            = s.currentMapX + (((n + 1 : Nat) : Int) + 1) * stepX := by push_cast; ring
        rw [e]; exact hend)
    obtain ⟨k1, k2, k3, k4⟩ := key
    refine ⟨k1, k2, ?_, by rw [k4, f4]⟩
    rw [k3, f3]; push_cast; ring

/-- A run of Y steps: while `sideDistY` stays at most `sideDistX` (a tie
advances Y), the loop walks along the column through `n` cells that are inside
the grid and do not block, and stops with `side = 1` in the next cell, which is
outside the grid or blocks. -/
theorem ddaLoop_marchY (map wallTypes : Grid) (doors : List Door) (deltaX deltaY : α)
    (stepX stepY : Int) (hd : 0 ≤ deltaY) (n : Nat) : ∀ (fuel : Nat) (s : DDAState α),
    s.hit = false → n + 1 ≤ fuel → s.iterations + n + 1 ≤ maxIterations →
    s.sideDistY + (n : α) * deltaY ≤ s.sideDistX →
    (∀ j : Nat, 1 ≤ j → j ≤ n →
      inGrid s.currentMapX (s.currentMapY + (j : Int) * stepY) = true
      ∧ cellBlocks map doors s.currentMapX (s.currentMapY + (j : Int) * stepY) = false) →
    (inGrid s.currentMapX (s.currentMapY + ((n : Int) + 1) * stepY) = false
      ∨ cellBlocks map doors s.currentMapX (s.currentMapY + ((n : Int) + 1) * stepY) = true) →
    (ddaLoop map wallTypes doors deltaX deltaY stepX stepY fuel s).hit = true
    ∧ (ddaLoop map wallTypes doors deltaX deltaY stepX stepY fuel s).side = 1
    ∧ (ddaLoop map wallTypes doors deltaX deltaY stepX stepY fuel s).currentMapX
        = s.currentMapX
    ∧ (ddaLoop map wallTypes doors deltaX deltaY stepX stepY fuel s).currentMapY
        = s.currentMapY + ((n : Int) + 1) * stepY := by
  induction n with
  | zero =>
    intro fuel s hh hf hi hle _ hend
    obtain ⟨f, rfl⟩ : ∃ f, fuel = f + 1 := ⟨fuel - 1, by omega⟩
    have hlt0 : ¬ s.sideDistX < s.sideDistY := by
      have : s.sideDistY ≤ s.sideDistX := by simpa using hle
      exact not_lt.mpr this
    have hcond : (!s.hit && decide (s.iterations < maxIterations)) = true := by
      simp only [hh, Bool.not_false, Bool.true_and, decide_eq_true_eq]; omega
    obtain ⟨_, _, f3, f4, f5, _, f7, _⟩ :=
      ddaStep_fields map wallTypes doors deltaX deltaY stepX stepY s
    simp only [hlt0, if_false] at f3 f4 f5
    have hend2 : inGrid s.currentMapX (s.currentMapY + stepY) = false
        ∨ cellBlocks map doors s.currentMapX (s.currentMapY + stepY) = true := by
      simpa using hend
    have hhit : (ddaStep map wallTypes doors deltaX deltaY stepX stepY s).hit = true := by
      rw [f7, f3, f4]
      rcases hend2 with h | h <;> simp [h]
    simp only [ddaLoop]
    rw [if_pos hcond, ddaLoop_of_hit _ _ _ _ _ _ _ _ _ hhit]
    refine ⟨hhit, f5, f3, ?_⟩
    rw [f4]; simp
  | succ n ih =>
    intro fuel s hh hf hi hle hfree hend
    obtain ⟨f, rfl⟩ : ∃ f, fuel = f + 1 := ⟨fuel - 1, by omega⟩
    have hnd : 0 ≤ ((n : α) + 1) * deltaY := mul_nonneg (by positivity) hd
    have hlt0 : ¬ s.sideDistX < s.sideDistY := by
      push_cast at hle
      exact not_lt.mpr (by linarith)
    have hcond : (!s.hit && decide (s.iterations < maxIterations)) = true := by
      simp only [hh, Bool.not_false, Bool.true_and, decide_eq_true_eq]; omega
    obtain ⟨f1, f2, f3, f4, _, f6, f7, _⟩ :=
      ddaStep_fields map wallTypes doors deltaX deltaY stepX stepY s
    simp only [hlt0, if_false] at f1 f2 f3 f4
    have h1 := hfree 1 (le_refl 1) (by omega)
    simp only [Nat.cast_one, one_mul] at h1
    have hnohit : (ddaStep map wallTypes doors deltaX deltaY stepX stepY s).hit = false := by
      rw [f7, f3, f4, hh, h1.1, h1.2]; rfl
    simp only [ddaLoop]
    rw [if_pos hcond]
    have key := ih f (ddaStep map wallTypes doors deltaX deltaY stepX stepY s) hnohit
      (by omega) (by rw [f6]; omega)
      (by rw [f1, f2]; push_cast at hle; linarith)
      (by
        intro j hj1 hj2
        have := hfree (j + 1) (by omega) (by omega)
        rw [f3, f4]
        have e : s.currentMapY + stepY + (j : Int) * stepY
            = s.currentMapY + ((j + 1 : Nat) : Int) * stepY := by push_cast; ring
        rw [e]; exact this)
      (by
        rw [f3, f4]
        have e : s.currentMapY + stepY + ((n : Int) + 1) * stepY
            = s.currentMapY + (((n + 1 : Nat) : Int) + 1) * stepY := by push_cast; ring
        rw [e]; exact hend)
    obtain ⟨k1, k2, k3, k4⟩ := key
    refine ⟨k1, k2, by rw [k3, f3], ?_⟩
    rw [k4, f4]; push_cast; ring

end StepLemmas


section RayLemmas

variable {α : Type} [LinearOrderedField α] [FloorRing α]

/-- The set-up of `castRay` for the direction `cos = 1`, `sin = 0`. -/
theorem raySetup_east (x y : α) :
    raySetup x y 0 1 =
      { sin := 1 / 10000, cos := 1, deltaX := 1, deltaY := 10000, stepX := 1, stepY := 1,
        init := { sideDistX := ((⌊x / (TILE_SIZE : α)⌋ : α) + 1 - x / (TILE_SIZE : α)) * 1,
                  sideDistY := ((⌊y / (TILE_SIZE : α)⌋ : α) + 1 - y / (TILE_SIZE : α)) * 10000,
                  currentMapX := ⌊x / (TILE_SIZE : α)⌋, currentMapY := ⌊y / (TILE_SIZE : α)⌋,
                  side := 0, hit := false, wallType := 1, iterations := 0 } } := by
  have h1 : ¬ ((1 : α) < 0) := by norm_num
  have h2 : ¬ ((1 : α) / 10000 < 0) := by norm_num
  simp only [raySetup, clampEps_zero, clampEps_one, abs_inv_eps, h1, h2, if_false, div_one,
    abs_one]

/-- The set-up of `castRay` for the direction `cos = -1`, `sin = 0`. -/
theorem raySetup_west (x y : α) :
    raySetup x y 0 (-1) =
      { sin := 1 / 10000, cos := -1, deltaX := 1, deltaY := 10000, stepX := -1, stepY := 1,
        init := { sideDistX := (x / (TILE_SIZE : α) - (⌊x / (TILE_SIZE : α)⌋ : α)) * 1,
                  sideDistY := ((⌊y / (TILE_SIZE : α)⌋ : α) + 1 - y / (TILE_SIZE : α)) * 10000,
                  currentMapX := ⌊x / (TILE_SIZE : α)⌋, currentMapY := ⌊y / (TILE_SIZE : α)⌋,
                  side := 0, hit := false, wallType := 1, iterations := 0 } } := by
  have h1 : ((-1 : α) < 0) := by norm_num
  have h2 : ¬ ((1 : α) / 10000 < 0) := by norm_num
  have h3 : |(1 : α) / (-1)| = 1 := by rw [div_neg, div_one, abs_neg, abs_one]
  simp only [raySetup, clampEps_zero, clampEps_neg_one, abs_inv_eps, h1, h2, h3, if_false,
    if_true]

/-- The set-up of `castRay` for the direction `cos = 0`, `sin = 1`. -/
theorem raySetup_south (x y : α) :
    raySetup x y 1 0 =
      { sin := 1, cos := 1 / 10000, deltaX := 10000, deltaY := 1, stepX := 1, stepY := 1,
        init := { sideDistX := ((⌊x / (TILE_SIZE : α)⌋ : α) + 1 - x / (TILE_SIZE : α)) * 10000,
                  sideDistY := ((⌊y / (TILE_SIZE : α)⌋ : α) + 1 - y / (TILE_SIZE : α)) * 1,
                  currentMapX := ⌊x / (TILE_SIZE : α)⌋, currentMapY := ⌊y / (TILE_SIZE : α)⌋,
                  side := 0, hit := false, wallType := 1, iterations := 0 } } := by
  have h1 : ¬ ((1 : α) < 0) := by norm_num
  have h2 : ¬ ((1 : α) / 10000 < 0) := by norm_num
  simp only [raySetup, clampEps_zero, clampEps_one, abs_inv_eps, h1, h2, if_false, div_one,
    abs_one]

/-- The set-up of `castRay` for the direction `cos = 0`, `sin = -1`. -/
theorem raySetup_north (x y : α) :
    raySetup x y (-1) 0 =
      { sin := -1, cos := 1 / 10000, deltaX := 10000, deltaY := 1, stepX := 1, stepY := -1,
        init := { sideDistX := ((⌊x / (TILE_SIZE : α)⌋ : α) + 1 - x / (TILE_SIZE : α)) * 10000,
                  sideDistY := (y / (TILE_SIZE : α) - (⌊y / (TILE_SIZE : α)⌋ : α)) * 1,
                  currentMapX := ⌊x / (TILE_SIZE : α)⌋, currentMapY := ⌊y / (TILE_SIZE : α)⌋,
                  side := 0, hit := false, wallType := 1, iterations := 0 } } := by
  have h1 : ((-1 : α) < 0) := by norm_num
  have h2 : ¬ ((1 : α) / 10000 < 0) := by norm_num
  have h3 : |(1 : α) / (-1)| = 1 := by rw [div_neg, div_one, abs_neg, abs_one]
  simp only [raySetup, clampEps_zero, clampEps_neg_one, abs_inv_eps, h1, h2, h3, if_false,
    if_true]

theorem inGrid_iff (mx my : Int) :
    inGrid mx my = true ↔ 0 ≤ mx ∧ mx < 12 ∧ 0 ≤ my ∧ my < 9 := by
  simp only [inGrid, MAP_WIDTH, MAP_HEIGHT, Bool.and_eq_true, decide_eq_true_eq, Nat.cast_ofNat]
  tauto

/-- A ray along +x that does not drift out of its row ends on the first
blocking cell of the row. -/
theorem castRay_east (map wallTypes : Grid) (doors : List Door) (x y : α) (c : Int)
    (hin : inGrid ⌊x / (TILE_SIZE : α)⌋ ⌊y / (TILE_SIZE : α)⌋ = true)
    (hc : ⌊x / (TILE_SIZE : α)⌋ < c) (hcw : c < MAP_WIDTH)
    (hfree : ∀ j : Int, ⌊x / (TILE_SIZE : α)⌋ < j → j < c →
      cellBlocks map doors j ⌊y / (TILE_SIZE : α)⌋ = false)
    (hblk : cellBlocks map doors c ⌊y / (TILE_SIZE : α)⌋ = true)
    (hdrift : (c : α) - x / (TILE_SIZE : α)
      < ((⌊y / (TILE_SIZE : α)⌋ : α) + 1 - y / (TILE_SIZE : α)) * 10000) :
    (castRay map wallTypes doors x y 0 1).side = 0
    ∧ (castRay map wallTypes doors x y 0 1).mapX = c
    ∧ (castRay map wallTypes doors x y 0 1).mapY = ⌊y / (TILE_SIZE : α)⌋
    ∧ (castRay map wallTypes doors x y 0 1).distance
        = max 1 (min ((c : α) * (TILE_SIZE : α) - x) (MAX_DEPTH : α)) := by
  have hT : ((TILE_SIZE : Nat) : α) = 64 := by norm_num [TILE_SIZE]
  have hg := (inGrid_iff _ _).mp hin
  have hcw2 : c < 12 := by simpa [MAP_WIDTH] using hcw
  obtain ⟨n, hn⟩ : ∃ n : Nat, (n : Int) = c - ⌊x / (TILE_SIZE : α)⌋ - 1 :=
    ⟨(c - ⌊x / (TILE_SIZE : α)⌋ - 1).toNat, Int.toNat_of_nonneg (by omega)⟩
  have hnα : (n : α) = (c : α) - (⌊x / (TILE_SIZE : α)⌋ : α) - 1 := by
    have := congrArg (fun z : Int => (z : α)) hn
    simpa using this
  have hfl : x / (TILE_SIZE : α) < (⌊x / (TILE_SIZE : α)⌋ : α) + 1 := Int.lt_floor_add_one _
  have hL : (rayLoop map wallTypes doors x y 0 1).hit = true
      ∧ (rayLoop map wallTypes doors x y 0 1).side = 0
      ∧ (rayLoop map wallTypes doors x y 0 1).currentMapX = c
      ∧ (rayLoop map wallTypes doors x y 0 1).currentMapY = ⌊y / (TILE_SIZE : α)⌋ := by
    have key := ddaLoop_marchX map wallTypes doors (1 : α) 10000 1 1 (by norm_num) n maxIterations
      (raySetup x y 0 1).init rfl
      (by rw [show maxIterations = 24 from by decide]; omega)
      (by rw [show maxIterations = 24 from by decide, raySetup_east]; simp only []; omega)
      (by rw [raySetup_east]; simp only []; rw [hnα]; linarith)
      (by
        intro j hj1 hj2
        rw [raySetup_east]
        simp only [mul_one]
        refine ⟨(inGrid_iff _ _).mpr ⟨by omega, by omega, hg.2.2.1, hg.2.2.2⟩, ?_⟩
        exact hfree _ (by omega) (by omega))
      (by
        right
        rw [raySetup_east]
        simp only [mul_one]
        rw [hn]
        have e : ⌊x / (TILE_SIZE : α)⌋ + (c - ⌊x / (TILE_SIZE : α)⌋ - 1 + 1) = c := by ring
        rw [e]; exact hblk)
    unfold rayLoop
    simp only [raySetup_east] at key ⊢
    obtain ⟨k1, k2, k3, k4⟩ := key
    refine ⟨k1, k2, ?_, k4⟩
    rw [k3, hn]; ring
  obtain ⟨_, l2, l3, l4⟩ := hL
  refine ⟨l2, l3, l4, ?_⟩
  have hpos : 0 ≤ (c : α) * 64 - x := by
    have h1 : (⌊x / (TILE_SIZE : α)⌋ : α) + 1 ≤ (c : α) := by exact_mod_cast hc
    rw [hT] at hfl h1
    have h2 : x / 64 < (c : α) := lt_of_lt_of_le hfl h1
    rw [div_lt_iff₀ (by norm_num)] at h2
    linarith
  simp only [castRay, rayHit, l2, l3, raySetup_east, if_true, hT]
  congr 2
  rw [show ((1 - 1 : Int) : α) = 0 from by norm_num]
  rw [show ((c : α) - x / 64 + 0 / 2) / 1 * 64 = (c : α) * 64 - x from by field_simp]
  exact abs_of_nonneg hpos

/-- A ray along -x that does not drift out of its row ends on the first
blocking cell of the row. -/
theorem castRay_west (map wallTypes : Grid) (doors : List Door) (x y : α) (c : Int)
    (hin : inGrid ⌊x / (TILE_SIZE : α)⌋ ⌊y / (TILE_SIZE : α)⌋ = true)
    (hc : c < ⌊x / (TILE_SIZE : α)⌋) (hc0 : 0 ≤ c)
    (hfree : ∀ j : Int, c < j → j < ⌊x / (TILE_SIZE : α)⌋ →
      cellBlocks map doors j ⌊y / (TILE_SIZE : α)⌋ = false)
    (hblk : cellBlocks map doors c ⌊y / (TILE_SIZE : α)⌋ = true)
    (hdrift : x / (TILE_SIZE : α) - ((c : α) + 1)
      < ((⌊y / (TILE_SIZE : α)⌋ : α) + 1 - y / (TILE_SIZE : α)) * 10000) :
    (castRay map wallTypes doors x y 0 (-1)).side = 0
    ∧ (castRay map wallTypes doors x y 0 (-1)).mapX = c
    ∧ (castRay map wallTypes doors x y 0 (-1)).mapY = ⌊y / (TILE_SIZE : α)⌋
    ∧ (castRay map wallTypes doors x y 0 (-1)).distance
        = max 1 (min (x - ((c : α) + 1) * (TILE_SIZE : α)) (MAX_DEPTH : α)) := by
  have hT : ((TILE_SIZE : Nat) : α) = 64 := by norm_num [TILE_SIZE]
  have hg := (inGrid_iff _ _).mp hin
  obtain ⟨n, hn⟩ : ∃ n : Nat, (n : Int) = ⌊x / (TILE_SIZE : α)⌋ - c - 1 :=
    ⟨(⌊x / (TILE_SIZE : α)⌋ - c - 1).toNat, Int.toNat_of_nonneg (by omega)⟩
  have hnα : (n : α) = (⌊x / (TILE_SIZE : α)⌋ : α) - (c : α) - 1 := by
    have := congrArg (fun z : Int => (z : α)) hn
    simpa using this
  have hfl : (⌊x / (TILE_SIZE : α)⌋ : α) ≤ x / (TILE_SIZE : α) := Int.floor_le _
  have hL : (rayLoop map wallTypes doors x y 0 (-1)).hit = true
      ∧ (rayLoop map wallTypes doors x y 0 (-1)).side = 0
      ∧ (rayLoop map wallTypes doors x y 0 (-1)).currentMapX = c
      ∧ (rayLoop map wallTypes doors x y 0 (-1)).currentMapY = ⌊y / (TILE_SIZE : α)⌋ := by
    have key := ddaLoop_marchX map wallTypes doors (1 : α) 10000 (-1) 1 (by norm_num) n
      maxIterations (raySetup x y 0 (-1)).init rfl
      (by rw [show maxIterations = 24 from by decide]; omega)
      (by rw [show maxIterations = 24 from by decide, raySetup_west]; simp only []; omega)
      (by rw [raySetup_west]; simp only []; rw [hnα]; linarith)
      (by
        intro j hj1 hj2
        rw [raySetup_west]
        simp only []
        refine ⟨(inGrid_iff _ _).mpr ⟨by omega, by omega, hg.2.2.1, hg.2.2.2⟩, ?_⟩
        exact hfree _ (by omega) (by omega))
      (by
        right
        rw [raySetup_west]
        simp only []
        rw [hn]
        have e : ⌊x / (TILE_SIZE : α)⌋ + (⌊x / (TILE_SIZE : α)⌋ - c - 1 + 1) * -1 = c := by ring
        rw [e]; exact hblk)
    unfold rayLoop
    simp only [raySetup_west] at key ⊢
    obtain ⟨k1, k2, k3, k4⟩ := key
    refine ⟨k1, k2, ?_, k4⟩
    rw [k3, hn]; ring
  obtain ⟨_, l2, l3, l4⟩ := hL
  refine ⟨l2, l3, l4, ?_⟩
  have hpos : 0 ≤ x - ((c : α) + 1) * 64 := by
    have h1 : (c : α) + 1 ≤ (⌊x / (TILE_SIZE : α)⌋ : α) := by exact_mod_cast hc
    rw [hT] at hfl h1
    have h2 : (c : α) + 1 ≤ x / 64 := le_trans h1 hfl
    rw [le_div_iff₀ (by norm_num)] at h2
    linarith
  simp only [castRay, rayHit, l2, l3, raySetup_west, if_true, hT]
  congr 2
  rw [show ((1 - -1 : Int) : α) = 2 from by norm_num]
  rw [show ((c : α) - x / 64 + 2 / 2) / -1 * 64 = x - ((c : α) + 1) * 64 from by
    rw [div_neg, div_one]; field_simp; ring]
  exact abs_of_nonneg hpos

/-- A ray along +y that does not drift out of its column ends on the first
blocking cell of the column. -/
theorem castRay_south (map wallTypes : Grid) (doors : List Door) (x y : α) (r : Int)
    (hin : inGrid ⌊x / (TILE_SIZE : α)⌋ ⌊y / (TILE_SIZE : α)⌋ = true)
    (hr : ⌊y / (TILE_SIZE : α)⌋ < r) (hrh : r < MAP_HEIGHT)
    (hfree : ∀ j : Int, ⌊y / (TILE_SIZE : α)⌋ < j → j < r →
      cellBlocks map doors ⌊x / (TILE_SIZE : α)⌋ j = false)
    (hblk : cellBlocks map doors ⌊x / (TILE_SIZE : α)⌋ r = true)
    (hdrift : (r : α) - y / (TILE_SIZE : α)
      ≤ ((⌊x / (TILE_SIZE : α)⌋ : α) + 1 - x / (TILE_SIZE : α)) * 10000) :
    (castRay map wallTypes doors x y 1 0).side = 1
    ∧ (castRay map wallTypes doors x y 1 0).mapX = ⌊x / (TILE_SIZE : α)⌋
    ∧ (castRay map wallTypes doors x y 1 0).mapY = r
    ∧ (castRay map wallTypes doors x y 1 0).distance
        = max 1 (min ((r : α) * (TILE_SIZE : α) - y) (MAX_DEPTH : α)) := by
  have hT : ((TILE_SIZE : Nat) : α) = 64 := by norm_num [TILE_SIZE]
  have hg := (inGrid_iff _ _).mp hin
  have hrh2 : r < 9 := by simpa [MAP_HEIGHT] using hrh
  obtain ⟨n, hn⟩ : ∃ n : Nat, (n : Int) = r - ⌊y / (TILE_SIZE : α)⌋ - 1 :=
    ⟨(r - ⌊y / (TILE_SIZE : α)⌋ - 1).toNat, Int.toNat_of_nonneg (by omega)⟩
  have hnα : (n : α) = (r : α) - (⌊y / (TILE_SIZE : α)⌋ : α) - 1 := by
    have := congrArg (fun z : Int => (z : α)) hn
    simpa using this
  have hfl : y / (TILE_SIZE : α) < (⌊y / (TILE_SIZE : α)⌋ : α) + 1 := Int.lt_floor_add_one _
  have hL : (rayLoop map wallTypes doors x y 1 0).hit = true
      ∧ (rayLoop map wallTypes doors x y 1 0).side = 1
      ∧ (rayLoop map wallTypes doors x y 1 0).currentMapX = ⌊x / (TILE_SIZE : α)⌋
      ∧ (rayLoop map wallTypes doors x y 1 0).currentMapY = r := by
    have key := ddaLoop_marchY map wallTypes doors (10000 : α) 1 1 1 (by norm_num) n maxIterations
      (raySetup x y 1 0).init rfl
      (by rw [show maxIterations = 24 from by decide]; omega)
      (by rw [show maxIterations = 24 from by decide, raySetup_south]; simp only []; omega)
      (by rw [raySetup_south]; simp only []; rw [hnα]; linarith)
      (by
        intro j hj1 hj2
        rw [raySetup_south]
        simp only [mul_one]
        refine ⟨(inGrid_iff _ _).mpr ⟨hg.1, hg.2.1, by omega, by omega⟩, ?_⟩
        exact hfree _ (by omega) (by omega))
      (by
        right
        rw [raySetup_south]
        simp only [mul_one]
        rw [hn]
        have e : ⌊y / (TILE_SIZE : α)⌋ + (r - ⌊y / (TILE_SIZE : α)⌋ - 1 + 1) = r := by ring
        rw [e]; exact hblk)
    unfold rayLoop
    simp only [raySetup_south] at key ⊢
    obtain ⟨k1, k2, k3, k4⟩ := key
    refine ⟨k1, k2, k3, ?_⟩
    rw [k4, hn]; ring
  obtain ⟨_, l2, l3, l4⟩ := hL
  refine ⟨l2, l3, l4, ?_⟩
  have hpos : 0 ≤ (r : α) * 64 - y := by
    have h1 : (⌊y / (TILE_SIZE : α)⌋ : α) + 1 ≤ (r : α) := by exact_mod_cast hr
    rw [hT] at hfl h1
    have h2 : y / 64 < (r : α) := lt_of_lt_of_le hfl h1
    rw [div_lt_iff₀ (by norm_num)] at h2
    linarith
  have h10 : ¬ ((1 : Nat) = 0) := by decide
  simp only [castRay, rayHit, l2, l4, raySetup_south, h10, if_false, hT]
  congr 2
  rw [show ((1 - 1 : Int) : α) = 0 from by norm_num]
  rw [show ((r : α) - y / 64 + 0 / 2) / 1 * 64 = (r : α) * 64 - y from by field_simp]
  exact abs_of_nonneg hpos

/-- A ray along -y that does not drift out of its column ends on the first
blocking cell of the column. -/
theorem castRay_north (map wallTypes : Grid) (doors : List Door) (x y : α) (r : Int)
    (hin : inGrid ⌊x / (TILE_SIZE : α)⌋ ⌊y / (TILE_SIZE : α)⌋ = true)
    (hr : r < ⌊y / (TILE_SIZE : α)⌋) (hr0 : 0 ≤ r)
    (hfree : ∀ j : Int, r < j → j < ⌊y / (TILE_SIZE : α)⌋ →
      cellBlocks map doors ⌊x / (TILE_SIZE : α)⌋ j = false)
    (hblk : cellBlocks map doors ⌊x / (TILE_SIZE : α)⌋ r = true)
    (hdrift : y / (TILE_SIZE : α) - ((r : α) + 1)
      ≤ ((⌊x / (TILE_SIZE : α)⌋ : α) + 1 - x / (TILE_SIZE : α)) * 10000) :
    (castRay map wallTypes doors x y (-1) 0).side = 1
    ∧ (castRay map wallTypes doors x y (-1) 0).mapX = ⌊x / (TILE_SIZE : α)⌋
    ∧ (castRay map wallTypes doors x y (-1) 0).mapY = r
    ∧ (castRay map wallTypes doors x y (-1) 0).distance
        = max 1 (min (y - ((r : α) + 1) * (TILE_SIZE : α)) (MAX_DEPTH : α)) := by
  have hT : ((TILE_SIZE : Nat) : α) = 64 := by norm_num [TILE_SIZE]
  have hg := (inGrid_iff _ _).mp hin
  obtain ⟨n, hn⟩ : ∃ n : Nat, (n : Int) = ⌊y / (TILE_SIZE : α)⌋ - r - 1 :=
    ⟨(⌊y / (TILE_SIZE : α)⌋ - r - 1).toNat, Int.toNat_of_nonneg (by omega)⟩
  have hnα : (n : α) = (⌊y / (TILE_SIZE : α)⌋ : α) - (r : α) - 1 := by
    have := congrArg (fun z : Int => (z : α)) hn
    simpa using this
  have hfl : (⌊y / (TILE_SIZE : α)⌋ : α) ≤ y / (TILE_SIZE : α) := Int.floor_le _
  have hL : (rayLoop map wallTypes doors x y (-1) 0).hit = true
      ∧ (rayLoop map wallTypes doors x y (-1) 0).side = 1
      ∧ (rayLoop map wallTypes doors x y (-1) 0).currentMapX = ⌊x / (TILE_SIZE : α)⌋
      ∧ (rayLoop map wallTypes doors x y (-1) 0).currentMapY = r := by
    have key := ddaLoop_marchY map wallTypes doors (10000 : α) 1 1 (-1) (by norm_num) n
      maxIterations (raySetup x y (-1) 0).init rfl
      (by rw [show maxIterations = 24 from by decide]; omega)
      (by rw [show maxIterations = 24 from by decide, raySetup_north]; simp only []; omega)
      (by rw [raySetup_north]; simp only []; rw [hnα]; linarith)
      (by
        intro j hj1 hj2
        rw [raySetup_north]
        simp only []
        refine ⟨(inGrid_iff _ _).mpr ⟨hg.1, hg.2.1, by omega, by omega⟩, ?_⟩
        exact hfree _ (by omega) (by omega))
      (by
        right
        rw [raySetup_north]
        simp only []
        rw [hn]
        have e : ⌊y / (TILE_SIZE : α)⌋ + (⌊y / (TILE_SIZE : α)⌋ - r - 1 + 1) * -1 = r := by ring
        rw [e]; exact hblk)
    unfold rayLoop
    simp only [raySetup_north] at key ⊢
    obtain ⟨k1, k2, k3, k4⟩ := key
    refine ⟨k1, k2, k3, ?_⟩
    rw [k4, hn]; ring
  obtain ⟨_, l2, l3, l4⟩ := hL
  refine ⟨l2, l3, l4, ?_⟩
  have hpos : 0 ≤ y - ((r : α) + 1) * 64 := by
    have h1 : (r : α) + 1 ≤ (⌊y / (TILE_SIZE : α)⌋ : α) := by exact_mod_cast hr
    rw [hT] at hfl h1
    have h2 : (r : α) + 1 ≤ y / 64 := le_trans h1 hfl
    rw [le_div_iff₀ (by norm_num)] at h2
    linarith
  have h10 : ¬ ((1 : Nat) = 0) := by decide
  simp only [castRay, rayHit, l2, l4, raySetup_north, h10, if_false, hT]
  congr 2
  rw [show ((1 - -1 : Int) : α) = 2 from by norm_num]
  rw [show ((r : α) - y / 64 + 2 / 2) / -1 * 64 = y - ((r : α) + 1) * 64 from by
    rw [div_neg, div_one]; field_simp; ring]
  exact abs_of_nonneg hpos

end RayLemmas

/-! ## Claims -/

section Claims

variable {α : Type} [LinearOrderedField α] [FloorRing α]

/-- C1: for a DOOR cell `c = (cx, cy)` whose door (the entry the lookup of the
source finds at `c`) is `d`: while `d` is locked, `checkGridCollision` returns
for every `x`, `y`, `r` what it returns on the map with `c` replaced by WALL;
once `d` is unlocked, what it returns on the map with `c` replaced by EMPTY;
and at a point in the cell `c` of the grid with radius 0 the result is
`d.locked`, so the door cell is passable iff `locked == false`. -/
theorem door_collision_equiv (map : Grid) (doors : List Door) (cx cy : Int) (d : Door)
    (hcx : 0 ≤ cx) (hcy : 0 ≤ cy) (hcell : cellAt map cx cy = DOOR)
    (hdoor : findDoor doors cx cy = some d) :
    (d.locked = true → ∀ x y r : α,
        checkGridCollision map doors x y r
          = checkGridCollision (setCell map cx cy WALL) doors x y r)
    ∧ (d.locked = false → ∀ x y r : α,
        checkGridCollision map doors x y r
          = checkGridCollision (setCell map cx cy EMPTY) doors x y r)
    ∧ (∀ x y : α, ⌊x / (TILE_SIZE : α)⌋ = cx → ⌊y / (TILE_SIZE : α)⌋ = cy →
        cx < MAP_WIDTH → cy < MAP_HEIGHT →
        (checkGridCollision map doors x y 0 = false ↔ d.locked = false)) := by
  have key := cellBlocks_setCell_door map doors cx cy d hcx hcy hcell hdoor
  refine ⟨?_, ?_, ?_⟩
  · intro hl x y r
    apply checkGridCollision_congr
    intro mx my hg
    have := key mx my hg
    rwa [hl] at this
  · intro hl x y r
    apply checkGridCollision_congr
    intro mx my hg
    have := key mx my hg
    rwa [hl] at this
  · intro x y hx hy hw hh
    have hg : inGrid cx cy = true := by simp [inGrid, hcx, hcy, hw, hh]
    have hl : doorLockedAt doors cx cy = d.locked := by simp [doorLockedAt, hdoor]
    have hb : cellBlocks map doors cx cy = d.locked := by
      simp [cellBlocks, hcell, hl, DOOR]
    rw [checkGridCollision_eq]
    simp only [corners, cornerHit_eq, sub_zero, add_zero, List.any_cons, List.any_nil, hx, hy, hg, hb]
    cases d.locked <;> simp

/-- Witness of C1 on the generated level: the door of puzzle 1 at cell (4, 3),
tested from a point next to it. -/
theorem door_collision_equiv_witness :
    (0 : Int) ≤ 4 ∧ (0 : Int) ≤ 3 ∧ cellAt generateLevel.map 4 3 = DOOR
    ∧ findDoor generateLevel.doors 4 3
        = some { mapX := 4, mapY := 3, locked := true, puzzleId := 1 }
    ∧ checkGridCollision generateLevel.map generateLevel.doors (250 : ℚ) 224 8
        = checkGridCollision (setCell generateLevel.map 4 3 WALL) generateLevel.doors (250 : ℚ) 224 8 :=
  ⟨by decide, by decide, by decide, by decide,
    (door_collision_equiv (α := ℚ) generateLevel.map generateLevel.doors 4 3
      { mapX := 4, mapY := 3, locked := true, puzzleId := 1 }
      (by decide) (by decide) (by decide) (by decide)).1 rfl 250 224 8⟩

/-- C2, as stated, fails: on the generated level the point (96, 96) with radius
100 has three corners outside the grid, so the rule of the specification calls
it blocked, and `checkGridCollision` returns `false`. -/
theorem checkGridCollision_spec_counterexample :
    (0 : ℚ) ≤ 100
    ∧ checkGridCollision generateLevel.map generateLevel.doors (96 : ℚ) 96 100 = false
    ∧ specIsBlocked generateLevel.map generateLevel.doors (96 : ℚ) 96 100 := by
  refine ⟨by norm_num, ?_, ?_⟩
  · rw [checkGridCollision_cells generateLevel.map generateLevel.doors (96 : ℚ) 96 100
      1 1 (-1) 3 (-1) 3
      (floor_div_tile _ _ (by norm_num) (by norm_num))
      (floor_div_tile _ _ (by norm_num) (by norm_num))
      (floor_div_tile _ _ (by norm_num) (by norm_num))
      (floor_div_tile _ _ (by norm_num) (by norm_num))
      (floor_div_tile _ _ (by norm_num) (by norm_num))
      (floor_div_tile _ _ (by norm_num) (by norm_num))]
    decide
  · right; left
    have h : ⌊((96 : ℚ) - 100) / (TILE_SIZE : ℚ)⌋ = -1 :=
      floor_div_tile _ _ (by norm_num) (by norm_num)
    simp only [specBlockingPoint, h]
    left; left
    decide

/-- C2, amended: `checkGridCollision` returns `true` iff the centre lies in a
cell that is outside the grid, a WALL or a locked DOOR, or one of the four
corners lies in a cell inside the grid that is a WALL or a locked DOOR (a
corner outside the grid does not block). -/
theorem checkGridCollision_iff (map : Grid) (doors : List Door) (x y r : α) :
    checkGridCollision map doors x y r = true ↔
      (specBlockingPoint map doors x y
        ∨ cornerBlockingPoint map doors (x - r) (y - r)
        ∨ cornerBlockingPoint map doors (x + r) (y - r)
        ∨ cornerBlockingPoint map doors (x - r) (y + r)
        ∨ cornerBlockingPoint map doors (x + r) (y + r)) := by
  have hc : ∀ cx cy : α, cornerHit map doors cx cy = true ↔ cornerBlockingPoint map doors cx cy := by
    intro cx cy
    rw [cornerHit_eq]
    simp only [inGrid, cellBlocks, cornerBlockingPoint, WALL, DOOR, Bool.and_eq_true,
      Bool.or_eq_true, decide_eq_true_eq]
    tauto
  have h0 : ((!inGrid ⌊x / (TILE_SIZE : α)⌋ ⌊y / (TILE_SIZE : α)⌋) = true
        ∨ cellBlocks map doors ⌊x / (TILE_SIZE : α)⌋ ⌊y / (TILE_SIZE : α)⌋ = true)
      ↔ specBlockingPoint map doors x y := by
    simp only [inGrid, cellBlocks, specBlockingPoint, WALL, DOOR, Bool.and_eq_true,
      Bool.or_eq_true, decide_eq_true_eq, Bool.not_eq_true', Bool.and_eq_false_iff,
      decide_eq_false_iff_not, not_le, not_lt, ge_iff_le]
    tauto
  rw [checkGridCollision_eq]
  simp only [corners, List.any_cons, List.any_nil, Bool.or_eq_true, Bool.or_false, hc]
  rw [h0]

/-- C3: when the centre cell and the four corner cells all lie inside the grid
and are EMPTY, `checkGridCollision` returns `false`; and when some corner
`(x ± r, y ± r)` lies in a WALL cell of the grid, it returns `true`. -/
theorem checkGridCollision_empty_and_wall (map : Grid) (doors : List Door) (x y r : α) :
    ((∀ p ∈ (x, y) :: corners x y r,
        inGrid ⌊p.1 / (TILE_SIZE : α)⌋ ⌊p.2 / (TILE_SIZE : α)⌋ = true
        ∧ cellAt map ⌊p.1 / (TILE_SIZE : α)⌋ ⌊p.2 / (TILE_SIZE : α)⌋ = EMPTY)
      → checkGridCollision map doors x y r = false)
    ∧ ((∃ p ∈ corners x y r,
        inGrid ⌊p.1 / (TILE_SIZE : α)⌋ ⌊p.2 / (TILE_SIZE : α)⌋ = true
        ∧ cellAt map ⌊p.1 / (TILE_SIZE : α)⌋ ⌊p.2 / (TILE_SIZE : α)⌋ = WALL)
      → checkGridCollision map doors x y r = true) := by
  constructor
  · intro h
    simp only [corners, List.forall_mem_cons, List.mem_nil_iff, false_imp_iff, forall_const,
      and_true, List.not_mem_nil, IsEmpty.forall_iff, implies_true, EMPTY] at h
    obtain ⟨⟨g0, e0⟩, ⟨g1, e1⟩, ⟨g2, e2⟩, ⟨g3, e3⟩, ⟨g4, e4⟩⟩ := h
    rw [checkGridCollision_eq]
    simp [corners, cornerHit_eq, cellBlocks, g0, e0, g1, e1, g2, e2, g3, e3, g4, e4]
  · rintro ⟨p, hp, hg, hw⟩
    rw [checkGridCollision_eq]
    have hhit : cornerHit map doors p.1 p.2 = true := by
      rw [cornerHit_eq]
      simp [cellBlocks, hg, hw, WALL]
    have hany : (corners x y r).any (fun c => cornerHit map doors c.1 c.2) = true :=
      List.any_eq_true.mpr ⟨p, hp, hhit⟩
    simp [hany]

/-- Witness of C3 on the generated level: the point (160, 96) with radius 8
lies with its corners in the EMPTY cell (2, 1); the point (377, 249) has its
corner (385, 257) in the WALL cell (6, 4). -/
theorem checkGridCollision_empty_and_wall_witness :
    checkGridCollision generateLevel.map generateLevel.doors (160 : ℚ) 96 8 = false
    ∧ checkGridCollision generateLevel.map generateLevel.doors (377 : ℚ) 249 8 = true := by
  have hf : ∀ px py : ℚ, 128 ≤ px → px < 192 → 64 ≤ py → py < 128 →
      inGrid ⌊px / (TILE_SIZE : ℚ)⌋ ⌊py / (TILE_SIZE : ℚ)⌋ = true
      ∧ cellAt generateLevel.map ⌊px / (TILE_SIZE : ℚ)⌋ ⌊py / (TILE_SIZE : ℚ)⌋ = EMPTY := by
    intro px py h1 h2 h3 h4
    rw [floor_div_tile px 2 (by norm_num; linarith) (by norm_num; linarith),
      floor_div_tile py 1 (by norm_num; linarith) (by norm_num; linarith)]
    decide
  refine ⟨(checkGridCollision_empty_and_wall generateLevel.map generateLevel.doors
      (160 : ℚ) 96 8).1 ?_,
    (checkGridCollision_empty_and_wall generateLevel.map generateLevel.doors
      (377 : ℚ) 249 8).2 ⟨((377 : ℚ) + 8, (249 : ℚ) + 8), ?_, ?_⟩⟩
  · intro p hp
    simp only [corners, List.mem_cons, List.mem_nil_iff, or_false] at hp
    rcases hp with rfl | rfl | rfl | rfl | rfl <;>
      exact hf _ _ (by norm_num) (by norm_num) (by norm_num) (by norm_num)
  · simp [corners]
  · rw [floor_div_tile ((377 : ℚ) + 8) 6 (by norm_num) (by norm_num),
      floor_div_tile ((249 : ℚ) + 8) 4 (by norm_num) (by norm_num)]
    decide

/-- C4: if the position of the player is not blocked before `handleMovement`
(`checkGridCollision(player.x, player.y, 8)` is false), it is not blocked
after it, for every key state, heading, map and door state. -/
theorem handleMovement_stays_unblocked (map : Grid) (doors : List Door) (keys : Keys)
    (h : Heading α) (p : Player α)
    (hfree : checkGridCollision map doors p.x p.y 8 = false) :
    checkGridCollision map doors (handleMovement map doors keys h p).x
      (handleMovement map doors keys h p).y 8 = false := by
  unfold handleMovement resolveMove
  simp only []
  cases hX : checkGridCollision map doors (p.x + (moveDelta keys h p.speed).1) p.y 8
  · cases hY : checkGridCollision map doors (p.x + (moveDelta keys h p.speed).1)
        (p.y + (moveDelta keys h p.speed).2) 8
    · simp [hX, hY]
    · simp [hX, hY]
  · cases hY : checkGridCollision map doors p.x (p.y + (moveDelta keys h p.speed).2) 8
    · simp [hX, hY]
    · simp [hX, hY, hfree]

/-- Facts about the sample move: with `KeyW` and `KeyD` at heading 0 the
displacement is (3, 3); the X move to (377, 246) is free, the point (377, 249)
is blocked by the corner of the WALL cell (6, 4), and (374, 249) is free. -/
theorem sample_move_facts :
    moveDelta keysWD headingEast playerAtCorner.speed = (3, 3)
    ∧ checkGridCollision generateLevel.map generateLevel.doors (374 : ℚ) 246 8 = false
    ∧ checkGridCollision generateLevel.map generateLevel.doors ((374 : ℚ) + 3) 246 8 = false
    ∧ checkGridCollision generateLevel.map generateLevel.doors ((374 : ℚ) + 3) (246 + 3) 8 = true
    ∧ checkGridCollision generateLevel.map generateLevel.doors (374 : ℚ) (246 + 3) 8 = false := by
  refine ⟨?_, ?_, ?_, ?_, ?_⟩
  · simp [moveDelta, keysWD, headingEast, playerAtCorner]
  · rw [checkGridCollision_cells generateLevel.map generateLevel.doors (374 : ℚ) 246 8
      5 3 5 5 3 3
      (floor_div_tile _ _ (by norm_num) (by norm_num))
      (floor_div_tile _ _ (by norm_num) (by norm_num))
      (floor_div_tile _ _ (by norm_num) (by norm_num))
      (floor_div_tile _ _ (by norm_num) (by norm_num))
      (floor_div_tile _ _ (by norm_num) (by norm_num))
      (floor_div_tile _ _ (by norm_num) (by norm_num))]
    decide
  · rw [checkGridCollision_cells generateLevel.map generateLevel.doors ((374 : ℚ) + 3) 246 8
      5 3 5 6 3 3
      (floor_div_tile _ _ (by norm_num) (by norm_num))
      (floor_div_tile _ _ (by norm_num) (by norm_num))
      (floor_div_tile _ _ (by norm_num) (by norm_num))
      (floor_div_tile _ _ (by norm_num) (by norm_num))
      (floor_div_tile _ _ (by norm_num) (by norm_num))
      (floor_div_tile _ _ (by norm_num) (by norm_num))]
    decide
  · rw [checkGridCollision_cells generateLevel.map generateLevel.doors ((374 : ℚ) + 3) (246 + 3) 8
      5 3 5 6 3 4
      (floor_div_tile _ _ (by norm_num) (by norm_num))
      (floor_div_tile _ _ (by norm_num) (by norm_num))
      (floor_div_tile _ _ (by norm_num) (by norm_num))
      (floor_div_tile _ _ (by norm_num) (by norm_num))
      (floor_div_tile _ _ (by norm_num) (by norm_num))
      (floor_div_tile _ _ (by norm_num) (by norm_num))]
    decide
  · rw [checkGridCollision_cells generateLevel.map generateLevel.doors (374 : ℚ) (246 + 3) 8
      5 3 5 5 3 4
      (floor_div_tile _ _ (by norm_num) (by norm_num))
      (floor_div_tile _ _ (by norm_num) (by norm_num))
      (floor_div_tile _ _ (by norm_num) (by norm_num))
      (floor_div_tile _ _ (by norm_num) (by norm_num))
      (floor_div_tile _ _ (by norm_num) (by norm_num))
      (floor_div_tile _ _ (by norm_num) (by norm_num))]
    decide

/-- Witness of C4: the sample player of the generated level is not blocked, and
is not blocked after `handleMovement` with `KeyW` and `KeyD` at heading 0. -/
theorem handleMovement_stays_unblocked_witness :
    checkGridCollision generateLevel.map generateLevel.doors
      playerAtCorner.x playerAtCorner.y 8 = false
    ∧ checkGridCollision generateLevel.map generateLevel.doors
      (handleMovement generateLevel.map generateLevel.doors keysWD headingEast playerAtCorner).x
      (handleMovement generateLevel.map generateLevel.doors keysWD headingEast playerAtCorner).y
      8 = false :=
  ⟨sample_move_facts.2.1,
    handleMovement_stays_unblocked generateLevel.map generateLevel.doors keysWD headingEast
      playerAtCorner sample_move_facts.2.1⟩

/-- C5, as stated, fails: for the sample player with `KeyW` and `KeyD` at
heading 0 the displacement is (3, 3) and `checkGridCollision(x, y + dy, 8)` is
false at the position held before the move, yet the Y move is not applied:
after `handleMovement` the player is at (377, 246), because the X move was
applied first and (377, 249) is blocked. -/
theorem handleMovement_axes_counterexample :
    moveDelta keysWD headingEast playerAtCorner.speed = (3, 3)
    ∧ checkGridCollision generateLevel.map generateLevel.doors
        playerAtCorner.x (playerAtCorner.y + 3) 8 = false
    ∧ (handleMovement generateLevel.map generateLevel.doors keysWD headingEast playerAtCorner).x
        = playerAtCorner.x + 3
    ∧ (handleMovement generateLevel.map generateLevel.doors keysWD headingEast playerAtCorner).y
        = playerAtCorner.y
    ∧ playerAtCorner.y ≠ playerAtCorner.y + 3 := by
  obtain ⟨hd, _, hx, hxy, hy⟩ := sample_move_facts
  refine ⟨hd, hy, ?_, ?_, by norm_num [playerAtCorner]⟩
  · simp only [handleMovement, resolveMove, hd]
    have hx2 : checkGridCollision generateLevel.map generateLevel.doors
        (playerAtCorner.x + 3) playerAtCorner.y 8 = false := hx
    have hxy2 : checkGridCollision generateLevel.map generateLevel.doors
        (playerAtCorner.x + 3) (playerAtCorner.y + 3) 8 = true := hxy
    simp [hx2, hxy2]
  · simp only [handleMovement, resolveMove, hd]
    have hx2 : checkGridCollision generateLevel.map generateLevel.doors
        (playerAtCorner.x + 3) playerAtCorner.y 8 = false := hx
    have hxy2 : checkGridCollision generateLevel.map generateLevel.doors
        (playerAtCorner.x + 3) (playerAtCorner.y + 3) 8 = true := hxy
    simp [hx2, hxy2]

/-- C5, amended: `handleMovement` applies the X move iff
`checkGridCollision(x + dx, y, 8)` is false at the position `(x, y)` held
before the move, and applies the Y move iff `checkGridCollision(x2, y + dy, 8)`
is false, where `x2` is `player.x` after the X move was resolved (`x + dx` when
it was applied, `x` when it was not). -/
theorem handleMovement_axes (map : Grid) (doors : List Door) (keys : Keys)
    (h : Heading α) (p : Player α) :
    (handleMovement map doors keys h p).x
        = (if checkGridCollision map doors (p.x + (moveDelta keys h p.speed).1) p.y 8 = false
            then p.x + (moveDelta keys h p.speed).1 else p.x)
    ∧ (handleMovement map doors keys h p).y
        = (if checkGridCollision map doors (handleMovement map doors keys h p).x
              (p.y + (moveDelta keys h p.speed).2) 8 = false
            then p.y + (moveDelta keys h p.speed).2 else p.y)
    ∧ (handleMovement map doors keys h p).speed = p.speed := by
  unfold handleMovement resolveMove
  simp only []
  rcases Bool.eq_false_or_eq_true
      (checkGridCollision map doors (p.x + (moveDelta keys h p.speed).1) p.y 8) with hX | hX
  · rcases Bool.eq_false_or_eq_true
        (checkGridCollision map doors p.x (p.y + (moveDelta keys h p.speed).2) 8) with hY | hY <;>
      simp [hX, hY]
  · rcases Bool.eq_false_or_eq_true
        (checkGridCollision map doors (p.x + (moveDelta keys h p.speed).1)
          (p.y + (moveDelta keys h p.speed).2) 8) with hY | hY <;>
      simp [hX, hY]

/-- C6, as stated, fails: on the generated level the player at (352, 255.99)
is in cell (5, 3), and the first blocking cell of row 3 in the +x direction is
the locked door in column 8 (the cells (6, 3) and (7, 3) do not block); the
claim gives side 0, hit cell (8, 3) and distance 8 * 64 - 352 = 160.  The ray
with `cos = 1`, `sin = 0` gets `sin = 0.0001` from the guard, crosses into row 4
after two X steps and ends on the WALL cell (7, 4) with side 1 and
distance 100. -/
theorem castRay_east_counterexample :
    ⌊(352 : ℚ) / (TILE_SIZE : ℚ)⌋ = 5 ∧ ⌊(25599 / 100 : ℚ) / (TILE_SIZE : ℚ)⌋ = 3
    ∧ inGrid 5 3 = true
    ∧ cellBlocks generateLevel.map generateLevel.doors 6 3 = false
    ∧ cellBlocks generateLevel.map generateLevel.doors 7 3 = false
    ∧ cellBlocks generateLevel.map generateLevel.doors 8 3 = true
    ∧ (castRay generateLevel.map generateLevel.wallTypes generateLevel.doors
        (352 : ℚ) (25599 / 100) 0 1).side = 1
    ∧ (castRay generateLevel.map generateLevel.wallTypes generateLevel.doors
        (352 : ℚ) (25599 / 100) 0 1).mapX = 7
    ∧ (castRay generateLevel.map generateLevel.wallTypes generateLevel.doors
        (352 : ℚ) (25599 / 100) 0 1).mapY = 4
    ∧ (castRay generateLevel.map generateLevel.wallTypes generateLevel.doors
        (352 : ℚ) (25599 / 100) 0 1).distance = 100 := by
  have hfx : ⌊(352 : ℚ) / (TILE_SIZE : ℚ)⌋ = 5 := floor_div_tile _ _ (by norm_num) (by norm_num)
  have hfy : ⌊(25599 / 100 : ℚ) / (TILE_SIZE : ℚ)⌋ = 3 :=
    floor_div_tile _ _ (by norm_num) (by norm_num)
  have c63 : cellAt generateLevel.map 6 3 = 0 := by decide
  have c73 : cellAt generateLevel.map 7 3 = 0 := by decide
  have c74 : cellAt generateLevel.map 7 4 = 1 := by decide
  have w74 : cellAt generateLevel.wallTypes 7 4 = 2 := by decide
  have e0 : (raySetup (352 : ℚ) (25599 / 100) 0 1).init
      = { sideDistX := 1 / 2, sideDistY := 25 / 16, currentMapX := 5, currentMapY := 3,
          side := 0, hit := false, wallType := 1, iterations := 0 } := by
    rw [raySetup_east]
    simp only [hfx, hfy]
    norm_num [TILE_SIZE]
  have e1 : ddaStep generateLevel.map generateLevel.wallTypes generateLevel.doors (1 : ℚ) 10000 1 1
      { sideDistX := 1 / 2, sideDistY := 25 / 16, currentMapX := 5, currentMapY := 3,
        side := 0, hit := false, wallType := 1, iterations := 0 }
      = { sideDistX := 3 / 2, sideDistY := 25 / 16, currentMapX := 6, currentMapY := 3,
          side := 0, hit := false, wallType := 1, iterations := 1 } := by
    simp [ddaStep, MAP_WIDTH, MAP_HEIGHT]
    norm_num [c63]
  have e2 : ddaStep generateLevel.map generateLevel.wallTypes generateLevel.doors (1 : ℚ) 10000 1 1
      { sideDistX := 3 / 2, sideDistY := 25 / 16, currentMapX := 6, currentMapY := 3,
        side := 0, hit := false, wallType := 1, iterations := 1 }
      = { sideDistX := 5 / 2, sideDistY := 25 / 16, currentMapX := 7, currentMapY := 3,
          side := 0, hit := false, wallType := 1, iterations := 2 } := by
    simp [ddaStep, MAP_WIDTH, MAP_HEIGHT]
    norm_num [c73]
  have e3 : ddaStep generateLevel.map generateLevel.wallTypes generateLevel.doors (1 : ℚ) 10000 1 1
      { sideDistX := 5 / 2, sideDistY := 25 / 16, currentMapX := 7, currentMapY := 3,
        side := 0, hit := false, wallType := 1, iterations := 2 }
      = { sideDistX := 5 / 2, sideDistY := 25 / 16 + 10000, currentMapX := 7, currentMapY := 4,
          side := 1, hit := true, wallType := 2, iterations := 3 } := by
    simp [ddaStep, MAP_WIDTH, MAP_HEIGHT]
    norm_num [c74, w74]
  have hloop : rayLoop generateLevel.map generateLevel.wallTypes generateLevel.doors
      (352 : ℚ) (25599 / 100) 0 1
      = { sideDistX := 5 / 2, sideDistY := 25 / 16 + 10000, currentMapX := 7, currentMapY := 4,
          side := 1, hit := true, wallType := 2, iterations := 3 } := by
    unfold rayLoop
    simp only [e0]
    simp only [raySetup_east]
    rw [show maxIterations = 21 + 1 + 1 + 1 from by decide,
      ddaLoop_running _ _ _ _ _ _ _ _ _ rfl (by decide), e1,
      ddaLoop_running _ _ _ _ _ _ _ _ _ rfl (by decide), e2,
      ddaLoop_running _ _ _ _ _ _ _ _ _ rfl (by decide), e3,
      ddaLoop_of_hit _ _ _ _ _ _ _ _ _ rfl]
  refine ⟨hfx, hfy, by decide, by decide, by decide, by decide, ?_, ?_, ?_, ?_⟩
  · simp only [castRay, hloop]
  · simp only [castRay, hloop]
  · simp only [castRay, hloop]
  · simp only [castRay, rayHit, hloop, raySetup_east]
    norm_num [TILE_SIZE, MAX_DEPTH]

/-- C6, amended: for a player inside the grid, in cell `(mx, my)`, and a ray
exactly along an axis, if the first blocking cell (WALL or locked DOOR) of the
row or column in the direction of the ray is `c`, and the drift that the
epsilon guard gives the ray (0.0001 tiles sideways per tile travelled, toward
+y for the rays along x and toward +x for the rays along y) does not reach the
next grid line before the face of `c` does (strictly before for the rays along
x, where a tie advances Y), then `castRay` returns the hit cell `c` in the row
or column of the player, side 0 for the rays along x and side 1 for the rays
along y, and the distance from the player to the near face of `c`, clamped
into `[1, MAX_DEPTH]`: `c * TILE_SIZE - x` along +x, `x - (c + 1) * TILE_SIZE`
along -x, and the same in `y` along +y and -y. -/
theorem castRay_axis_aligned (map wallTypes : Grid) (doors : List Door) (x y : α)
    (hin : inGrid ⌊x / (TILE_SIZE : α)⌋ ⌊y / (TILE_SIZE : α)⌋ = true) :
    (∀ c : Int, ⌊x / (TILE_SIZE : α)⌋ < c → c < MAP_WIDTH →
      (∀ j : Int, ⌊x / (TILE_SIZE : α)⌋ < j → j < c →
        cellBlocks map doors j ⌊y / (TILE_SIZE : α)⌋ = false) →
      cellBlocks map doors c ⌊y / (TILE_SIZE : α)⌋ = true →
      (c : α) - x / (TILE_SIZE : α)
        < ((⌊y / (TILE_SIZE : α)⌋ : α) + 1 - y / (TILE_SIZE : α)) * 10000 →
      (castRay map wallTypes doors x y 0 1).side = 0
      ∧ (castRay map wallTypes doors x y 0 1).mapX = c
      ∧ (castRay map wallTypes doors x y 0 1).mapY = ⌊y / (TILE_SIZE : α)⌋
      ∧ (castRay map wallTypes doors x y 0 1).distance
          = max 1 (min ((c : α) * (TILE_SIZE : α) - x) (MAX_DEPTH : α)))
    ∧ (∀ c : Int, c < ⌊x / (TILE_SIZE : α)⌋ → 0 ≤ c →
      (∀ j : Int, c < j → j < ⌊x / (TILE_SIZE : α)⌋ →
        cellBlocks map doors j ⌊y / (TILE_SIZE : α)⌋ = false) →
      cellBlocks map doors c ⌊y / (TILE_SIZE : α)⌋ = true →
      x / (TILE_SIZE : α) - ((c : α) + 1)
        < ((⌊y / (TILE_SIZE : α)⌋ : α) + 1 - y / (TILE_SIZE : α)) * 10000 →
      (castRay map wallTypes doors x y 0 (-1)).side = 0
      ∧ (castRay map wallTypes doors x y 0 (-1)).mapX = c
      ∧ (castRay map wallTypes doors x y 0 (-1)).mapY = ⌊y / (TILE_SIZE : α)⌋
      ∧ (castRay map wallTypes doors x y 0 (-1)).distance
          = max 1 (min (x - ((c : α) + 1) * (TILE_SIZE : α)) (MAX_DEPTH : α)))
    ∧ (∀ r : Int, ⌊y / (TILE_SIZE : α)⌋ < r → r < MAP_HEIGHT →
      (∀ j : Int, ⌊y / (TILE_SIZE : α)⌋ < j → j < r →
        cellBlocks map doors ⌊x / (TILE_SIZE : α)⌋ j = false) →
      cellBlocks map doors ⌊x / (TILE_SIZE : α)⌋ r = true →
      (r : α) - y / (TILE_SIZE : α)
        ≤ ((⌊x / (TILE_SIZE : α)⌋ : α) + 1 - x / (TILE_SIZE : α)) * 10000 →
      (castRay map wallTypes doors x y 1 0).side = 1
      ∧ (castRay map wallTypes doors x y 1 0).mapX = ⌊x / (TILE_SIZE : α)⌋
      ∧ (castRay map wallTypes doors x y 1 0).mapY = r
      ∧ (castRay map wallTypes doors x y 1 0).distance
          = max 1 (min ((r : α) * (TILE_SIZE : α) - y) (MAX_DEPTH : α)))
    ∧ (∀ r : Int, r < ⌊y / (TILE_SIZE : α)⌋ → 0 ≤ r →
      (∀ j : Int, r < j → j < ⌊y / (TILE_SIZE : α)⌋ →
        cellBlocks map doors ⌊x / (TILE_SIZE : α)⌋ j = false) →
      cellBlocks map doors ⌊x / (TILE_SIZE : α)⌋ r = true →
      y / (TILE_SIZE : α) - ((r : α) + 1)
        ≤ ((⌊x / (TILE_SIZE : α)⌋ : α) + 1 - x / (TILE_SIZE : α)) * 10000 →
      (castRay map wallTypes doors x y (-1) 0).side = 1
      ∧ (castRay map wallTypes doors x y (-1) 0).mapX = ⌊x / (TILE_SIZE : α)⌋
      ∧ (castRay map wallTypes doors x y (-1) 0).mapY = r
      ∧ (castRay map wallTypes doors x y (-1) 0).distance
          = max 1 (min (y - ((r : α) + 1) * (TILE_SIZE : α)) (MAX_DEPTH : α))) :=
  ⟨fun c h1 h2 h3 h4 h5 => castRay_east map wallTypes doors x y c hin h1 h2 h3 h4 h5,
    fun c h1 h2 h3 h4 h5 => castRay_west map wallTypes doors x y c hin h1 h2 h3 h4 h5,
    fun r h1 h2 h3 h4 h5 => castRay_south map wallTypes doors x y r hin h1 h2 h3 h4 h5,
    fun r h1 h2 h3 h4 h5 => castRay_north map wallTypes doors x y r hin h1 h2 h3 h4 h5⟩

/-- Witness of C6 (amended) on the generated level, for the player at (96, 224)
in cell (1, 3): along +x the locked door (4, 3) at distance 160, along -x the
wall (0, 3) at distance 32, along +y the locked door (1, 4) at distance 32,
along -y the wall (1, 0) at distance 160. -/
theorem castRay_axis_aligned_witness :
    inGrid ⌊(96 : ℚ) / (TILE_SIZE : ℚ)⌋ ⌊(224 : ℚ) / (TILE_SIZE : ℚ)⌋ = true
    ∧ ((castRay generateLevel.map generateLevel.wallTypes generateLevel.doors (96 : ℚ) 224 0 1).side = 0
      ∧ (castRay generateLevel.map generateLevel.wallTypes generateLevel.doors (96 : ℚ) 224 0 1).mapX = 4
      ∧ (castRay generateLevel.map generateLevel.wallTypes generateLevel.doors (96 : ℚ) 224 0 1).mapY = 3
      ∧ (castRay generateLevel.map generateLevel.wallTypes generateLevel.doors (96 : ℚ) 224 0 1).distance
          = 160)
    ∧ ((castRay generateLevel.map generateLevel.wallTypes generateLevel.doors (96 : ℚ) 224 0 (-1)).side = 0
      ∧ (castRay generateLevel.map generateLevel.wallTypes generateLevel.doors (96 : ℚ) 224 0 (-1)).mapX = 0
      ∧ (castRay generateLevel.map generateLevel.wallTypes generateLevel.doors (96 : ℚ) 224 0 (-1)).mapY = 3
      ∧ (castRay generateLevel.map generateLevel.wallTypes generateLevel.doors (96 : ℚ) 224 0 (-1)).distance
          = 32)
    ∧ ((castRay generateLevel.map generateLevel.wallTypes generateLevel.doors (96 : ℚ) 224 1 0).side = 1
      ∧ (castRay generateLevel.map generateLevel.wallTypes generateLevel.doors (96 : ℚ) 224 1 0).mapX = 1
      ∧ (castRay generateLevel.map generateLevel.wallTypes generateLevel.doors (96 : ℚ) 224 1 0).mapY = 4
      ∧ (castRay generateLevel.map generateLevel.wallTypes generateLevel.doors (96 : ℚ) 224 1 0).distance
          = 32)
    ∧ ((castRay generateLevel.map generateLevel.wallTypes generateLevel.doors (96 : ℚ) 224 (-1) 0).side = 1
      ∧ (castRay generateLevel.map generateLevel.wallTypes generateLevel.doors (96 : ℚ) 224 (-1) 0).mapX = 1
      ∧ (castRay generateLevel.map generateLevel.wallTypes generateLevel.doors (96 : ℚ) 224 (-1) 0).mapY = 0
      ∧ (castRay generateLevel.map generateLevel.wallTypes generateLevel.doors (96 : ℚ) 224 (-1) 0).distance
          = 160) := by
  have hfx : ⌊(96 : ℚ) / (TILE_SIZE : ℚ)⌋ = 1 := floor_div_tile _ _ (by norm_num) (by norm_num)
  have hfy : ⌊(224 : ℚ) / (TILE_SIZE : ℚ)⌋ = 3 := floor_div_tile _ _ (by norm_num) (by norm_num)
  have hin : inGrid ⌊(96 : ℚ) / (TILE_SIZE : ℚ)⌋ ⌊(224 : ℚ) / (TILE_SIZE : ℚ)⌋ = true := by
    rw [hfx, hfy]; decide
  obtain ⟨hE, hW, hS, hN⟩ := castRay_axis_aligned generateLevel.map generateLevel.wallTypes
    generateLevel.doors (96 : ℚ) 224 hin
  have e := hE 4 (by rw [hfx]; decide) (by decide)
    (by intro j h1 h2; rw [hfx] at h1; rw [hfy]; interval_cases j <;> decide)
    (by rw [hfy]; decide) (by rw [hfy]; norm_num [TILE_SIZE])
  have w := hW 0 (by rw [hfx]; decide) (by decide)
    (by intro j h1 h2; rw [hfx] at h2; omega)
    (by rw [hfy]; decide) (by rw [hfy]; norm_num [TILE_SIZE])
  have s := hS 4 (by rw [hfy]; decide) (by decide)
    (by intro j h1 h2; rw [hfy] at h1; omega)
    (by rw [hfx]; decide) (by rw [hfx]; norm_num [TILE_SIZE])
  have n := hN 0 (by rw [hfy]; decide) (by decide)
    (by intro j h1 h2; rw [hfy] at h2; rw [hfx]; interval_cases j <;> decide)
    (by rw [hfx]; decide) (by rw [hfx]; norm_num [TILE_SIZE])
  rw [hfy] at e w
  rw [hfx] at s n
  refine ⟨hin, ⟨e.1, e.2.1, e.2.2.1, ?_⟩, ⟨w.1, w.2.1, w.2.2.1, ?_⟩, ⟨s.1, s.2.1, s.2.2.1, ?_⟩,
    ⟨n.1, n.2.1, n.2.2.1, ?_⟩⟩
  · rw [e.2.2.2]; norm_num [TILE_SIZE, MAX_DEPTH]
  · rw [w.2.2.2]; norm_num [TILE_SIZE, MAX_DEPTH]
  · rw [s.2.2.2]; norm_num [TILE_SIZE, MAX_DEPTH]
  · rw [n.2.2.2]; norm_num [TILE_SIZE, MAX_DEPTH]

/-- C7: for a DOOR cell `c = (cx, cy)` whose door (the entry the lookup of the
source finds at `c`) is `d`, and every player position and direction: while `d`
is locked, `castRay` returns the same distance, side, hit cell and textureX as
on the map with `c` replaced by WALL; once `d` is unlocked, `castRay` returns
the same result as on the map with `c` replaced by EMPTY. -/
theorem door_ray_equiv (map wallTypes : Grid) (doors : List Door) (cx cy : Int) (d : Door)
    (hcx : 0 ≤ cx) (hcy : 0 ≤ cy) (hcell : cellAt map cx cy = DOOR)
    (hdoor : findDoor doors cx cy = some d) :
    (d.locked = true → ∀ x y sinA cosA : α,
        (castRay map wallTypes doors x y sinA cosA).distance
            = (castRay (setCell map cx cy WALL) wallTypes doors x y sinA cosA).distance
        ∧ (castRay map wallTypes doors x y sinA cosA).side
            = (castRay (setCell map cx cy WALL) wallTypes doors x y sinA cosA).side
        ∧ (castRay map wallTypes doors x y sinA cosA).mapX
            = (castRay (setCell map cx cy WALL) wallTypes doors x y sinA cosA).mapX
        ∧ (castRay map wallTypes doors x y sinA cosA).mapY
            = (castRay (setCell map cx cy WALL) wallTypes doors x y sinA cosA).mapY
        ∧ (castRay map wallTypes doors x y sinA cosA).textureX
            = (castRay (setCell map cx cy WALL) wallTypes doors x y sinA cosA).textureX)
    ∧ (d.locked = false → ∀ x y sinA cosA : α,
        castRay map wallTypes doors x y sinA cosA
          = castRay (setCell map cx cy EMPTY) wallTypes doors x y sinA cosA) := by
  constructor
  · intro hl x y sinA cosA
    have key : ∀ mx my, inGrid mx my = true →
        cellBlocks map doors mx my = cellBlocks (setCell map cx cy WALL) doors mx my := by
      intro mx my hg
      have := cellBlocks_setCell_door map doors cx cy d hcx hcy hcell hdoor mx my hg
      rwa [hl] at this
    have hloop : sameButWallType (rayLoop map wallTypes doors x y sinA cosA)
        (rayLoop (setCell map cx cy WALL) wallTypes doors x y sinA cosA) :=
      ddaLoop_congr map (setCell map cx cy WALL) wallTypes wallTypes doors doors _ _ _ _ key _ _ _
        ⟨rfl, rfl, rfl, rfl, rfl, rfl, rfl⟩
    obtain ⟨_, _, e3, e4, e5, _, _⟩ := hloop
    simp only [castRay, rayHit, e3, e4, e5, and_self]
  · intro hl x y sinA cosA
    simp only [castRay, rayLoop,
      ddaLoop_setCell_unlocked map wallTypes doors cx cy d hcx hcy hcell hdoor hl]

/-- Witness of C7 on the generated level, for the door of puzzle 1 at (4, 3)
and the ray along +x from (96, 224): with the door locked, and with the doors
as they are after puzzle 1 was solved. -/
theorem door_ray_equiv_witness :
    ((castRay generateLevel.map generateLevel.wallTypes generateLevel.doors (96 : ℚ) 224 0 1).distance
        = (castRay (setCell generateLevel.map 4 3 WALL) generateLevel.wallTypes
            generateLevel.doors (96 : ℚ) 224 0 1).distance
      ∧ (castRay generateLevel.map generateLevel.wallTypes generateLevel.doors (96 : ℚ) 224 0 1).side
        = (castRay (setCell generateLevel.map 4 3 WALL) generateLevel.wallTypes
            generateLevel.doors (96 : ℚ) 224 0 1).side
      ∧ (castRay generateLevel.map generateLevel.wallTypes generateLevel.doors (96 : ℚ) 224 0 1).mapX
        = (castRay (setCell generateLevel.map 4 3 WALL) generateLevel.wallTypes
            generateLevel.doors (96 : ℚ) 224 0 1).mapX
      ∧ (castRay generateLevel.map generateLevel.wallTypes generateLevel.doors (96 : ℚ) 224 0 1).mapY
        = (castRay (setCell generateLevel.map 4 3 WALL) generateLevel.wallTypes
            generateLevel.doors (96 : ℚ) 224 0 1).mapY
      ∧ (castRay generateLevel.map generateLevel.wallTypes generateLevel.doors (96 : ℚ) 224 0 1).textureX
        = (castRay (setCell generateLevel.map 4 3 WALL) generateLevel.wallTypes
            generateLevel.doors (96 : ℚ) 224 0 1).textureX)
    ∧ castRay generateLevel.map generateLevel.wallTypes doorsAfterPuzzle1 (96 : ℚ) 224 0 1
        = castRay (setCell generateLevel.map 4 3 EMPTY) generateLevel.wallTypes
            doorsAfterPuzzle1 (96 : ℚ) 224 0 1 :=
  ⟨(door_ray_equiv (α := ℚ) generateLevel.map generateLevel.wallTypes generateLevel.doors 4 3
      { mapX := 4, mapY := 3, locked := true, puzzleId := 1 }
      (by decide) (by decide) (by decide) (by decide)).1 rfl 96 224 0 1,
    (door_ray_equiv (α := ℚ) generateLevel.map generateLevel.wallTypes doorsAfterPuzzle1 4 3
      { mapX := 4, mapY := 3, locked := false, puzzleId := 1 }
      (by decide) (by decide) (by decide) (by decide)).2 rfl 96 224 0 1⟩

/-- C8: for every player position, map, door state and direction (also with
`sin = 0` or `cos = 0`), the distance `castRay` returns lies in
`[1, MAX_DEPTH]` with `MAX_DEPTH = 800`; and the guarded sine and cosine it
divides by are not zero. -/
theorem castRay_distance_bounds (map wallTypes : Grid) (doors : List Door) (x y sinA cosA : α) :
    1 ≤ (castRay map wallTypes doors x y sinA cosA).distance
    ∧ (castRay map wallTypes doors x y sinA cosA).distance ≤ (MAX_DEPTH : α)
    ∧ (MAX_DEPTH : α) = 800
    ∧ (raySetup x y sinA cosA).cos ≠ 0 ∧ (raySetup x y sinA cosA).sin ≠ 0 := by
  have h800 : ((MAX_DEPTH : Nat) : α) = 800 := by norm_num [MAX_DEPTH]
  refine ⟨le_max_left _ _, ?_, h800, clampEps_ne_zero _, clampEps_ne_zero _⟩
  apply max_le
  · rw [h800]; norm_num
  · exact min_le_right _ _

/-- C9: for every player position, direction, map and door state, the DDA loop
of `castRay` makes at most `2 * max(MAP_WIDTH, MAP_HEIGHT) = 24` passes and
then stops (it has a hit or has made 24 passes, and allowing more passes
changes nothing), so `castRay` returns; and whenever the loop is stopped
without a hit, after any number of passes and so also by the cap, `wallType`
is 1, which is the `wallType` the result then carries. -/
theorem castRay_loop_bounded (map wallTypes : Grid) (doors : List Door) (x y sinA cosA : α) :
    maxIterations = 2 * max MAP_WIDTH MAP_HEIGHT ∧ maxIterations = 24
    ∧ (rayLoop map wallTypes doors x y sinA cosA).iterations ≤ 24
    ∧ ((rayLoop map wallTypes doors x y sinA cosA).hit = true
        ∨ (rayLoop map wallTypes doors x y sinA cosA).iterations = 24)
    ∧ (∀ k : Nat,
        ddaLoop map wallTypes doors (raySetup x y sinA cosA).deltaX (raySetup x y sinA cosA).deltaY
            (raySetup x y sinA cosA).stepX (raySetup x y sinA cosA).stepY (maxIterations + k)
            (raySetup x y sinA cosA).init
          = rayLoop map wallTypes doors x y sinA cosA)
    ∧ (∀ fuel : Nat,
        (ddaLoop map wallTypes doors (raySetup x y sinA cosA).deltaX
            (raySetup x y sinA cosA).deltaY (raySetup x y sinA cosA).stepX
            (raySetup x y sinA cosA).stepY fuel (raySetup x y sinA cosA).init).hit = false →
        (ddaLoop map wallTypes doors (raySetup x y sinA cosA).deltaX
            (raySetup x y sinA cosA).deltaY (raySetup x y sinA cosA).stepX
            (raySetup x y sinA cosA).stepY fuel (raySetup x y sinA cosA).init).wallType = 1)
    ∧ (castRay map wallTypes doors x y sinA cosA).wallType
        = (ddaLoop map wallTypes doors (raySetup x y sinA cosA).deltaX
            (raySetup x y sinA cosA).deltaY (raySetup x y sinA cosA).stepX
            (raySetup x y sinA cosA).stepY maxIterations (raySetup x y sinA cosA).init).wallType := by
  have h24 : maxIterations = 24 := by decide
  have hinit : (raySetup x y sinA cosA).init.iterations = 0 := rfl
  have hwt : (raySetup x y sinA cosA).init.wallType = 1 := rfl
  obtain ⟨e1, e2, _⟩ := ddaLoop_exit map wallTypes doors (raySetup x y sinA cosA).deltaX
    (raySetup x y sinA cosA).deltaY (raySetup x y sinA cosA).stepX (raySetup x y sinA cosA).stepY
    maxIterations (raySetup x y sinA cosA).init (by rw [hinit]; omega) (by rw [hinit]; omega)
    (fun _ => hwt)
  refine ⟨by decide, h24, ?_, ?_, ?_, ?_, rfl⟩
  · rw [← h24]; exact e1
  · rw [← h24]; exact e2
  · intro k
    exact ddaLoop_fuel map wallTypes doors _ _ _ _ k maxIterations _ (by rw [hinit]; omega)
  · intro fuel
    exact ddaLoop_wallType map wallTypes doors _ _ _ _ fuel _ (fun _ => hwt)

/-- Witness of C9 on the generated level, for the ray along +x from (96, 224):
stopped after one pass the loop has no hit (the cell (2, 3) does not block)
and `wallType` is 1. -/
theorem castRay_loop_bounded_witness :
    (ddaLoop generateLevel.map generateLevel.wallTypes generateLevel.doors
        (raySetup (96 : ℚ) 224 0 1).deltaX (raySetup (96 : ℚ) 224 0 1).deltaY
        (raySetup (96 : ℚ) 224 0 1).stepX (raySetup (96 : ℚ) 224 0 1).stepY 1
        (raySetup (96 : ℚ) 224 0 1).init).hit = false
    ∧ (ddaLoop generateLevel.map generateLevel.wallTypes generateLevel.doors
        (raySetup (96 : ℚ) 224 0 1).deltaX (raySetup (96 : ℚ) 224 0 1).deltaY
        (raySetup (96 : ℚ) 224 0 1).stepX (raySetup (96 : ℚ) 224 0 1).stepY 1
        (raySetup (96 : ℚ) 224 0 1).init).wallType = 1 := by
  have hfx : ⌊(96 : ℚ) / (TILE_SIZE : ℚ)⌋ = 1 := floor_div_tile _ _ (by norm_num) (by norm_num)
  have hfy : ⌊(224 : ℚ) / (TILE_SIZE : ℚ)⌋ = 3 := floor_div_tile _ _ (by norm_num) (by norm_num)
  have c23 : cellAt generateLevel.map 2 3 = 0 := by decide
  have hno : (ddaLoop generateLevel.map generateLevel.wallTypes generateLevel.doors
      (raySetup (96 : ℚ) 224 0 1).deltaX (raySetup (96 : ℚ) 224 0 1).deltaY
      (raySetup (96 : ℚ) 224 0 1).stepX (raySetup (96 : ℚ) 224 0 1).stepY 1
      (raySetup (96 : ℚ) 224 0 1).init).hit = false := by
    rw [raySetup_east]
    simp only [hfx, hfy]
    rw [ddaLoop_running _ _ _ _ _ _ _ _ _ rfl (by decide)]
    simp [ddaLoop, ddaStep, MAP_WIDTH, MAP_HEIGHT, TILE_SIZE]
    norm_num [c23]
  exact ⟨hno, (castRay_loop_bounded generateLevel.map generateLevel.wallTypes
    generateLevel.doors (96 : ℚ) 224 0 1).2.2.2.2.2.1 1 hno⟩

end Claims

section StepClaims

variable {α : Type} [LinearOrderedField α]

/-- C10: in a pass of the DDA loop in which `sideDistX == sideDistY`, the Y axis
is advanced: `currentMapY` changes by `stepY`, `currentMapX` is unchanged,
`sideDistY` grows by `deltaY`, `sideDistX` is unchanged and `side` is 1; the X
axis is advanced (`side` 0, `currentMapX` changed by `stepX`) exactly when
`sideDistX < sideDistY` strictly, and otherwise `currentMapX` is unchanged. -/
theorem ddaStep_tie_break (map wallTypes : Grid) (doors : List Door) (deltaX deltaY : α)
    (stepX stepY : Int) (s : DDAState α) :
    (s.sideDistX = s.sideDistY →
        (ddaStep map wallTypes doors deltaX deltaY stepX stepY s).currentMapY
            = s.currentMapY + stepY
        ∧ (ddaStep map wallTypes doors deltaX deltaY stepX stepY s).currentMapX = s.currentMapX
        ∧ (ddaStep map wallTypes doors deltaX deltaY stepX stepY s).sideDistY
            = s.sideDistY + deltaY
        ∧ (ddaStep map wallTypes doors deltaX deltaY stepX stepY s).sideDistX = s.sideDistX
        ∧ (ddaStep map wallTypes doors deltaX deltaY stepX stepY s).side = 1)
    ∧ ((ddaStep map wallTypes doors deltaX deltaY stepX stepY s).side = 0
        ↔ s.sideDistX < s.sideDistY)
    ∧ (s.sideDistX < s.sideDistY →
        (ddaStep map wallTypes doors deltaX deltaY stepX stepY s).currentMapX
            = s.currentMapX + stepX
        ∧ (ddaStep map wallTypes doors deltaX deltaY stepX stepY s).currentMapY = s.currentMapY
        ∧ (ddaStep map wallTypes doors deltaX deltaY stepX stepY s).sideDistX
            = s.sideDistX + deltaX
        ∧ (ddaStep map wallTypes doors deltaX deltaY stepX stepY s).sideDistY = s.sideDistY)
    ∧ (¬ s.sideDistX < s.sideDistY →
        (ddaStep map wallTypes doors deltaX deltaY stepX stepY s).currentMapX = s.currentMapX
        ∧ (ddaStep map wallTypes doors deltaX deltaY stepX stepY s).sideDistX = s.sideDistX) := by
  obtain ⟨f1, f2, f3, f4, f5, _, _, _⟩ :=
    ddaStep_fields map wallTypes doors deltaX deltaY stepX stepY s
  refine ⟨?_, ?_, ?_, ?_⟩
  · intro he
    have hn : ¬ s.sideDistX < s.sideDistY := by rw [he]; exact lt_irrefl _
    rw [f1, f2, f3, f4, f5]
    simp only [hn, if_false, and_self]
  · rw [f5]
    by_cases hlt : s.sideDistX < s.sideDistY <;> simp [hlt]
  · intro hlt
    rw [f1, f2, f3, f4]
    simp only [hlt, if_true, and_self]
  · intro hn
    rw [f1, f3]
    simp only [hn, if_false, and_self]

/-- Witness of C10: the ray with `cos = 3/5`, `sin = 4/5` from (448/5, 384/5)
starts its loop with both side-distances equal to 1, and the first pass
advances Y. -/
theorem ddaStep_tie_break_witness :
    (raySetup (448 / 5 : ℚ) (384 / 5) (4 / 5) (3 / 5)).init.sideDistX
        = (raySetup (448 / 5 : ℚ) (384 / 5) (4 / 5) (3 / 5)).init.sideDistY
    ∧ (ddaStep generateLevel.map generateLevel.wallTypes generateLevel.doors
          (raySetup (448 / 5 : ℚ) (384 / 5) (4 / 5) (3 / 5)).deltaX
          (raySetup (448 / 5 : ℚ) (384 / 5) (4 / 5) (3 / 5)).deltaY
          (raySetup (448 / 5 : ℚ) (384 / 5) (4 / 5) (3 / 5)).stepX
          (raySetup (448 / 5 : ℚ) (384 / 5) (4 / 5) (3 / 5)).stepY
          (raySetup (448 / 5 : ℚ) (384 / 5) (4 / 5) (3 / 5)).init).side = 1 := by
  have hfx : ⌊(448 / 5 : ℚ) / (TILE_SIZE : ℚ)⌋ = 1 :=
    floor_div_tile _ _ (by norm_num) (by norm_num)
  have hfy : ⌊(384 / 5 : ℚ) / (TILE_SIZE : ℚ)⌋ = 1 :=
    floor_div_tile _ _ (by norm_num) (by norm_num)
  have hc : clampEps (3 / 5 : ℚ) = 3 / 5 := by
    unfold clampEps
    rw [if_neg]
    rw [abs_of_pos] <;> norm_num
  have hs : clampEps (4 / 5 : ℚ) = 4 / 5 := by
    unfold clampEps
    rw [if_neg]
    rw [abs_of_pos] <;> norm_num
  have htie : (raySetup (448 / 5 : ℚ) (384 / 5) (4 / 5) (3 / 5)).init.sideDistX
      = (raySetup (448 / 5 : ℚ) (384 / 5) (4 / 5) (3 / 5)).init.sideDistY := by
    simp only [raySetup, hfx, hfy, hc, hs]
    norm_num [TILE_SIZE, abs_of_pos]
  exact ⟨htie, (ddaStep_tie_break _ _ _ _ _ _ _ _).1 htie |>.2.2.2.2⟩

end StepClaims

/-! ## Texture coordinate -/

section TextureClaims

variable {α : Type} [LinearOrderedField α] [FloorRing α]

/-- The quotient `jsRem h TILE_SIZE / TILE_SIZE` is `h / TILE_SIZE` minus its
truncation toward zero. -/
theorem jsRem_div_tile (h : α) :
    jsRem h (TILE_SIZE : α) / (TILE_SIZE : α)
      = h / (TILE_SIZE : α)
        - (((if 0 ≤ h / (TILE_SIZE : α) then ⌊h / (TILE_SIZE : α)⌋
            else ⌈h / (TILE_SIZE : α)⌉ : Int) : α)) := by
  have hT : ((TILE_SIZE : Nat) : α) = 64 := by norm_num [TILE_SIZE]
  unfold jsRem
  rw [hT]
  field_simp

theorem textureCoord_range (h : α) : 0 ≤ textureCoord h ∧ textureCoord h < 1 := by
  unfold textureCoord
  simp only []
  rw [jsRem_div_tile]
  by_cases hq : 0 ≤ h / (TILE_SIZE : α)
  · simp only [hq, if_true]
    have h1 := Int.floor_le (h / (TILE_SIZE : α))
    have h2 := Int.lt_floor_add_one (h / (TILE_SIZE : α))
    have hn : ¬ (h / (TILE_SIZE : α) - (⌊h / (TILE_SIZE : α)⌋ : α) < 0) := by
      rw [not_lt]; linarith
    rw [if_neg hn]
    constructor <;> linarith
  · simp only [hq, if_false]
    have h1 := Int.le_ceil (h / (TILE_SIZE : α))
    have h2 := Int.ceil_lt_add_one (h / (TILE_SIZE : α))
    split_ifs with hlt
    · constructor <;> linarith
    · rw [not_lt] at hlt
      constructor <;> linarith

/-- The texture coordinate is the fractional part of `h / TILE_SIZE`. -/
theorem textureCoord_eq_fract (h : α) : textureCoord h = Int.fract (h / (TILE_SIZE : α)) := by
  symm
  rw [Int.fract_eq_iff]
  refine ⟨(textureCoord_range h).1, (textureCoord_range h).2, ?_⟩
  unfold textureCoord
  simp only []
  rw [jsRem_div_tile]
  by_cases hq : 0 ≤ h / (TILE_SIZE : α)
  · simp only [hq, if_true]
    split_ifs
    · exact ⟨⌊h / (TILE_SIZE : α)⌋ - 1, by push_cast; ring⟩
    · exact ⟨⌊h / (TILE_SIZE : α)⌋, by ring⟩
  · simp only [hq, if_false]
    split_ifs
    · exact ⟨⌈h / (TILE_SIZE : α)⌉ - 1, by push_cast; ring⟩
    · exact ⟨⌈h / (TILE_SIZE : α)⌉, by ring⟩

/-- C11, the code at the failing input: on the generated level the ray with
`cos = 3/5`, `sin = 4/5` from (96, 224) ends after one Y step on the locked
door (1, 4), side 1, at world distance 40, so the hit point has
`x = 96 + 40 * 3/5 = 120` and the fractional offset along the face is
`frac(120 / 64) = 7/8`; `castRay` returns `textureX = 259/512`, the fractional
part of `(96 + 5/8 * 3/5) / 64`, because it adds the distance in tiles (5/8) to
the world coordinate. -/
theorem castRay_textureX_failing_input :
    (castRay generateLevel.map generateLevel.wallTypes generateLevel.doors
        (96 : ℚ) 224 (4 / 5) (3 / 5)).side = 1
    ∧ (castRay generateLevel.map generateLevel.wallTypes generateLevel.doors
        (96 : ℚ) 224 (4 / 5) (3 / 5)).mapX = 1
    ∧ (castRay generateLevel.map generateLevel.wallTypes generateLevel.doors
        (96 : ℚ) 224 (4 / 5) (3 / 5)).mapY = 4
    ∧ (castRay generateLevel.map generateLevel.wallTypes generateLevel.doors
        (96 : ℚ) 224 (4 / 5) (3 / 5)).distance = 40
    ∧ (castRay generateLevel.map generateLevel.wallTypes generateLevel.doors
        (96 : ℚ) 224 (4 / 5) (3 / 5)).textureX = 259 / 512
    ∧ Int.fract (((96 : ℚ) + 40 * (3 / 5)) / (TILE_SIZE : ℚ)) = 7 / 8 := by
  have hfx : ⌊(96 : ℚ) / (TILE_SIZE : ℚ)⌋ = 1 := floor_div_tile _ _ (by norm_num) (by norm_num)
  have hfy : ⌊(224 : ℚ) / (TILE_SIZE : ℚ)⌋ = 3 := floor_div_tile _ _ (by norm_num) (by norm_num)
  have hc : clampEps (3 / 5 : ℚ) = 3 / 5 := by
    unfold clampEps
    rw [if_neg]
    rw [abs_of_pos] <;> norm_num
  have hs : clampEps (4 / 5 : ℚ) = 4 / 5 := by
    unfold clampEps
    rw [if_neg]
    rw [abs_of_pos] <;> norm_num
  have c14 : cellAt generateLevel.map 1 4 = 2 := by decide
  have d14 : doorLockedAt generateLevel.doors 1 4 = true := by decide
  have hset : raySetup (96 : ℚ) 224 (4 / 5) (3 / 5)
      = { sin := 4 / 5, cos := 3 / 5, deltaX := 5 / 3, deltaY := 5 / 4, stepX := 1, stepY := 1,
          init := { sideDistX := 5 / 6, sideDistY := 5 / 8, currentMapX := 1, currentMapY := 3,
                    side := 0, hit := false, wallType := 1, iterations := 0 } } := by
    simp only [raySetup, hfx, hfy, hc, hs]
    norm_num [TILE_SIZE, abs_of_pos]
  have e1 : ddaStep generateLevel.map generateLevel.wallTypes generateLevel.doors
      (5 / 3 : ℚ) (5 / 4) 1 1
      { sideDistX := 5 / 6, sideDistY := 5 / 8, currentMapX := 1, currentMapY := 3,
        side := 0, hit := false, wallType := 1, iterations := 0 }
      = { sideDistX := 5 / 6, sideDistY := 5 / 8 + 5 / 4, currentMapX := 1, currentMapY := 4,
          side := 1, hit := true, wallType := 3, iterations := 1 } := by
    simp [ddaStep, MAP_WIDTH, MAP_HEIGHT]
    norm_num [c14, d14]
  have hloop : rayLoop generateLevel.map generateLevel.wallTypes generateLevel.doors
      (96 : ℚ) 224 (4 / 5) (3 / 5)
      = { sideDistX := 5 / 6, sideDistY := 5 / 8 + 5 / 4, currentMapX := 1, currentMapY := 4,
          side := 1, hit := true, wallType := 3, iterations := 1 } := by
    unfold rayLoop
    simp only [hset]
    rw [show maxIterations = 23 + 1 from by decide,
      ddaLoop_running _ _ _ _ _ _ _ _ _ rfl (by decide), e1,
      ddaLoop_of_hit _ _ _ _ _ _ _ _ _ rfl]
  refine ⟨?_, ?_, ?_, ?_, ?_, ?_⟩
  · simp only [castRay, hloop]
  · simp only [castRay, hloop]
  · simp only [castRay, hloop]
  · simp only [castRay, rayHit, hloop, hset]
    norm_num [TILE_SIZE, MAX_DEPTH]
  · simp only [castRay, rayHit, hloop, hset, textureCoord_eq_fract]
    rw [Int.fract_eq_iff]
    refine ⟨by norm_num, by norm_num, 1, ?_⟩
    norm_num [TILE_SIZE]
  · rw [Int.fract_eq_iff]
    refine ⟨by norm_num, by norm_num, 1, ?_⟩
    norm_num [TILE_SIZE]

/-- C12: for every player position (also with negative coordinates), direction,
map and door state, the `textureX` that `castRay` returns satisfies
`0 <= textureX < 1`, with the remainder truncated toward zero as `%` does. -/
theorem castRay_textureX_range (map wallTypes : Grid) (doors : List Door) (x y sinA cosA : α) :
    0 ≤ (castRay map wallTypes doors x y sinA cosA).textureX
    ∧ (castRay map wallTypes doors x y sinA cosA).textureX < 1
    ∧ (castRay map wallTypes doors x y sinA cosA).textureX
        = Int.fract ((rayHit x y (raySetup x y sinA cosA)
            (rayLoop map wallTypes doors x y sinA cosA)).1 / (TILE_SIZE : α)) := by
  refine ⟨?_, ?_, ?_⟩
  · exact (textureCoord_range _).1
  · exact (textureCoord_range _).2
  · exact textureCoord_eq_fract _

end TextureClaims

/-! ## Progression lemmas -/

section ProgressionFrame

variable {α : Type}

/-- What `showPuzzle` leaves unchanged: everything but `currentPuzzle`. -/
theorem showPuzzle_fields (s : GameState α) (puzzleId : Nat) :
    (showPuzzle s puzzleId).doors = s.doors
    ∧ (showPuzzle s puzzleId).puzzleStations = s.puzzleStations
    ∧ (showPuzzle s puzzleId).items = s.items ∧ (showPuzzle s puzzleId).player = s.player
    ∧ (showPuzzle s puzzleId).score = s.score
    ∧ (showPuzzle s puzzleId).puzzlesSolved = s.puzzlesSolved
    ∧ (showPuzzle s puzzleId).gameStarted = s.gameStarted
    ∧ (showPuzzle s puzzleId).map = s.map
    ∧ (showPuzzle s puzzleId).wallTypes = s.wallTypes := by
  unfold showPuzzle
  cases chemistryPuzzles.find? (fun p => p.id == puzzleId) <;> simp

/-- What `submitPuzzleAnswer` does: nothing, or `closePuzzle`, or `solvePuzzle`
with the current puzzle followed by `closePuzzle`. -/
theorem submitPuzzleAnswer_cases (s : GameState α) (selected : Option Nat) :
    submitPuzzleAnswer s selected = s
    ∨ submitPuzzleAnswer s selected = closePuzzle s
    ∨ ∃ puzzle, s.currentPuzzle = some puzzle ∧ selected = some puzzle.correct
        ∧ submitPuzzleAnswer s selected = closePuzzle (solvePuzzle s puzzle) := by
  unfold submitPuzzleAnswer
  cases hc : s.currentPuzzle with
  | none => left; rfl
  | some puzzle =>
    cases selected with
    | none => left; rfl
    | some idx =>
      by_cases he : (idx == puzzle.correct) = true
      · right; right
        refine ⟨puzzle, rfl, ?_, ?_⟩
        · rw [beq_iff_eq] at he; rw [he]
        · simp [he]
      · right; left
        simp [he]

end ProgressionFrame

section ProgressionOrdered

variable {α : Type} [LinearOrderedField α]

/-- What `interact` leaves unchanged: everything but `currentPuzzle`. -/
theorem interact_fields (s : GameState α) :
    (interact s).doors = s.doors ∧ (interact s).puzzleStations = s.puzzleStations
    ∧ (interact s).items = s.items ∧ (interact s).player = s.player
    ∧ (interact s).score = s.score ∧ (interact s).puzzlesSolved = s.puzzlesSolved
    ∧ (interact s).gameStarted = s.gameStarted ∧ (interact s).map = s.map
    ∧ (interact s).wallTypes = s.wallTypes := by
  unfold interact
  cases interactScan s.player.x s.player.y s.puzzleStations with
  | none => simp
  | some puzzleId => exact showPuzzle_fields s puzzleId

end ProgressionOrdered

section ProgressionLemmas

variable {α : Type} [LinearOrderedField α] [FloorRing α]

/-- What `update` does to the progression fields. -/
theorem update_fields (s : GameState α) (keys : Keys) (h : Heading α) :
    (update s keys h).doors = s.doors
    ∧ (update s keys h).score = s.score
    ∧ (update s keys h).puzzlesSolved = s.puzzlesSolved
    ∧ (update s keys h).currentPuzzle = s.currentPuzzle
    ∧ (update s keys h).gameStarted = s.gameStarted
    ∧ (update s keys h).map = s.map
    ∧ (update s keys h).wallTypes = s.wallTypes
    ∧ (s.gameStarted = true →
        (update s keys h).puzzleStations
          = updatePuzzleStations s.puzzleStations s.puzzlesSolved)
    ∧ (s.gameStarted = false → update s keys h = s) := by
  unfold update
  cases hg : s.gameStarted <;> simp [hg]

end ProgressionLemmas

/-! ## Progression claims -/

section StationLemmas

variable {α : Type}

theorem activeBounded_mono (l : List Station) (n m : Nat) (hnm : n ≤ m)
    (h : activeBounded l n) : activeBounded l m := by
  intro st hst ha
  have := h st hst ha
  omega

theorem activeBounded_update (l : List Station) (n : Nat) (h : activeBounded l n) :
    activeBounded (updatePuzzleStations l n) n := by
  intro st hst ha
  simp only [updatePuzzleStations, List.mem_map] at hst
  obtain ⟨st0, hmem, rfl⟩ := hst
  by_cases hle : st0.puzzleId ≤ n + 1
  · rw [if_pos hle]; exact hle
  · rw [if_neg hle] at ha ⊢
    exact h st0 hmem ha

theorem activeBounded_deactivate (id : Nat) (l : List Station) (n : Nat)
    (h : activeBounded l n) : activeBounded (deactivateStation id l) n := by
  induction l with
  | nil => intro st hst; simp [deactivateStation] at hst
  | cons a l ih =>
    have hl : activeBounded l n := fun st hst => h st (List.mem_cons_of_mem _ hst)
    intro st hst ha
    simp only [deactivateStation] at hst
    by_cases ha1 : a.puzzleId = id
    · simp only [ha1, if_true, List.mem_cons] at hst
      rcases hst with rfl | hst
      · simp at ha
      · exact hl st hst ha
    · simp only [ha1, if_false, List.mem_cons] at hst
      rcases hst with rfl | hst
      · exact h st (List.mem_cons_self _ _) ha
      · exact ih hl st hst ha

/-- After `updatePuzzleStations` a station is active iff its `puzzleId` is at
most `puzzlesSolved + 1`, when this bound held for the active stations before. -/
theorem updatePuzzleStations_iff (l : List Station) (n : Nat) (h : activeBounded l n) :
    ∀ st ∈ updatePuzzleStations l n, (st.active = true ↔ st.puzzleId ≤ n + 1) := by
  intro st hst
  refine ⟨activeBounded_update l n h st hst, ?_⟩
  simp only [updatePuzzleStations, List.mem_map] at hst
  obtain ⟨st0, _, rfl⟩ := hst
  intro hle
  by_cases hle0 : st0.puzzleId ≤ n + 1
  · rw [if_pos hle0]
  · rw [if_neg hle0] at hle
    exact absurd hle hle0

theorem solvePuzzle_activeBounded (s : GameState α) (puzzle : Puzzle)
    (h : activeBounded s.puzzleStations s.puzzlesSolved) :
    activeBounded (solvePuzzle s puzzle).puzzleStations (solvePuzzle s puzzle).puzzlesSolved := by
  simp only [solvePuzzle]
  exact activeBounded_deactivate _ _ _ (activeBounded_mono _ _ _ (Nat.le_succ _) h)

end StationLemmas

section InitialLemmas

variable {α : Type} [LinearOrderedField α]

theorem initialState_activeBounded :
    activeBounded (initialState : GameState α).puzzleStations
      (initialState : GameState α).puzzlesSolved := by
  intro st hst ha
  have hst2 : st ∈ levelStations := hst
  simp only [levelStations, List.mem_cons, List.mem_singleton, List.not_mem_nil, or_false] at hst2
  rcases hst2 with rfl | rfl | rfl | rfl | rfl | rfl <;> simp_all

end InitialLemmas

section ProgressionInvariant

variable {α : Type} [LinearOrderedField α] [FloorRing α]

theorem step_activeBounded (s : GameState α) (a : Action α)
    (h : activeBounded s.puzzleStations s.puzzlesSolved) :
    activeBounded (step s a).puzzleStations (step s a).puzzlesSolved := by
  cases a with
  | startGame => exact h
  | update keys hd =>
    simp only [step]
    obtain ⟨_, _, f3, _, _, _, _, f8, f9⟩ := update_fields s keys hd
    rw [f3]
    rcases Bool.eq_false_or_eq_true s.gameStarted with hg | hg
    · rw [f8 hg]; exact activeBounded_update _ _ h
    · rw [f9 hg]; exact h
  | interact =>
    simp only [step]
    obtain ⟨_, f2, _, _, _, f6, _, _, _⟩ := interact_fields s
    rw [f2, f6]; exact h
  | submitPuzzleAnswer selected =>
    simp only [step]
    rcases submitPuzzleAnswer_cases s selected with e | e | ⟨puzzle, _, _, e⟩
    · rw [e]; exact h
    · rw [e]; exact h
    · rw [e]; exact solvePuzzle_activeBounded s puzzle h
  | closePuzzle => exact h
  | solvePuzzle puzzle => exact solvePuzzle_activeBounded s puzzle h

theorem run_activeBounded (actions : List (Action α)) : ∀ s : GameState α,
    activeBounded s.puzzleStations s.puzzlesSolved →
    activeBounded (run s actions).puzzleStations (run s actions).puzzlesSolved := by
  induction actions with
  | nil => intro s h; exact h
  | cons a rest ih =>
    intro s h
    exact ih (step s a) (step_activeBounded s a h)

/-- C13: in every state reached from the generated level by any sequence of
operations (update ticks, solvePuzzle calls, and the other operations of the
session), immediately after `updatePuzzleStations` has run, a station with
`puzzleId` k is active iff `k <= puzzlesSolved + 1`, that is iff
`puzzlesSolved >= k - 1`; this is also the state of the stations after an
`update` tick of a started game. -/
theorem stations_active_iff (s : GameState α) (hs : Reachable s) :
    (∀ st ∈ updatePuzzleStations s.puzzleStations s.puzzlesSolved,
      (st.active = true ↔ st.puzzleId ≤ s.puzzlesSolved + 1)
      ∧ (st.active = true ↔ (s.puzzlesSolved : Int) ≥ (st.puzzleId : Int) - 1))
    ∧ (∀ (keys : Keys) (h : Heading α), s.gameStarted = true →
        ∀ st ∈ (update s keys h).puzzleStations,
          (st.active = true ↔ st.puzzleId ≤ (update s keys h).puzzlesSolved + 1)) := by
  obtain ⟨actions, rfl⟩ := hs
  have hinv := run_activeBounded actions (initialState : GameState α) initialState_activeBounded
  constructor
  · intro st hst
    have h1 := updatePuzzleStations_iff _ _ hinv st hst
    refine ⟨h1, ?_⟩
    rw [h1]
    omega
  · intro keys h hg st hst
    obtain ⟨_, _, f3, _, _, _, _, f8, _⟩ := update_fields (run initialState actions) keys h
    rw [f8 hg] at hst
    rw [f3]
    exact updatePuzzleStations_iff _ _ hinv st hst

/-- Witness of C13: the state of a started game after `solvePuzzle` for the
first puzzle is reachable; in it `puzzlesSolved = 1` and, after
`updatePuzzleStations`, exactly the stations 1 and 2 are active. -/
theorem stations_active_iff_witness :
    Reachable (run (initialState : GameState ℚ) [.startGame, .solvePuzzle puzzleOne])
    ∧ (run (initialState : GameState ℚ) [.startGame, .solvePuzzle puzzleOne]).puzzlesSolved = 1
    ∧ (∀ st ∈ updatePuzzleStations
          (run (initialState : GameState ℚ) [.startGame, .solvePuzzle puzzleOne]).puzzleStations
          (run (initialState : GameState ℚ) [.startGame, .solvePuzzle puzzleOne]).puzzlesSolved,
        (st.active = true ↔ st.puzzleId ≤ 1 + 1)) :=
  ⟨⟨_, rfl⟩, rfl,
    fun st hst => ((stations_active_iff _ ⟨[.startGame, .solvePuzzle puzzleOne], rfl⟩).1 st hst).1⟩

end ProgressionInvariant

section DoorLemmas

variable {α : Type}

/-- What `unlockDoor` does to the door at each index: coordinates and `puzzleId`
stay; the first door with the given `puzzleId` gets `locked = false`; every
other door keeps its `locked`. -/
theorem unlockDoor_spec (id : Nat) (doors : List Door) : ∀ (i : Nat) (d : Door),
    doors[i]? = some d →
    ∃ d2, (unlockDoor id doors)[i]? = some d2
      ∧ d2.mapX = d.mapX ∧ d2.mapY = d.mapY ∧ d2.puzzleId = d.puzzleId
      ∧ (d.puzzleId = id → (∀ j e, j < i → doors[j]? = some e → e.puzzleId ≠ id) →
          d2.locked = false)
      ∧ (d.puzzleId ≠ id → d2.locked = d.locked)
      ∧ ((∃ j e, j < i ∧ doors[j]? = some e ∧ e.puzzleId = id) → d2.locked = d.locked) := by
  induction doors with
  | nil => intro i d h; simp at h
  | cons a rest ih =>
    intro i d h
    by_cases ha : a.puzzleId = id
    · simp only [unlockDoor]
      rw [if_pos ha]
      cases i with
      | zero =>
        simp only [List.getElem?_cons_zero, Option.some.injEq] at h
        subst h
        refine ⟨{ a with locked := false }, by simp, rfl, rfl, rfl, fun _ _ => rfl,
          fun hne => absurd ha hne, ?_⟩
        rintro ⟨j, e, hj, _, _⟩
        omega
      | succ k =>
        simp only [List.getElem?_cons_succ] at h
        refine ⟨d, by simpa using h, rfl, rfl, rfl, ?_, fun _ => rfl, fun _ => rfl⟩
        intro _ hall
        exact absurd ha (hall 0 a (by omega) (by simp))
    · simp only [unlockDoor]
      rw [if_neg ha]
      cases i with
      | zero =>
        simp only [List.getElem?_cons_zero, Option.some.injEq] at h
        subst h
        refine ⟨a, by simp, rfl, rfl, rfl, fun he => absurd he ha, fun _ => rfl, fun _ => rfl⟩
      | succ k =>
        simp only [List.getElem?_cons_succ] at h
        obtain ⟨d2, h1, h2, h3, h4, h5, h6, h7⟩ := ih k d h
        refine ⟨d2, by simpa using h1, h2, h3, h4, ?_, h6, ?_⟩
        · intro he hall
          apply h5 he
          intro j e hj hje
          exact hall (j + 1) e (by omega) (by simpa using hje)
        · rintro ⟨j, e, hj, hje, hid⟩
          cases j with
          | zero =>
            simp only [List.getElem?_cons_zero, Option.some.injEq] at hje
            subst hje
            exact absurd hid ha
          | succ j =>
            simp only [List.getElem?_cons_succ] at hje
            exact h7 ⟨j, e, by omega, hje, hid⟩

theorem unlockDoor_length (id : Nat) (doors : List Door) :
    (unlockDoor id doors).length = doors.length := by
  induction doors with
  | nil => rfl
  | cons a rest ih =>
    by_cases ha : a.puzzleId = id
    · simp [unlockDoor, ha]
    · simp [unlockDoor, ha, ih]

/-- What `solvePuzzle` does to the door at each index. -/
theorem solvePuzzle_door_rel (s : GameState α) (p : Puzzle) (i : Nat) (d : Door)
    (h : s.doors[i]? = some d) :
    ∃ d2, (solvePuzzle s p).doors[i]? = some d2
      ∧ d2.mapX = d.mapX ∧ d2.mapY = d.mapY ∧ d2.puzzleId = d.puzzleId
      ∧ (d.locked = false → d2.locked = false)
      ∧ (d.locked = true → d2.locked = false → p.id = d.puzzleId) := by
  obtain ⟨d2, h1, h2, h3, h4, h5, h6, h7⟩ := unlockDoor_spec p.id s.doors i d h
  refine ⟨d2, h1, h2, h3, h4, ?_, ?_⟩
  · intro hl
    by_cases he : d.puzzleId = p.id
    · by_cases hex : ∃ j e, j < i ∧ s.doors[j]? = some e ∧ e.puzzleId = p.id
      · rw [h7 hex]; exact hl
      · apply h5 he
        intro j e hj hje hid
        exact hex ⟨j, e, hj, hje, hid⟩
    · rw [h6 he]; exact hl
  · intro hl hl2
    by_contra hne
    have := h6 (fun he => hne he.symm)
    rw [this, hl] at hl2
    exact Bool.noConfusion hl2

end DoorLemmas

section DoorClaims

variable {α : Type} [LinearOrderedField α] [FloorRing α]

/-- C14, the code at the failing input: in a started game on the generated
level, `solvePuzzle` for puzzle 1 leaves the station with `puzzleId` 1
inactive, and the next `update` tick makes it active again, because
`updatePuzzleStations` activates every station with
`puzzleId <= puzzlesSolved + 1`. -/
theorem solved_station_reactivated :
    puzzleOne.id = 1
    ∧ ((solvePuzzle (startGame (initialState : GameState ℚ)) puzzleOne).puzzleStations.map
        (fun st => (st.puzzleId, st.active)))
        = [(1, false), (2, false), (3, false), (4, false), (5, false), (6, false)]
    ∧ ((update (solvePuzzle (startGame (initialState : GameState ℚ)) puzzleOne)
          noKeys headingEast).puzzleStations.map (fun st => (st.puzzleId, st.active)))
        = [(1, true), (2, true), (3, false), (4, false), (5, false), (6, false)] := by
  refine ⟨rfl, rfl, ?_⟩
  rw [(update_fields (solvePuzzle (startGame (initialState : GameState ℚ)) puzzleOne)
    noKeys headingEast).2.2.2.2.2.2.2.1 rfl]
  rfl

/-- C17, the code at the failing input: from the generated level with the
player at (160, 160), `interact`, the submission of option 1 and the `update`
of the frame give `puzzlesSolved = 1`, `score = 100`, the door of puzzle 1
unlocked and all other doors locked, station 2 active, and station 1 active
again; before that `update`, stations 1 and 2 are both inactive. -/
theorem scenario_station_one_active :
    (interact stateAtStationOne).currentPuzzle = some puzzleOne
    ∧ ((submitPuzzleAnswer (interact stateAtStationOne) (some 1)).puzzleStations.map
        (fun st => (st.puzzleId, st.active)))
        = [(1, false), (2, false), (3, false), (4, false), (5, false), (6, false)]
    ∧ (update (submitPuzzleAnswer (interact stateAtStationOne) (some 1))
        noKeys headingEast).puzzlesSolved = 1
    ∧ (update (submitPuzzleAnswer (interact stateAtStationOne) (some 1))
        noKeys headingEast).score = 100
    ∧ (update (submitPuzzleAnswer (interact stateAtStationOne) (some 1))
        noKeys headingEast).doors = doorsAfterPuzzle1
    ∧ ((update (submitPuzzleAnswer (interact stateAtStationOne) (some 1))
        noKeys headingEast).puzzleStations.map (fun st => (st.puzzleId, st.active)))
        = [(1, true), (2, true), (3, false), (4, false), (5, false), (6, false)] := by
  have hscan : interactScan stateAtStationOne.player.x stateAtStationOne.player.y
      stateAtStationOne.puzzleStations = some 1 := by
    have hd : sqrtLt (distSq (160 : ℚ) 160 2 2) 50 = true := by
      simp only [sqrtLt, distSq, anchor, decide_eq_true_eq]
      norm_num [TILE_SIZE]
    show interactScan (160 : ℚ) 160 levelStations = some 1
    simp only [levelStations, interactScan, if_true, hd]
  have hint : interact stateAtStationOne
      = { stateAtStationOne with currentPuzzle := some puzzleOne } := by
    unfold interact
    rw [hscan]
    rfl
  have hsub : submitPuzzleAnswer (interact stateAtStationOne) (some 1)
      = closePuzzle (solvePuzzle { stateAtStationOne with currentPuzzle := some puzzleOne }
          puzzleOne) := by
    rw [hint]
    rfl
  obtain ⟨f1, f2, f3, _, _, _, _, f8, _⟩ :=
    update_fields (submitPuzzleAnswer (interact stateAtStationOne) (some 1)) noKeys headingEast
  refine ⟨by rw [hint], by rw [hsub]; rfl, by rw [f3, hsub]; rfl, by rw [f2, hsub]; rfl,
    by rw [f1, hsub]; rfl, ?_⟩
  rw [f8 (by rw [hsub]; rfl), hsub]
  rfl

end DoorClaims

section DoorFrameClaims

variable {α : Type}

/-- C15, as stated, fails: with two doors of puzzle 1 in the list,
`solvePuzzle` for puzzle 1 unlocks the first and leaves the second, whose
`puzzleId` is also 1, locked. -/
theorem solvePuzzle_doors_counterexample :
    puzzleOne.id = 1
    ∧ (solvePuzzle { (initialState : GameState ℚ) with doors := twoDoorsOnePuzzle } puzzleOne).doors
        = [{ mapX := 4, mapY := 3, locked := false, puzzleId := 1 },
           { mapX := 8, mapY := 3, locked := true, puzzleId := 1 }] :=
  ⟨rfl, rfl⟩

/-- C15, amended: after `solvePuzzle(p)` the door list has the same length and
each door has the coordinates and `puzzleId` it had; the first door in list
order with `puzzleId == p.id` has `locked = false`; every other door (a door
with `puzzleId != p.id`, or a door after the first one with that `puzzleId`)
has `locked` unchanged. -/
theorem solvePuzzle_doors (s : GameState α) (p : Puzzle) :
    (solvePuzzle s p).doors.length = s.doors.length
    ∧ ∀ (i : Nat) (d : Door), s.doors[i]? = some d →
      ∃ d2, (solvePuzzle s p).doors[i]? = some d2
        ∧ d2.mapX = d.mapX ∧ d2.mapY = d.mapY ∧ d2.puzzleId = d.puzzleId
        ∧ (d.puzzleId = p.id → (∀ j e, j < i → s.doors[j]? = some e → e.puzzleId ≠ p.id) →
            d2.locked = false)
        ∧ (d.puzzleId ≠ p.id → d2.locked = d.locked)
        ∧ ((∃ j e, j < i ∧ s.doors[j]? = some e ∧ e.puzzleId = p.id) →
            d2.locked = d.locked) := by
  constructor
  · exact unlockDoor_length p.id s.doors
  · intro i d h
    exact unlockDoor_spec p.id s.doors i d h

/-- Witness of C15 (amended) on the generated level and on the list with two
doors of puzzle 1: the first door of puzzle 1 is unlocked, the door of puzzle 2
and the second door of puzzle 1 stay locked. -/
theorem solvePuzzle_doors_witness :
    (∃ d2, (solvePuzzle (initialState : GameState ℚ) puzzleOne).doors[0]? = some d2
      ∧ d2.locked = false)
    ∧ (∃ d2, (solvePuzzle (initialState : GameState ℚ) puzzleOne).doors[1]? = some d2
      ∧ d2.locked = true)
    ∧ (∃ d2, (solvePuzzle { (initialState : GameState ℚ) with doors := twoDoorsOnePuzzle }
          puzzleOne).doors[1]? = some d2
      ∧ d2.locked = true) := by
  refine ⟨?_, ?_, ?_⟩
  · obtain ⟨d2, h1, _, _, _, h5, _, _⟩ :=
      (solvePuzzle_doors (initialState : GameState ℚ) puzzleOne).2 0
        { mapX := 4, mapY := 3, locked := true, puzzleId := 1 } rfl
    exact ⟨d2, h1, h5 rfl (fun j e hj _ => absurd hj (Nat.not_lt_zero j))⟩
  · obtain ⟨d2, h1, _, _, _, _, h6, _⟩ :=
      (solvePuzzle_doors (initialState : GameState ℚ) puzzleOne).2 1
        { mapX := 8, mapY := 3, locked := true, puzzleId := 2 } rfl
    exact ⟨d2, h1, h6 (by decide)⟩
  · obtain ⟨d2, h1, _, _, _, _, _, h7⟩ :=
      (solvePuzzle_doors { (initialState : GameState ℚ) with doors := twoDoorsOnePuzzle }
        puzzleOne).2 1 { mapX := 8, mapY := 3, locked := true, puzzleId := 1 } rfl
    exact ⟨d2, h1, h7 ⟨0, { mapX := 4, mapY := 3, locked := true, puzzleId := 1 },
      by decide, rfl, rfl⟩⟩

end DoorFrameClaims

section DoorInvariant

variable {α : Type} [LinearOrderedField α] [FloorRing α]

/-- One operation and the door at each index: coordinates and `puzzleId` stay,
an unlocked door stays unlocked, and a locked door is unlocked only by
`solvePuzzle` for the puzzle with the `puzzleId` of the door. -/
theorem step_door_rel (s : GameState α) (a : Action α) (i : Nat) (d : Door)
    (h : s.doors[i]? = some d) :
    ∃ d2, (step s a).doors[i]? = some d2
      ∧ d2.mapX = d.mapX ∧ d2.mapY = d.mapY ∧ d2.puzzleId = d.puzzleId
      ∧ (d.locked = false → d2.locked = false)
      ∧ (d.locked = true → d2.locked = false →
          ∃ p : Puzzle, p.id = d.puzzleId
            ∧ (a = .solvePuzzle p
              ∨ (a = .submitPuzzleAnswer (some p.correct) ∧ s.currentPuzzle = some p))) := by
  have same : ∀ t : GameState α, t.doors = s.doors →
      ∃ d2, t.doors[i]? = some d2
        ∧ d2.mapX = d.mapX ∧ d2.mapY = d.mapY ∧ d2.puzzleId = d.puzzleId
        ∧ (d.locked = false → d2.locked = false)
        ∧ (d.locked = true → d2.locked = false →
            ∃ p : Puzzle, p.id = d.puzzleId
              ∧ (a = .solvePuzzle p
                ∨ (a = .submitPuzzleAnswer (some p.correct) ∧ s.currentPuzzle = some p))) := by
    intro t ht
    refine ⟨d, by rw [ht]; exact h, rfl, rfl, rfl, fun hl => hl, ?_⟩
    intro hl hl2
    rw [hl] at hl2
    exact Bool.noConfusion hl2
  cases a with
  | startGame => exact same _ rfl
  | update keys hd => exact same _ (update_fields s keys hd).1
  | interact => exact same _ (interact_fields s).1
  | closePuzzle => exact same _ rfl
  | solvePuzzle p =>
    obtain ⟨d2, h1, h2, h3, h4, h5, h6⟩ := solvePuzzle_door_rel s p i d h
    exact ⟨d2, h1, h2, h3, h4, h5, fun hl hl2 => ⟨p, h6 hl hl2, Or.inl rfl⟩⟩
  | submitPuzzleAnswer selected =>
    rcases submitPuzzleAnswer_cases s selected with e | e | ⟨p, hp, hsel, e⟩
    · exact same _ (by simp only [step]; rw [e])
    · exact same _ (by simp only [step]; rw [e]; rfl)
    · obtain ⟨d2, h1, h2, h3, h4, h5, h6⟩ := solvePuzzle_door_rel s p i d h
      refine ⟨d2, ?_, h2, h3, h4, h5, fun hl hl2 => ⟨p, h6 hl hl2, Or.inr ⟨?_, hp⟩⟩⟩
      · simp only [step]; rw [e]; exact h1
      · rw [hsel]

/-- C16: a door never re-locks.  `update` (with `handleMovement`,
`checkItemCollisions` and `updatePuzzleStations`), `interact`, `closePuzzle`
and `startGame` leave the door list as it is; every operation keeps the
coordinates and `puzzleId` of each door and keeps an unlocked door unlocked; a
locked door becomes unlocked only in a `solvePuzzle` call (direct, or made by
`submitPuzzleAnswer` for the current puzzle) for the puzzle whose `id` is the
`puzzleId` of the door; and along every sequence of operations an unlocked
door stays unlocked. -/
theorem doors_never_relock :
    (∀ (s : GameState α) (keys : Keys) (h : Heading α), (update s keys h).doors = s.doors)
    ∧ (∀ s : GameState α, (interact s).doors = s.doors)
    ∧ (∀ (s : GameState α) (a : Action α) (i : Nat) (d : Door), s.doors[i]? = some d →
        ∃ d2, (step s a).doors[i]? = some d2
          ∧ d2.mapX = d.mapX ∧ d2.mapY = d.mapY ∧ d2.puzzleId = d.puzzleId
          ∧ (d.locked = false → d2.locked = false)
          ∧ (d.locked = true → d2.locked = false →
              ∃ p : Puzzle, p.id = d.puzzleId
                ∧ (a = .solvePuzzle p
                  ∨ (a = .submitPuzzleAnswer (some p.correct) ∧ s.currentPuzzle = some p))))
    ∧ (∀ (actions : List (Action α)) (s : GameState α) (i : Nat) (d : Door),
        s.doors[i]? = some d →
        ∃ d2, (run s actions).doors[i]? = some d2
          ∧ d2.mapX = d.mapX ∧ d2.mapY = d.mapY ∧ d2.puzzleId = d.puzzleId
          ∧ (d.locked = false → d2.locked = false)) := by
  refine ⟨fun s keys h => (update_fields s keys h).1, fun s => (interact_fields s).1,
    fun s a i d h => step_door_rel s a i d h, ?_⟩
  intro actions
  induction actions with
  | nil => intro s i d h; exact ⟨d, h, rfl, rfl, rfl, fun hl => hl⟩
  | cons a rest ih =>
    intro s i d h
    obtain ⟨d1, h1, a1, a2, a3, a4, _⟩ := step_door_rel s a i d h
    obtain ⟨d2, h2, b1, b2, b3, b4⟩ := ih (step s a) i d1 h1
    exact ⟨d2, h2, by rw [b1, a1], by rw [b2, a2], by rw [b3, a3], fun hl => b4 (a4 hl)⟩

/-- Witness of C16 on the generated level: the door of puzzle 1, unlocked by
`solvePuzzle`, is still unlocked after an `update` tick, an `interact` and a
`solvePuzzle` for another puzzle. -/
theorem doors_never_relock_witness :
    (solvePuzzle (startGame (initialState : GameState ℚ)) puzzleOne).doors[0]?
        = some { mapX := 4, mapY := 3, locked := false, puzzleId := 1 }
    ∧ ∃ d2, (run (solvePuzzle (startGame (initialState : GameState ℚ)) puzzleOne)
          [.update noKeys headingEast, .interact, .solvePuzzle puzzleOne]).doors[0]? = some d2
        ∧ d2.puzzleId = 1 ∧ d2.locked = false := by
  refine ⟨rfl, ?_⟩
  obtain ⟨d2, h1, _, _, h4, h5⟩ := (doors_never_relock (α := ℚ)).2.2.2
    [.update noKeys headingEast, .interact, .solvePuzzle puzzleOne]
    (solvePuzzle (startGame (initialState : GameState ℚ)) puzzleOne) 0
    { mapX := 4, mapY := 3, locked := false, puzzleId := 1 } rfl
  exact ⟨d2, h1, h4, h5 rfl⟩

end DoorInvariant

section InteractClaims

variable {α : Type} [LinearOrderedField α]

theorem interactScan_first (px py : α) : ∀ (sts : List Station) (i : Nat) (st : Station),
    sts[i]? = some st → st.active = true → distSq px py st.mapX st.mapY < 50 * 50 →
    (∀ j e, j < i → sts[j]? = some e →
      ¬ (e.active = true ∧ distSq px py e.mapX e.mapY < 50 * 50)) →
    interactScan px py sts = some st.puzzleId := by
  intro sts
  induction sts with
  | nil => intro i st h; simp at h
  | cons a rest ih =>
    intro i st h hact hd hfirst
    cases i with
    | zero =>
      simp only [List.getElem?_cons_zero, Option.some.injEq] at h
      subst h
      simp [interactScan, hact, sqrtLt, hd]
    | succ k =>
      simp only [List.getElem?_cons_succ] at h
      have h0 := hfirst 0 a (by omega) (by simp)
      have hrest := ih k st h hact hd
        (fun j e hj hje => hfirst (j + 1) e (by omega) (by simpa using hje))
      unfold interactScan
      by_cases ha : a.active = true
      · have hna : ¬ distSq px py a.mapX a.mapY < 50 * 50 := fun hlt => h0 ⟨ha, hlt⟩
        simp [ha, sqrtLt, hna, hrest]
      · simp [ha, hrest]

theorem interactScan_none (px py : α) : ∀ sts : List Station,
    (∀ e ∈ sts, ¬ (e.active = true ∧ distSq px py e.mapX e.mapY < 50 * 50)) →
    interactScan px py sts = none := by
  intro sts
  induction sts with
  | nil => intro _; rfl
  | cons a rest ih =>
    intro hall
    have h0 := hall a (List.mem_cons_self _ _)
    have hrest := ih (fun e he => hall e (List.mem_cons_of_mem _ he))
    unfold interactScan
    by_cases ha : a.active = true
    · have hna : ¬ distSq px py a.mapX a.mapY < 50 * 50 := fun hlt => h0 ⟨ha, hlt⟩
      simp [ha, sqrtLt, hna, hrest]
    · simp [ha, hrest]

/-- C18: `interact` calls `showPuzzle` for the first station in list order that
is active and whose anchor is at distance below 50 from the player (squared
distance below 50 * 50), whatever stations follow it, and the puzzle of the
bank with the `puzzleId` of that station becomes the current puzzle; if no
active station is within that radius, `interact` changes nothing; and in every
case score, puzzlesSolved, doors, stations, items and player are unchanged. -/
theorem interact_first_in_range (s : GameState α) :
    (∀ (i : Nat) (st : Station), s.puzzleStations[i]? = some st → st.active = true →
      distSq s.player.x s.player.y st.mapX st.mapY < 50 * 50 →
      (∀ j e, j < i → s.puzzleStations[j]? = some e →
        ¬ (e.active = true ∧ distSq s.player.x s.player.y e.mapX e.mapY < 50 * 50)) →
      interact s = showPuzzle s st.puzzleId
      ∧ (∀ p, chemistryPuzzles.find? (fun p => p.id == st.puzzleId) = some p →
          (interact s).currentPuzzle = some p ∧ p.id = st.puzzleId))
    ∧ ((∀ e ∈ s.puzzleStations,
          ¬ (e.active = true ∧ distSq s.player.x s.player.y e.mapX e.mapY < 50 * 50)) →
        interact s = s)
    ∧ ((interact s).score = s.score ∧ (interact s).puzzlesSolved = s.puzzlesSolved
        ∧ (interact s).doors = s.doors ∧ (interact s).puzzleStations = s.puzzleStations
        ∧ (interact s).items = s.items ∧ (interact s).player = s.player) := by
  refine ⟨?_, ?_, ?_⟩
  · intro i st h hact hd hfirst
    have hscan := interactScan_first s.player.x s.player.y s.puzzleStations i st h hact hd hfirst
    have hi : interact s = showPuzzle s st.puzzleId := by
      unfold interact
      rw [hscan]
    refine ⟨hi, ?_⟩
    intro p hp
    constructor
    · rw [hi]
      unfold showPuzzle
      rw [hp]
    · have := List.find?_some hp
      simpa using this
  · intro hall
    unfold interact
    rw [interactScan_none s.player.x s.player.y s.puzzleStations hall]
  · obtain ⟨f1, f2, f3, f4, f5, f6, _, _, _⟩ := interact_fields s
    exact ⟨f5, f6, f1, f2, f3, f4⟩

/-- Witness of C18: with two active stations in range, the first in list order
at squared distance 1600 and the second, nearer, at 576, `interact` shows the
puzzle of the first. -/
theorem interact_first_in_range_witness :
    distSq stateTwoStations.player.x stateTwoStations.player.y 2 2 = 1600
    ∧ distSq stateTwoStations.player.x stateTwoStations.player.y 3 2 = 576
    ∧ interact stateTwoStations = showPuzzle stateTwoStations 1
    ∧ (interact stateTwoStations).currentPuzzle = some puzzleOne := by
  have h1 : distSq stateTwoStations.player.x stateTwoStations.player.y 2 2 = 1600 := by
    show distSq (200 : ℚ) 160 2 2 = 1600
    simp only [distSq, anchor]
    norm_num [TILE_SIZE]
  have h2 : distSq stateTwoStations.player.x stateTwoStations.player.y 3 2 = 576 := by
    show distSq (200 : ℚ) 160 3 2 = 576
    simp only [distSq, anchor]
    norm_num [TILE_SIZE]
  have key := (interact_first_in_range stateTwoStations).1 0
    { mapX := 2, mapY := 2, puzzleId := 1, active := true, type := .computer,
      height := 40, width := 30 } rfl rfl (by rw [h1]; norm_num)
    (fun j e hj _ => absurd hj (Nat.not_lt_zero j))
  exact ⟨h1, h2, key.1, (key.2 puzzleOne rfl).1⟩

end InteractClaims

section ItemEffectLemmas

variable {α : Type}

theorem applyItem_pos (p : Player α) (item : Item) :
    (applyItem p item).x = p.x ∧ (applyItem p item).y = p.y
    ∧ (applyItem p item).speed = p.speed := by
  unfold applyItem
  cases item.type <;> exact ⟨rfl, rfl, rfl⟩

theorem foldr_applyItem_health (p : Player α) : ∀ l : List Item,
    (p.health ≤ 100 ∨ ∃ it ∈ l, it.type = .health) →
    (l.foldr (fun it q => applyItem q it) p).health ≤ 100 := by
  intro l
  induction l with
  | nil =>
    intro h
    rcases h with h | ⟨it, hit, _⟩
    · exact h
    · simp at hit
  | cons a rest ih =>
    intro h
    simp only [List.foldr_cons]
    cases ht : a.type with
    | health =>
      simp only [applyItem, ht]
      exact Nat.min_le_left _ _
    | key =>
      simp only [applyItem, ht]
      apply ih
      rcases h with h | ⟨it, hit, hty⟩
      · exact Or.inl h
      · right
        rcases List.mem_cons.mp hit with rfl | hmem
        · rw [ht] at hty; exact absurd hty (by decide)
        · exact ⟨it, hmem, hty⟩

end ItemEffectLemmas

section ItemLemmas

variable {α : Type} [LinearOrderedField α]

/-- The result of `checkItemCollisions`: the position is unchanged, the items
kept are those not in range, in their order, and the player is the result of
applying the items in range from the last to the first. -/
theorem checkItemCollisions_eq (p : Player α) : ∀ items : List Item,
    (checkItemCollisions p items).1.x = p.x ∧ (checkItemCollisions p items).1.y = p.y
    ∧ (checkItemCollisions p items).1.speed = p.speed
    ∧ (checkItemCollisions p items).2
        = items.filter (fun it => !sqrtLt (distSq p.x p.y it.mapX it.mapY) 30)
    ∧ (checkItemCollisions p items).1
        = (items.filter (fun it => sqrtLt (distSq p.x p.y it.mapX it.mapY) 30)).foldr
            (fun it q => applyItem q it) p := by
  intro items
  induction items with
  | nil => exact ⟨rfl, rfl, rfl, rfl, rfl⟩
  | cons a rest ih =>
    obtain ⟨i1, i2, i3, i4, i5⟩ := ih
    have hstep : checkItemCollisions p (a :: rest)
        = if sqrtLt (distSq p.x p.y a.mapX a.mapY) 30
          then (applyItem (checkItemCollisions p rest).1 a, (checkItemCollisions p rest).2)
          else ((checkItemCollisions p rest).1, a :: (checkItemCollisions p rest).2) := by
      show (if sqrtLt (distSq (checkItemCollisions p rest).1.x (checkItemCollisions p rest).1.y
            a.mapX a.mapY) 30
          then (applyItem (checkItemCollisions p rest).1 a, (checkItemCollisions p rest).2)
          else ((checkItemCollisions p rest).1, a :: (checkItemCollisions p rest).2)) = _
      rw [i1, i2]
    rw [hstep]
    rcases Bool.eq_false_or_eq_true (sqrtLt (distSq p.x p.y a.mapX a.mapY) 30) with hr | hr
    · obtain ⟨a1, a2, a3⟩ := applyItem_pos (checkItemCollisions p rest).1 a
      simp only [hr, if_true, List.filter_cons, Bool.not_true, Bool.false_eq_true, if_false,
        List.foldr_cons]
      exact ⟨by rw [a1, i1], by rw [a2, i2], by rw [a3, i3], i4, by rw [i5]⟩
    · simp only [hr, Bool.false_eq_true, if_false, List.filter_cons, Bool.not_false, if_true]
      exact ⟨i1, i2, i3, by rw [i4], i5⟩

end ItemLemmas

section ItemRunLemmas

variable {α : Type} [LinearOrderedField α] [FloorRing α]

theorem step_items_subset (s : GameState α) (a : Action α) :
    ∀ it ∈ (step s a).items, it ∈ s.items := by
  intro it hit
  cases a with
  | startGame => exact hit
  | update keys h =>
    simp only [step, update] at hit
    rcases Bool.eq_false_or_eq_true s.gameStarted with hg | hg
    · simp only [hg, Bool.not_true, Bool.false_eq_true, if_false] at hit
      rw [(checkItemCollisions_eq _ _).2.2.2.1] at hit
      exact (List.mem_filter.mp hit).1
    · simp only [hg, Bool.not_false, if_true] at hit
      exact hit
  | interact =>
    simp only [step] at hit
    rw [(interact_fields s).2.2.1] at hit
    exact hit
  | closePuzzle => exact hit
  | solvePuzzle p => exact hit
  | submitPuzzleAnswer selected =>
    simp only [step] at hit
    rcases submitPuzzleAnswer_cases s selected with e | e | ⟨p, _, _, e⟩
    · rw [e] at hit; exact hit
    · rw [e] at hit; exact hit
    · rw [e] at hit; exact hit

theorem run_items_subset (actions : List (Action α)) : ∀ s : GameState α,
    ∀ it ∈ (run s actions).items, it ∈ s.items := by
  induction actions with
  | nil => intro s it hit; exact hit
  | cons a rest ih =>
    intro s it hit
    exact step_items_subset s a it (ih (step s a) it hit)

theorem handleMovement_noKeys (map : Grid) (doors : List Door) (h : Heading α) (p : Player α) :
    (handleMovement map doors noKeys h p).x = p.x
    ∧ (handleMovement map doors noKeys h p).y = p.y := by
  have hd : moveDelta noKeys h p.speed = (0, 0) := by simp [moveDelta, noKeys]
  unfold handleMovement resolveMove
  simp only [hd, add_zero]
  rcases Bool.eq_false_or_eq_true (checkGridCollision map doors p.x p.y 8) with hc | hc <;>
    simp [hc]

end ItemRunLemmas

section ItemClaims

variable {α : Type} [LinearOrderedField α] [FloorRing α]

/-- C19: `checkItemCollisions` keeps exactly the items that are not within
distance 30 of the player (squared distance below 30 * 30), in their original
order, and removes the others; the player that results is obtained by applying
the removed items, from the last to the first, where a health item sets
`health` to `min(100, health + value)` and a key item adds its value to
`keys`; the position is unchanged; `health` is at most 100 afterwards when it
was at most 100 before or a health item was removed; and an item removed in an
`update` tick is in the item list of no later state. -/
theorem checkItemCollisions_spec (p : Player α) (items : List Item) :
    (checkItemCollisions p items).2
        = items.filter (fun it => decide (¬ distSq p.x p.y it.mapX it.mapY < 30 * 30))
    ∧ (checkItemCollisions p items).1
        = (items.filter (fun it => decide (distSq p.x p.y it.mapX it.mapY < 30 * 30))).foldr
            (fun it q => applyItem q it) p
    ∧ (∀ (q : Player α) (it : Item),
        (it.type = .health → applyItem q it = { q with health := min 100 (q.health + it.value) })
        ∧ (it.type = .key → applyItem q it = { q with keys := q.keys + it.value }))
    ∧ ((checkItemCollisions p items).1.x = p.x ∧ (checkItemCollisions p items).1.y = p.y)
    ∧ ((p.health ≤ 100
          ∨ ∃ it ∈ items, distSq p.x p.y it.mapX it.mapY < 30 * 30 ∧ it.type = .health) →
        (checkItemCollisions p items).1.health ≤ 100)
    ∧ (∀ (s : GameState α) (keys : Keys) (h : Heading α) (actions : List (Action α)) (it : Item),
        s.gameStarted = true → it ∈ s.items →
        distSq (handleMovement s.map s.doors keys h s.player).x
          (handleMovement s.map s.doors keys h s.player).y it.mapX it.mapY < 30 * 30 →
        it ∉ (update s keys h).items ∧ it ∉ (run (update s keys h) actions).items) := by
  obtain ⟨e1, e2, _, e4, e5⟩ := checkItemCollisions_eq p items
  refine ⟨?_, ?_, ?_, ⟨e1, e2⟩, ?_, ?_⟩
  · rw [e4]
    congr 1
    funext it
    simp only [sqrtLt, decide_not]
  · rw [e5]
    rfl
  · intro q it
    constructor
    · intro ht; simp [applyItem, ht]
    · intro ht; simp [applyItem, ht]
  · intro hh
    rw [e5]
    apply foldr_applyItem_health
    rcases hh with hh | ⟨it, hit, hd, hty⟩
    · exact Or.inl hh
    · right
      refine ⟨it, List.mem_filter.mpr ⟨hit, ?_⟩, hty⟩
      simp [sqrtLt, hd]
  · intro s keys h actions it hg hit hd
    have hnot : it ∉ (update s keys h).items := by
      simp only [update, hg, Bool.not_true, Bool.false_eq_true, if_false]
      rw [(checkItemCollisions_eq _ _).2.2.2.1]
      intro hmem
      have := (List.mem_filter.mp hmem).2
      simp [sqrtLt, hd] at this
    exact ⟨hnot, fun hmem => hnot (run_items_subset actions _ it hmem)⟩

/-- Witness of C19 on the items of the generated level: a player with health
60 at the anchor of the health pack of cell (1, 1) picks it up, has health 85
afterwards, and the two other items stay; in a started game with the player at
(96, 96) the health pack is gone after the tick and after later operations. -/
theorem checkItemCollisions_spec_witness :
    (checkItemCollisions playerAtHealthPack levelItems).2
        = [{ mapX := 10, mapY := 7, type := .health, value := 25 },
           { mapX := 5, mapY := 4, type := .key, value := 1 }]
    ∧ (checkItemCollisions playerAtHealthPack levelItems).1.health = 85
    ∧ (checkItemCollisions playerAtHealthPack levelItems).1.health ≤ 100
    ∧ ({ mapX := 1, mapY := 1, type := .health, value := 25 } : Item)
        ∉ (run (update (startGame (initialState : GameState ℚ)) noKeys headingEast)
            [.interact, .update noKeys headingEast]).items := by
  have d1 : distSq (96 : ℚ) 96 1 1 < 30 * 30 := by
    simp only [distSq, anchor]; norm_num [TILE_SIZE]
  have d1n : ¬ (30 * 30 ≤ distSq (96 : ℚ) 96 1 1) := not_le.mpr d1
  have d2 : 30 * 30 ≤ distSq (96 : ℚ) 96 10 7 := by
    simp only [distSq, anchor]; norm_num [TILE_SIZE]
  have d3 : 30 * 30 ≤ distSq (96 : ℚ) 96 5 4 := by
    simp only [distSq, anchor]; norm_num [TILE_SIZE]
  have d2n : ¬ distSq (96 : ℚ) 96 10 7 < 30 * 30 := not_lt.mpr d2
  have d3n : ¬ distSq (96 : ℚ) 96 5 4 < 30 * 30 := not_lt.mpr d3
  obtain ⟨c1, c2, _, _, c5, c6⟩ := checkItemCollisions_spec playerAtHealthPack levelItems
  have hx : playerAtHealthPack.x = 96 := rfl
  have hy : playerAtHealthPack.y = 96 := rfl
  refine ⟨?_, ?_, c5 (Or.inl (by decide)), ?_⟩
  · rw [c1, hx, hy]
    simp [levelItems, List.filter_cons, d1n, d2, d3]
  · rw [c2, hx, hy]
    simp [levelItems, List.filter_cons, d1, d2n, d3n, applyItem, playerAtHealthPack]
  · have hm := handleMovement_noKeys (startGame (initialState : GameState ℚ)).map
      (startGame (initialState : GameState ℚ)).doors headingEast
      (startGame (initialState : GameState ℚ)).player
    refine (c6 (startGame (initialState : GameState ℚ)) noKeys headingEast
      [.interact, .update noKeys headingEast]
      { mapX := 1, mapY := 1, type := .health, value := 25 } rfl (by decide) ?_).2
    rw [hm.1, hm.2]
    show distSq ((3 / 2 : ℚ) * (TILE_SIZE : ℚ)) (3 / 2 * (TILE_SIZE : ℚ)) 1 1 < 30 * 30
    simp only [distSq, anchor]; norm_num [TILE_SIZE]

end ItemClaims

section SpriteClaims

variable {α : Type} [LinearOrderedField α]

/-- The order of the sort is total and transitive, so the sort ends sorted. -/
theorem sortSprites_sorted (l : List (Sprite α)) :
    List.Pairwise (fun a b : Sprite α => b.distSq ≤ a.distSq) (sortSprites l) := by
  haveI : IsTotal (Sprite α) (fun a b => b.distSq ≤ a.distSq) :=
    ⟨fun a b => le_total b.distSq a.distSq⟩
  haveI : IsTrans (Sprite α) (fun a b => b.distSq ≤ a.distSq) :=
    ⟨fun _ _ _ hab hbc => le_trans hbc hab⟩
  exact List.sorted_insertionSort (fun a b : Sprite α => b.distSq ≤ a.distSq) l

/-- C20: the sprites handed to `renderSprite`, in order, are a permutation of
the sprites of the active stations followed by the sprites of the remaining
items; along the sequence the distance to the player does not increase; so of
two sprites at distances d1 < d2 the one at d2 is handed over before the one
at d1.  (Distances are compared through their squares.) -/
theorem renderSprites_farthest_first (s : GameState α) :
    List.Perm (renderSprites s)
      (stationSprites s.player.x s.player.y s.puzzleStations
        ++ itemSprites s.player.x s.player.y s.items)
    ∧ List.Pairwise (fun a b : Sprite α => b.distSq ≤ a.distSq) (renderSprites s)
    ∧ (∀ (i j : Nat) (a b : Sprite α), (renderSprites s)[i]? = some a →
        (renderSprites s)[j]? = some b → a.distSq < b.distSq → j < i)
    ∧ (∀ sp ∈ stationSprites s.player.x s.player.y s.puzzleStations,
        ∃ st ∈ s.puzzleStations, st.active = true ∧ sp.x = anchor st.mapX ∧ sp.y = anchor st.mapY
          ∧ sp.distSq = distSq s.player.x s.player.y st.mapX st.mapY)
    ∧ (∀ sp ∈ itemSprites s.player.x s.player.y s.items,
        ∃ it ∈ s.items, sp.x = anchor it.mapX ∧ sp.y = anchor it.mapY
          ∧ sp.distSq = distSq s.player.x s.player.y it.mapX it.mapY) := by
  have hsorted := sortSprites_sorted (stationSprites s.player.x s.player.y s.puzzleStations
    ++ itemSprites s.player.x s.player.y s.items)
  refine ⟨List.perm_insertionSort _ _, hsorted, ?_, ?_, ?_⟩
  · intro i j a b hi hj hlt
    by_contra hji
    rw [not_lt] at hji
    rcases Nat.eq_or_lt_of_le hji with heq | hlt2
    · subst heq
      rw [hi] at hj
      cases hj
      exact lt_irrefl _ hlt
    · have hil : i < (renderSprites s).length := by
        rcases Nat.lt_or_ge i (renderSprites s).length with h | h
        · exact h
        · rw [List.getElem?_eq_none h] at hi; cases hi
      have hjl : j < (renderSprites s).length := by
        rcases Nat.lt_or_ge j (renderSprites s).length with h | h
        · exact h
        · rw [List.getElem?_eq_none h] at hj; cases hj
      have hrel := (List.pairwise_iff_getElem.mp hsorted) i j hil hjl hlt2
      rw [List.getElem?_eq_getElem hil] at hi
      rw [List.getElem?_eq_getElem hjl] at hj
      cases hi
      cases hj
      exact absurd hlt (not_lt.mpr hrel)
  · intro sp hsp
    simp only [stationSprites, List.mem_map, List.mem_filter] at hsp
    obtain ⟨st, ⟨hst, hact⟩, rfl⟩ := hsp
    exact ⟨st, hst, hact, rfl, rfl, rfl⟩
  · intro sp hsp
    simp only [itemSprites, List.mem_map] at hsp
    obtain ⟨it, hit, rfl⟩ := hsp
    exact ⟨it, hit, rfl, rfl, rfl⟩

/-- Witness of C20 on the generated level with the player at (160, 160): the
squared distances of the four sprites in the order handed to `renderSprite`
are 364544, 53248, 8192 and 0 (the station the player stands on comes last),
and this order is non-increasing. -/
theorem renderSprites_farthest_first_witness :
    (renderSprites stateAtStationOne).map (fun sp => sp.distSq) = [364544, 53248, 8192, 0]
    ∧ List.Pairwise (fun a b : Sprite ℚ => b.distSq ≤ a.distSq)
        (renderSprites stateAtStationOne) := by
  refine ⟨?_, (renderSprites_farthest_first stateAtStationOne).2.1⟩
  have hp : stateAtStationOne.player.x = 160 ∧ stateAtStationOne.player.y = 160 := ⟨rfl, rfl⟩
  have hs : stateAtStationOne.puzzleStations = levelStations := rfl
  have hi : stateAtStationOne.items = levelItems := rfl
  have e1 : distSq (160 : ℚ) 160 2 2 = 0 := by
    simp only [distSq, anchor]; norm_num [TILE_SIZE]
  have e2 : distSq (160 : ℚ) 160 1 1 = 8192 := by
    simp only [distSq, anchor]; norm_num [TILE_SIZE]
  have e3 : distSq (160 : ℚ) 160 10 7 = 364544 := by
    simp only [distSq, anchor]; norm_num [TILE_SIZE]
  have e4 : distSq (160 : ℚ) 160 5 4 = 53248 := by
    simp only [distSq, anchor]; norm_num [TILE_SIZE]
  simp only [renderSprites, hp.1, hp.2, hs, hi, stationSprites, itemSprites, levelStations,
    levelItems, List.filter_cons, List.filter_nil, if_true, Bool.false_eq_true, if_false,
    List.map_cons, List.map_nil, List.cons_append, List.nil_append, e1, e2, e3, e4,
    sortSprites, List.insertionSort, List.orderedInsert]
  norm_num

end SpriteClaims

/-! ## The structural grid -/

section GridFrame

variable {α : Type} [LinearOrderedField α] [FloorRing α]

theorem step_grid (s : GameState α) (a : Action α) :
    (step s a).map = s.map ∧ (step s a).wallTypes = s.wallTypes := by
  cases a with
  | startGame => exact ⟨rfl, rfl⟩
  | update keys hd =>
    obtain ⟨_, _, _, _, _, f6, f7, _, _⟩ := update_fields s keys hd
    exact ⟨f6, f7⟩
  | interact =>
    obtain ⟨_, _, _, _, _, _, _, f8, f9⟩ := interact_fields s
    exact ⟨f8, f9⟩
  | submitPuzzleAnswer selected =>
    simp only [step]
    rcases submitPuzzleAnswer_cases s selected with e | e | ⟨puzzle, _, _, e⟩
    · rw [e]; exact ⟨rfl, rfl⟩
    · rw [e]; exact ⟨rfl, rfl⟩
    · rw [e]; exact ⟨rfl, rfl⟩
  | closePuzzle => exact ⟨rfl, rfl⟩
  | solvePuzzle puzzle => exact ⟨rfl, rfl⟩

theorem run_grid (actions : List (Action α)) : ∀ s : GameState α,
    (run s actions).map = s.map ∧ (run s actions).wallTypes = s.wallTypes := by
  induction actions with
  | nil => intro s; exact ⟨rfl, rfl⟩
  | cons a rest ih =>
    intro s
    obtain ⟨h1, h2⟩ := ih (step s a)
    obtain ⟨g1, g2⟩ := step_grid s a
    exact ⟨h1.trans g1, h2.trans g2⟩

theorem generateLevel_dims :
    generateLevel.map.length = MAP_HEIGHT
    ∧ (∀ row ∈ generateLevel.map, row.length = MAP_WIDTH)
    ∧ generateLevel.wallTypes.length = MAP_HEIGHT
    ∧ (∀ row ∈ generateLevel.wallTypes, row.length = MAP_WIDTH) := by
  decide

/-- C21: in every state of a session (reached from the generated level by any
sequence of operations) `map` and `wallTypes` are the grids that
`generateLevel` built, cell for cell, with MAP_HEIGHT rows of MAP_WIDTH cells;
every operation (an `update` tick with `handleMovement`, `checkItemCollisions`
and `updatePuzzleStations`, `interact`, `solvePuzzle`, and the others) leaves
both grids as they are; and whether a cell blocks is decided by the generated
map and the current `doors` list only. -/
theorem structural_grid_constant (s : GameState α) (hs : Reachable s) :
    s.map = generateLevel.map ∧ s.wallTypes = generateLevel.wallTypes
    ∧ s.map.length = MAP_HEIGHT ∧ (∀ row ∈ s.map, row.length = MAP_WIDTH)
    ∧ s.wallTypes.length = MAP_HEIGHT ∧ (∀ row ∈ s.wallTypes, row.length = MAP_WIDTH)
    ∧ (∀ a : Action α, (step s a).map = s.map ∧ (step s a).wallTypes = s.wallTypes)
    ∧ (∀ (keys : Keys) (h : Heading α),
        (update s keys h).map = s.map ∧ (update s keys h).wallTypes = s.wallTypes)
    ∧ ((interact s).map = s.map ∧ (interact s).wallTypes = s.wallTypes)
    ∧ (∀ puzzle : Puzzle,
        (solvePuzzle s puzzle).map = s.map ∧ (solvePuzzle s puzzle).wallTypes = s.wallTypes)
    ∧ (∀ mx my : Int, cellBlocks s.map s.doors mx my = cellBlocks generateLevel.map s.doors mx my) := by
  obtain ⟨actions, rfl⟩ := hs
  obtain ⟨h1, h2⟩ := run_grid actions (initialState : GameState α)
  have e1 : (run (initialState : GameState α) actions).map = generateLevel.map := h1
  have e2 : (run (initialState : GameState α) actions).wallTypes = generateLevel.wallTypes := h2
  obtain ⟨d1, d2, d3, d4⟩ := generateLevel_dims
  refine ⟨e1, e2, ?_, ?_, ?_, ?_, fun a => step_grid _ a,
    fun keys h => step_grid _ (.update keys h), step_grid _ .interact,
    fun puzzle => step_grid _ (.solvePuzzle puzzle), ?_⟩
  · rw [e1]; exact d1
  · rw [e1]; exact d2
  · rw [e2]; exact d3
  · rw [e2]; exact d4
  · intro mx my; rw [e1]

end GridFrame

/-- Witness of C21: the state of a started game after one `update` tick with W
and D held, `interact`, and `solvePuzzle` for the first puzzle is a state of a
session, and its grids are those of `generateLevel`. -/
theorem structural_grid_constant_witness :
    Reachable (run (initialState : GameState ℚ)
      [.startGame, .update keysWD headingEast, .interact, .solvePuzzle puzzleOne])
    ∧ (run (initialState : GameState ℚ)
        [.startGame, .update keysWD headingEast, .interact, .solvePuzzle puzzleOne]).map
        = generateLevel.map
    ∧ (run (initialState : GameState ℚ)
        [.startGame, .update keysWD headingEast, .interact, .solvePuzzle puzzleOne]).wallTypes
        = generateLevel.wallTypes :=
  ⟨⟨_, rfl⟩,
    (structural_grid_constant _ ⟨[.startGame, .update keysWD headingEast, .interact,
      .solvePuzzle puzzleOne], rfl⟩).1,
    (structural_grid_constant _ ⟨[.startGame, .update keysWD headingEast, .interact,
      .solvePuzzle puzzleOne], rfl⟩).2.1⟩

/-! ## The initial state and the puzzle bank -/

section InitialClaims

variable {α : Type} [LinearOrderedField α]

/-- C24: in the state produced by the constructor and `generateLevel`,
`puzzlesSolved = 0` and `score = 0`; there are six doors, all locked; there are
six stations, with `puzzleId` 1 to 6 in order; a station is active iff its
`puzzleId` is 1; and the validator's test that at least one station is active
passes. -/
theorem initialState_facts :
    (initialState : GameState α).puzzlesSolved = 0
    ∧ (initialState : GameState α).score = 0
    ∧ (initialState : GameState α).doors.length = 6
    ∧ (∀ d ∈ (initialState : GameState α).doors, d.locked = true)
    ∧ (initialState : GameState α).puzzleStations.length = 6
    ∧ (initialState : GameState α).puzzleStations.map (fun st => st.puzzleId) = [1, 2, 3, 4, 5, 6]
    ∧ (∀ st ∈ (initialState : GameState α).puzzleStations, (st.active = true ↔ st.puzzleId = 1))
    ∧ validatePuzzleStations (initialState : GameState α).puzzleStations = true := by
  refine ⟨rfl, rfl, rfl, ?_, rfl, rfl, ?_, ?_⟩
  · show ∀ d ∈ levelDoors, d.locked = true
    decide
  · show ∀ st ∈ levelStations, (st.active = true ↔ st.puzzleId = 1)
    decide
  · show validatePuzzleStations levelStations = true
    decide

end InitialClaims

section BankLemmas

variable {α : Type}

theorem submitPuzzleAnswer_some (s : GameState α) (puzzle : Puzzle) (sel : Nat)
    (hc : s.currentPuzzle = some puzzle) :
    submitPuzzleAnswer s (some sel)
      = closePuzzle (if sel = puzzle.correct then solvePuzzle s puzzle else s) := by
  unfold submitPuzzleAnswer
  rw [hc]
  by_cases he : sel = puzzle.correct
  · simp [he]
  · simp [he]

set_option maxRecDepth 100000 in
theorem validateChemistryPuzzles_bank :
    validateChemistryPuzzles chemistryPuzzles = ([], true) := by
  decide

/-- C23: the puzzle bank `chemistryPuzzles` has exactly six puzzles, with ids 1
to 6; each has a non-empty question, a non-empty explanation, four options and
a `correct` index below four; the correct indices are 1, 0, 1, 1, 0, 1; so
`validateChemistryPuzzles` reports no issue and its count test passes; and
`submitPuzzleAnswer`, with a puzzle open and an option selected, calls
`solvePuzzle` exactly when the selected index equals the `correct` index of
the puzzle (otherwise it only closes the puzzle). -/
theorem puzzle_bank_valid :
    chemistryPuzzles.length = 6
    ∧ chemistryPuzzles.map (fun p => p.id) = [1, 2, 3, 4, 5, 6]
    ∧ (∀ p ∈ chemistryPuzzles, p.question ≠ "" ∧ p.explanation ≠ ""
        ∧ p.options.length = 4 ∧ p.correct < p.options.length)
    ∧ chemistryPuzzles.map (fun p => p.correct) = [1, 0, 1, 1, 0, 1]
    ∧ validateChemistryPuzzles chemistryPuzzles = ([], true)
    ∧ (∀ (s : GameState α) (puzzle : Puzzle) (sel : Nat), s.currentPuzzle = some puzzle →
        (sel = puzzle.correct →
          submitPuzzleAnswer s (some sel) = closePuzzle (solvePuzzle s puzzle))
        ∧ (sel ≠ puzzle.correct → submitPuzzleAnswer s (some sel) = closePuzzle s)
        ∧ ((submitPuzzleAnswer s (some sel)).puzzlesSolved = s.puzzlesSolved + 1
            ↔ sel = puzzle.correct)) := by
  refine ⟨rfl, rfl, ?_, rfl, ?_, ?_⟩
  · intro p hp
    simp only [chemistryPuzzles, List.mem_cons, List.mem_singleton, List.not_mem_nil,
      or_false] at hp
    rcases hp with rfl | rfl | rfl | rfl | rfl | rfl <;>
      exact ⟨by decide, by decide, rfl, by decide⟩
  · exact validateChemistryPuzzles_bank
  · intro s puzzle sel hc
    rw [submitPuzzleAnswer_some s puzzle sel hc]
    refine ⟨fun h => by rw [if_pos h], fun h => by rw [if_neg h], ?_⟩
    by_cases he : sel = puzzle.correct
    · rw [if_pos he]
      simp [closePuzzle, solvePuzzle, he]
    · rw [if_neg he]
      simp [closePuzzle, he]

end BankLemmas

/-- Witness of C23: with the first puzzle open (after `showPuzzle(1)` on the
initial state) and option 1 selected, which is its `correct` index,
`submitPuzzleAnswer` calls `solvePuzzle`. -/
theorem puzzle_bank_valid_witness :
    (showPuzzle (initialState : GameState ℚ) 1).currentPuzzle = some puzzleOne
    ∧ 1 = puzzleOne.correct
    ∧ submitPuzzleAnswer (showPuzzle (initialState : GameState ℚ) 1) (some 1)
        = closePuzzle (solvePuzzle (showPuzzle (initialState : GameState ℚ) 1) puzzleOne) :=
  ⟨rfl, rfl, ((puzzle_bank_valid (α := ℚ)).2.2.2.2.2 _ puzzleOne 1 rfl).1 rfl⟩

/-! ## The epsilon guard -/

section GuardLemmas

variable {α : Type} [LinearOrderedField α]

theorem clampEps_abs_ge (c : α) : 1 / 10000 ≤ |clampEps c| := by
  unfold clampEps
  split_ifs with h1 h2
  · rw [abs_neg, abs_of_pos (by norm_num : (0 : α) < 1 / 10000)]
  · rw [abs_of_pos (by norm_num : (0 : α) < 1 / 10000)]
  · exact not_lt.mp h1

theorem abs_inv_clampEps_le (c : α) : |1 / clampEps c| ≤ 10000 := by
  have h := clampEps_abs_ge c
  have hp : (0 : α) < |clampEps c| := lt_of_lt_of_le (by norm_num) h
  rw [abs_div, abs_one, div_le_iff₀ hp]
  calc (1 : α) = 10000 * (1 / 10000) := by norm_num
    _ ≤ 10000 * |clampEps c| := by
      apply mul_le_mul_of_nonneg_left h
      norm_num

end GuardLemmas

section GuardClaims

variable {α : Type} [LinearOrderedField α] [FloorRing α]

/-- C27: for every value `c` of a direction component, the guarded component
`clampEps c` has magnitude at least 0.0001; a component whose magnitude was
at least 0.0001 is unchanged; a positive component stays positive and a
negative one stays negative; so the guarded component is not zero, and for
every player position and angle the divisors `cos` and `sin` of `castRay`
(in `1 / cos`, `1 / sin` and in the final division) are not zero and
`deltaX`, `deltaY` are at most 10000. -/
theorem clampEps_guard (c x y sinA cosA : α) :
    1 / 10000 ≤ |clampEps c|
    ∧ (1 / 10000 ≤ |c| → clampEps c = c)
    ∧ (0 < c → 0 < clampEps c)
    ∧ (c < 0 → clampEps c < 0)
    ∧ clampEps c ≠ 0
    ∧ (raySetup x y sinA cosA).cos = clampEps cosA
    ∧ (raySetup x y sinA cosA).sin = clampEps sinA
    ∧ (raySetup x y sinA cosA).cos ≠ 0
    ∧ (raySetup x y sinA cosA).sin ≠ 0
    ∧ (raySetup x y sinA cosA).deltaX = |1 / (raySetup x y sinA cosA).cos|
    ∧ (raySetup x y sinA cosA).deltaY = |1 / (raySetup x y sinA cosA).sin|
    ∧ (raySetup x y sinA cosA).deltaX ≤ 10000
    ∧ (raySetup x y sinA cosA).deltaY ≤ 10000 := by
  refine ⟨clampEps_abs_ge c, ?_, ?_, ?_, clampEps_ne_zero c, rfl, rfl, clampEps_ne_zero _,
    clampEps_ne_zero _, rfl, rfl, abs_inv_clampEps_le _, abs_inv_clampEps_le _⟩
  · intro h
    unfold clampEps
    rw [if_neg (not_lt.mpr h)]
  · intro h
    unfold clampEps
    split_ifs with h1 h2
    · exact absurd h (not_lt.mpr (le_of_lt h2))
    · norm_num
    · exact h
  · intro h
    unfold clampEps
    split_ifs with h1
    · norm_num
    · exact h

end GuardClaims

/-- Witness of C27: a component 1/2 is kept by the guard, and a component
1/20000, below the threshold, becomes 1/10000 and stays positive. -/
theorem clampEps_guard_witness :
    clampEps (1 / 2 : ℚ) = 1 / 2 ∧ 0 < clampEps (1 / 20000 : ℚ) :=
  ⟨(clampEps_guard (1 / 2 : ℚ) 96 96 0 1).2.1 (by rw [abs_of_pos] <;> norm_num),
    (clampEps_guard (1 / 20000 : ℚ) 96 96 0 1).2.2.1 (by norm_num)⟩

/-! ## Level connectivity -/

/-- C30: for every k from 1 to 6 there is a path of 4-neighbour cells from the
start cell (1, 1) of the player to the cell of the station with `puzzleId` k
in the generated level, all of whose cells are inside the grid and are
neither a WALL nor a DOOR whose door has `puzzleId >= k`; the start cell is
the cell of the initial player position. -/
theorem level_solvable_in_order :
    (⌊(initialState : GameState ℚ).player.x / (TILE_SIZE : ℚ)⌋ = 1
      ∧ ⌊(initialState : GameState ℚ).player.y / (TILE_SIZE : ℚ)⌋ = 1)
    ∧ generateLevel.puzzleStations.map (fun st => st.puzzleId) = [1, 2, 3, 4, 5, 6]
    ∧ ∀ st ∈ generateLevel.puzzleStations,
        ∃ path : List (Int × Int),
          isOpenPath generateLevel.map generateLevel.doors st.puzzleId (1, 1)
            (st.mapX, st.mapY) path = true := by
  refine ⟨⟨?_, ?_⟩, rfl, ?_⟩
  · exact floor_div_tile _ 1 (by norm_num [initialState, TILE_SIZE])
      (by norm_num [initialState, TILE_SIZE])
  · exact floor_div_tile _ 1 (by norm_num [initialState, TILE_SIZE])
      (by norm_num [initialState, TILE_SIZE])
  · intro st hst
    have hall : ∀ st ∈ generateLevel.puzzleStations,
        isOpenPath generateLevel.map generateLevel.doors st.puzzleId (1, 1)
          (st.mapX, st.mapY) (stationPath st.puzzleId) = true := by
      decide
    exact ⟨stationPath st.puzzleId, hall st hst⟩

/-- Witness of C30: the fourth station, at (2, 6) with `puzzleId` 4, is a
station of the level, and a path to it exists that uses no door of puzzle 4,
5 or 6. -/
theorem level_solvable_in_order_witness :
    stationFour ∈ generateLevel.puzzleStations
    ∧ ∃ path : List (Int × Int),
        isOpenPath generateLevel.map generateLevel.doors 4 (1, 1) (2, 6) path = true :=
  ⟨by decide, level_solvable_in_order.2.2 stationFour (by decide)⟩

/-! ## Termination of the ray march -/

section MarchBound

variable {α : Type} [LinearOrderedField α]

theorem ddaLoop_iterations_mono (map wallTypes : Grid) (doors : List Door) (deltaX deltaY : α)
    (stepX stepY : Int) (fuel : Nat) : ∀ s : DDAState α,
    s.iterations ≤ (ddaLoop map wallTypes doors deltaX deltaY stepX stepY fuel s).iterations := by
  induction fuel with
  | zero => intro s; exact le_refl _
  | succ n ih =>
    intro s
    simp only [ddaLoop]
    split_ifs
    · have h := ih (ddaStep map wallTypes doors deltaX deltaY stepX stepY s)
      rw [(ddaStep_fields map wallTypes doors deltaX deltaY stepX stepY s).2.2.2.2.2.1] at h
      omega
    · exact le_refl _

theorem marchInv_step (map wallTypes : Grid) (doors : List Door) (deltaX deltaY : α)
    (stepX stepY mx0 my0 : Int) (hsx : stepX = 1 ∨ stepX = -1) (hsy : stepY = 1 ∨ stepY = -1)
    (hin : inGrid mx0 my0 = true) (s : DDAState α) (hh : s.hit = false)
    (h : marchInv map doors stepX stepY mx0 my0 s) :
    marchInv map doors stepX stepY mx0 my0
      (ddaStep map wallTypes doors deltaX deltaY stepX stepY s) := by
  obtain ⟨k1, k2, k3, k4, _, _⟩ := h
  obtain ⟨_, _, f3, f4, _, f6, f7, _⟩ :=
    ddaStep_fields map wallTypes doors deltaX deltaY stepX stepY s
  have g0 := (inGrid_iff _ _).mp hin
  have g1 := (inGrid_iff _ _).mp (k4 hh)
  have hbig : 0 ≤ ((ddaStep map wallTypes doors deltaX deltaY stepX stepY s).currentMapX - mx0) * stepX
      ∧ 0 ≤ ((ddaStep map wallTypes doors deltaX deltaY stepX stepY s).currentMapY - my0) * stepY
      ∧ ((ddaStep map wallTypes doors deltaX deltaY stepX stepY s).currentMapX - mx0) * stepX
          + ((ddaStep map wallTypes doors deltaX deltaY stepX stepY s).currentMapY - my0) * stepY
          = ((s.iterations + 1 : Nat) : Int)
      ∧ s.iterations + 1 ≤ 20 := by
    rw [f3, f4]
    by_cases hlt : s.sideDistX < s.sideDistY
    · rw [if_pos hlt, if_pos hlt]
      rcases hsx with rfl | rfl <;> rcases hsy with rfl | rfl <;> (push_cast; omega)
    · rw [if_neg hlt, if_neg hlt]
      rcases hsx with rfl | rfl <;> rcases hsy with rfl | rfl <;> (push_cast; omega)
  obtain ⟨b1, b2, b3, b4⟩ := hbig
  refine ⟨b1, b2, ?_, ?_, ?_, ?_⟩
  · rw [f6]; exact b3
  · intro hf
    rw [f7, hh] at hf
    simp only [Bool.false_or, Bool.or_eq_false_iff, Bool.not_eq_false'] at hf
    exact hf.1
  · intro ht
    rw [f7, hh] at ht
    simp only [Bool.false_or, Bool.or_eq_true, Bool.not_eq_true'] at ht
    exact ht
  · rw [f6]; exact b4

theorem ddaLoop_ends_on_hit (map wallTypes : Grid) (doors : List Door) (deltaX deltaY : α)
    (stepX stepY mx0 my0 : Int) (hsx : stepX = 1 ∨ stepX = -1) (hsy : stepY = 1 ∨ stepY = -1)
    (hin : inGrid mx0 my0 = true) (fuel : Nat) : ∀ s : DDAState α,
    marchInv map doors stepX stepY mx0 my0 s → 20 ≤ s.iterations + fuel →
    (ddaLoop map wallTypes doors deltaX deltaY stepX stepY fuel s).hit = true
    ∧ marchInv map doors stepX stepY mx0 my0
        (ddaLoop map wallTypes doors deltaX deltaY stepX stepY fuel s) := by
  have g0 := (inGrid_iff _ _).mp hin
  have key : ∀ s : DDAState α, marchInv map doors stepX stepY mx0 my0 s → s.hit = false →
      s.iterations ≤ 19 := by
    intro s h hh
    obtain ⟨k1, k2, k3, k4, _, _⟩ := h
    have g1 := (inGrid_iff _ _).mp (k4 hh)
    rcases hsx with rfl | rfl <;> rcases hsy with rfl | rfl <;> omega
  induction fuel with
  | zero =>
    intro s h hf
    simp only [ddaLoop]
    refine ⟨?_, h⟩
    rcases Bool.eq_false_or_eq_true s.hit with ht | hh
    · exact ht
    · have := key s h hh
      omega
  | succ n ih =>
    intro s h hf
    rcases Bool.eq_false_or_eq_true s.hit with ht | hh
    · rw [ddaLoop_of_hit _ _ _ _ _ _ _ _ _ ht]
      exact ⟨ht, h⟩
    · have h19 := key s h hh
      rw [ddaLoop_running _ _ _ _ _ _ _ _ _ hh (by simp only [maxIterations, MAP_WIDTH, MAP_HEIGHT]; omega)]
      apply ih _ (marchInv_step map wallTypes doors deltaX deltaY stepX stepY mx0 my0 hsx hsy hin s hh h)
      have f6 := (ddaStep_fields map wallTypes doors deltaX deltaY stepX stepY s).2.2.2.2.2.1
      rw [f6]
      omega

end MarchBound

section MarchClaims

variable {α : Type} [LinearOrderedField α] [FloorRing α]

theorem inGrid_of_position (x y : α) (hx0 : 0 ≤ x) (hx1 : x < (MAP_WIDTH : α) * (TILE_SIZE : α))
    (hy0 : 0 ≤ y) (hy1 : y < (MAP_HEIGHT : α) * (TILE_SIZE : α)) :
    inGrid ⌊x / (TILE_SIZE : α)⌋ ⌊y / (TILE_SIZE : α)⌋ = true := by
  have hT : (0 : α) < (TILE_SIZE : α) := by norm_num [TILE_SIZE]
  rw [inGrid_iff]
  refine ⟨Int.floor_nonneg.mpr (div_nonneg hx0 hT.le), ?_,
    Int.floor_nonneg.mpr (div_nonneg hy0 hT.le), ?_⟩
  · rw [Int.floor_lt, div_lt_iff₀ hT]
    simpa [MAP_WIDTH] using hx1
  · rw [Int.floor_lt, div_lt_iff₀ hT]
    simpa [MAP_HEIGHT] using hy1

/-- C29: for every map, door list, direction `(sinA, cosA)` and player position
inside the grid, the DDA loop of `castRay` ends with `hit = true` after at
least one and at most `MAP_WIDTH + MAP_HEIGHT - 1` iterations, which is below
the cap `2 * max(MAP_WIDTH, MAP_HEIGHT)`; and the returned cell
`(mapX, mapY)` is outside the grid, or a WALL cell, or a DOOR cell whose door
is locked. -/
theorem castRay_ends_on_hit (map wallTypes : Grid) (doors : List Door) (x y sinA cosA : α)
    (hx0 : 0 ≤ x) (hx1 : x < (MAP_WIDTH : α) * (TILE_SIZE : α))
    (hy0 : 0 ≤ y) (hy1 : y < (MAP_HEIGHT : α) * (TILE_SIZE : α)) :
    (rayLoop map wallTypes doors x y sinA cosA).hit = true
    ∧ 1 ≤ (rayLoop map wallTypes doors x y sinA cosA).iterations
    ∧ (rayLoop map wallTypes doors x y sinA cosA).iterations ≤ MAP_WIDTH + MAP_HEIGHT - 1
    ∧ MAP_WIDTH + MAP_HEIGHT - 1 < maxIterations
    ∧ maxIterations = 2 * max MAP_WIDTH MAP_HEIGHT
    ∧ (castRay map wallTypes doors x y sinA cosA).mapX
        = (rayLoop map wallTypes doors x y sinA cosA).currentMapX
    ∧ (castRay map wallTypes doors x y sinA cosA).mapY
        = (rayLoop map wallTypes doors x y sinA cosA).currentMapY
    ∧ (inGrid (castRay map wallTypes doors x y sinA cosA).mapX
          (castRay map wallTypes doors x y sinA cosA).mapY = false
      ∨ cellAt map (castRay map wallTypes doors x y sinA cosA).mapX
          (castRay map wallTypes doors x y sinA cosA).mapY = WALL
      ∨ (cellAt map (castRay map wallTypes doors x y sinA cosA).mapX
            (castRay map wallTypes doors x y sinA cosA).mapY = DOOR
          ∧ doorLockedAt doors (castRay map wallTypes doors x y sinA cosA).mapX
              (castRay map wallTypes doors x y sinA cosA).mapY = true)) := by
  have hin := inGrid_of_position x y hx0 hx1 hy0 hy1
  have hsx : (raySetup x y sinA cosA).stepX = 1 ∨ (raySetup x y sinA cosA).stepX = -1 := by
    simp only [raySetup]
    split_ifs
    · right; rfl
    · left; rfl
  have hsy : (raySetup x y sinA cosA).stepY = 1 ∨ (raySetup x y sinA cosA).stepY = -1 := by
    simp only [raySetup]
    split_ifs
    · right; rfl
    · left; rfl
  have h0 : marchInv map doors (raySetup x y sinA cosA).stepX (raySetup x y sinA cosA).stepY
      ⌊x / (TILE_SIZE : α)⌋ ⌊y / (TILE_SIZE : α)⌋ (raySetup x y sinA cosA).init := by
    refine ⟨?_, ?_, ?_, fun _ => hin, fun h => ?_, ?_⟩
    · simp [raySetup]
    · simp [raySetup]
    · simp [raySetup]
    · simp [raySetup] at h
    · simp [raySetup]
  have hi0 : (raySetup x y sinA cosA).init.hit = false := rfl
  have hit0 : (raySetup x y sinA cosA).init.iterations = 0 := rfl
  have hrun : rayLoop map wallTypes doors x y sinA cosA
      = ddaLoop map wallTypes doors (raySetup x y sinA cosA).deltaX (raySetup x y sinA cosA).deltaY
          (raySetup x y sinA cosA).stepX (raySetup x y sinA cosA).stepY 23
          (ddaStep map wallTypes doors (raySetup x y sinA cosA).deltaX
            (raySetup x y sinA cosA).deltaY (raySetup x y sinA cosA).stepX
            (raySetup x y sinA cosA).stepY (raySetup x y sinA cosA).init) := by
    show ddaLoop map wallTypes doors _ _ _ _ (23 + 1) _ = _
    exact ddaLoop_running _ _ _ _ _ _ _ _ _ hi0 (by rw [hit0]; decide)
  have h1 := marchInv_step map wallTypes doors (raySetup x y sinA cosA).deltaX
    (raySetup x y sinA cosA).deltaY _ _ _ _ hsx hsy hin _ hi0 h0
  have hst : (ddaStep map wallTypes doors (raySetup x y sinA cosA).deltaX
      (raySetup x y sinA cosA).deltaY (raySetup x y sinA cosA).stepX
      (raySetup x y sinA cosA).stepY (raySetup x y sinA cosA).init).iterations = 1 := by
    rw [(ddaStep_fields _ _ _ _ _ _ _ _).2.2.2.2.2.1, hit0]
  obtain ⟨hhit, k1, k2, k3, k4, k5, k6⟩ :=
    ddaLoop_ends_on_hit map wallTypes doors (raySetup x y sinA cosA).deltaX
      (raySetup x y sinA cosA).deltaY _ _ _ _ hsx hsy hin 23 _ h1 (by rw [hst]; decide)
  rw [← hrun] at hhit k1 k2 k3 k4 k5 k6
  have hge : 1 ≤ (rayLoop map wallTypes doors x y sinA cosA).iterations := by
    rw [hrun]
    have := ddaLoop_iterations_mono map wallTypes doors (raySetup x y sinA cosA).deltaX
      (raySetup x y sinA cosA).deltaY (raySetup x y sinA cosA).stepX
      (raySetup x y sinA cosA).stepY 23 (ddaStep map wallTypes doors (raySetup x y sinA cosA).deltaX
      (raySetup x y sinA cosA).deltaY (raySetup x y sinA cosA).stepX
      (raySetup x y sinA cosA).stepY (raySetup x y sinA cosA).init)
    omega
  refine ⟨hhit, hge, ?_, by decide, by decide, rfl, rfl, ?_⟩
  · simpa [MAP_WIDTH, MAP_HEIGHT] using k6
  · show inGrid (rayLoop map wallTypes doors x y sinA cosA).currentMapX
          (rayLoop map wallTypes doors x y sinA cosA).currentMapY = false ∨ _
    rcases k5 hhit with h | h
    · exact Or.inl h
    · right
      simp only [cellBlocks, Bool.or_eq_true, Bool.and_eq_true, decide_eq_true_eq] at h
      exact h

end MarchClaims

/-- Witness of C29: from the start position (96, 96) of the generated level,
which is inside the grid, the loop of a ray along +x ends on a hit. -/
theorem castRay_ends_on_hit_witness :
    (0 : ℚ) ≤ 96 ∧ (96 : ℚ) < (MAP_WIDTH : ℚ) * (TILE_SIZE : ℚ)
    ∧ (96 : ℚ) < (MAP_HEIGHT : ℚ) * (TILE_SIZE : ℚ)
    ∧ (rayLoop generateLevel.map generateLevel.wallTypes generateLevel.doors (96 : ℚ) 96 0 1).hit
        = true :=
  ⟨by norm_num, by norm_num [MAP_WIDTH, TILE_SIZE], by norm_num [MAP_HEIGHT, TILE_SIZE],
    (castRay_ends_on_hit generateLevel.map generateLevel.wallTypes generateLevel.doors
      (96 : ℚ) 96 0 1 (by norm_num) (by norm_num [MAP_WIDTH, TILE_SIZE]) (by norm_num)
      (by norm_num [MAP_HEIGHT, TILE_SIZE])).1⟩

/-! ## The hit point of a ray -/

section HitPointLemmas

variable {α : Type} [LinearOrderedField α]

theorem hitInv_step (map wallTypes : Grid) (doors : List Door) (X0 Y0 c sn dX dY : α)
    (stepX stepY : Int) (hcx : dX * c = (stepX : α)) (hcy : dY * sn = (stepY : α))
    (s : DDAState α) (h : rayInv X0 Y0 c sn dX dY stepX stepY s) :
    hitInv X0 Y0 c sn dX dY stepX stepY (ddaStep map wallTypes doors dX dY stepX stepY s) := by
  obtain ⟨i1, i2, i3, i4, i5, i6⟩ := h
  obtain ⟨f1, f2, f3, f4, f5, _, _, _⟩ := ddaStep_fields map wallTypes doors dX dY stepX stepY s
  unfold hitInv
  rw [f1, f2, f3, f4, f5]
  by_cases hlt : s.sideDistX < s.sideDistY
  · simp only [if_pos hlt]
    refine ⟨?_, i2, Or.inl ⟨trivial, ?_, ?_, ?_⟩⟩
    · push_cast
      rw [add_mul, hcx]
      linarith
    · linarith
    · linarith
    · linarith
  · simp only [if_neg hlt]
    have hle := not_lt.mp hlt
    refine ⟨i1, ?_, Or.inr ⟨trivial, ?_, ?_, ?_⟩⟩
    · push_cast
      rw [add_mul, hcy]
      linarith
    · linarith
    · linarith
    · linarith

theorem rayInv_of_hitInv (X0 Y0 c sn dX dY : α) (stepX stepY : Int) (hdX : 0 ≤ dX)
    (hdY : 0 ≤ dY) (s : DDAState α) (h : hitInv X0 Y0 c sn dX dY stepX stepY s) :
    rayInv X0 Y0 c sn dX dY stepX stepY s := by
  obtain ⟨i1, i2, h3⟩ := h
  refine ⟨i1, i2, ?_⟩
  rcases h3 with ⟨_, a, b, c3⟩ | ⟨_, a, b, c3⟩
  · exact ⟨by linarith, by linarith, by linarith, by linarith⟩
  · exact ⟨by linarith, by linarith, by linarith, by linarith⟩

theorem ddaLoop_hitInv (map wallTypes : Grid) (doors : List Door) (X0 Y0 c sn dX dY : α)
    (stepX stepY : Int) (hcx : dX * c = (stepX : α)) (hcy : dY * sn = (stepY : α))
    (hdX : 0 ≤ dX) (hdY : 0 ≤ dY) (fuel : Nat) : ∀ s : DDAState α,
    hitInv X0 Y0 c sn dX dY stepX stepY s →
    hitInv X0 Y0 c sn dX dY stepX stepY
      (ddaLoop map wallTypes doors dX dY stepX stepY fuel s) := by
  induction fuel with
  | zero => intro s h; exact h
  | succ n ih =>
    intro s h
    simp only [ddaLoop]
    split_ifs
    · exact ih _ (hitInv_step map wallTypes doors X0 Y0 c sn dX dY stepX stepY hcx hcy s
        (rayInv_of_hitInv X0 Y0 c sn dX dY stepX stepY hdX hdY s h))
    · exact h

/-- From the invariant after an X step: the tile distance that `castRay`
computes from the map column is the parameter of the boundary crossed, the
point of the ray at it lies on the entered face, and within the row. -/
theorem hitInv_face (X0 Y0 c sn dX dY : α) (stepX stepY : Int)
    (hcx : dX * c = (stepX : α)) (hcy : dY * sn = (stepY : α)) (hc : c ≠ 0)
    (hsn : (0 < sn ∧ stepY = 1) ∨ (sn < 0 ∧ stepY = -1))
    (sdX sdY : α) (cx cy : Int)
    (i1 : X0 + sdX * c = (cx : α) + (1 + (stepX : α)) / 2)
    (i2 : Y0 + sdY * sn = (cy : α) + (1 + (stepY : α)) / 2)
    (b : sdY - dY ≤ sdX - dX) (c3 : sdX - dX ≤ sdY) :
    ((cx : α) - X0 + (1 - (stepX : α)) / 2) / c = sdX - dX
    ∧ X0 + (sdX - dX) * c = (cx : α) + (1 - (stepX : α)) / 2
    ∧ (cy : α) ≤ Y0 + (sdX - dX) * sn ∧ Y0 + (sdX - dX) * sn ≤ (cy : α) + 1 := by
  have e2 : X0 + (sdX - dX) * c = (cx : α) + (1 - (stepX : α)) / 2 := by
    rw [sub_mul, hcx]; linarith
  refine ⟨?_, e2, ?_, ?_⟩
  · rw [div_eq_iff hc]; linarith
  · rcases hsn with ⟨hp, hs⟩ | ⟨hn, hs⟩
    · have h1 : sdY * sn - dY * sn ≤ (sdX - dX) * sn := by
        rw [← sub_mul]; exact mul_le_mul_of_nonneg_right b hp.le
      rw [hcy] at h1
      rw [hs] at i2 h1
      push_cast at i2 h1
      linarith
    · have h1 : sdY * sn ≤ (sdX - dX) * sn := mul_le_mul_of_nonpos_right c3 hn.le
      rw [hs] at i2
      push_cast at i2
      linarith
  · rcases hsn with ⟨hp, hs⟩ | ⟨hn, hs⟩
    · have h1 : (sdX - dX) * sn ≤ sdY * sn := mul_le_mul_of_nonneg_right c3 hp.le
      rw [hs] at i2
      push_cast at i2
      linarith
    · have h1 : (sdX - dX) * sn ≤ sdY * sn - dY * sn := by
        rw [← sub_mul]; exact mul_le_mul_of_nonpos_right b hn.le
      rw [hcy] at h1
      rw [hs] at i2 h1
      push_cast at i2 h1
      linarith

theorem clampEps_step (v : α) :
    |1 / clampEps v| * clampEps v = (((if clampEps v < 0 then -1 else 1 : Int)) : α)
    ∧ ((0 < clampEps v ∧ (if clampEps v < 0 then -1 else 1 : Int) = 1)
        ∨ (clampEps v < 0 ∧ (if clampEps v < 0 then -1 else 1 : Int) = -1)) := by
  have hne := clampEps_ne_zero v
  rcases lt_or_gt_of_ne hne with hn | hp
  · rw [if_pos hn]
    refine ⟨?_, Or.inr ⟨hn, rfl⟩⟩
    rw [abs_of_neg (one_div_neg.mpr hn)]
    push_cast
    field_simp
  · rw [if_neg (not_lt.mpr hp.le)]
    refine ⟨?_, Or.inl ⟨hp, rfl⟩⟩
    rw [abs_of_pos (one_div_pos.mpr hp)]
    push_cast
    field_simp

end HitPointLemmas

section HitPointClaims

variable {α : Type} [LinearOrderedField α] [FloorRing α]

theorem rayInv_init (x y sinA cosA : α) :
    rayInv (x / (TILE_SIZE : α)) (y / (TILE_SIZE : α)) (raySetup x y sinA cosA).cos
      (raySetup x y sinA cosA).sin (raySetup x y sinA cosA).deltaX (raySetup x y sinA cosA).deltaY
      (raySetup x y sinA cosA).stepX (raySetup x y sinA cosA).stepY
      (raySetup x y sinA cosA).init := by
  obtain ⟨hx, hsx⟩ := clampEps_step cosA
  obtain ⟨hy, hsy⟩ := clampEps_step sinA
  have fx0 := Int.floor_le (x / (TILE_SIZE : α))
  have fx1 := Int.lt_floor_add_one (x / (TILE_SIZE : α))
  have fy0 := Int.floor_le (y / (TILE_SIZE : α))
  have fy1 := Int.lt_floor_add_one (y / (TILE_SIZE : α))
  have hdx : (0 : α) ≤ |1 / clampEps cosA| := abs_nonneg _
  have hdy : (0 : α) ≤ |1 / clampEps sinA| := abs_nonneg _
  simp only [rayInv, raySetup]
  have ax : (0 : α) ≤ (if clampEps cosA < 0
      then (x / (TILE_SIZE : α) - (⌊x / (TILE_SIZE : α)⌋ : α)) * |1 / clampEps cosA|
      else ((⌊x / (TILE_SIZE : α)⌋ : α) + 1 - x / (TILE_SIZE : α)) * |1 / clampEps cosA|) := by
    split_ifs
    · exact mul_nonneg (by linarith) hdx
    · exact mul_nonneg (by linarith) hdx
  have ay : (0 : α) ≤ (if clampEps sinA < 0
      then (y / (TILE_SIZE : α) - (⌊y / (TILE_SIZE : α)⌋ : α)) * |1 / clampEps sinA|
      else ((⌊y / (TILE_SIZE : α)⌋ : α) + 1 - y / (TILE_SIZE : α)) * |1 / clampEps sinA|) := by
    split_ifs
    · exact mul_nonneg (by linarith) hdy
    · exact mul_nonneg (by linarith) hdy
  have bx : (if clampEps cosA < 0
      then (x / (TILE_SIZE : α) - (⌊x / (TILE_SIZE : α)⌋ : α)) * |1 / clampEps cosA|
      else ((⌊x / (TILE_SIZE : α)⌋ : α) + 1 - x / (TILE_SIZE : α)) * |1 / clampEps cosA|)
      - |1 / clampEps cosA| ≤ 0 := by
    split_ifs
    · have : (x / (TILE_SIZE : α) - (⌊x / (TILE_SIZE : α)⌋ : α)) * |1 / clampEps cosA|
          ≤ 1 * |1 / clampEps cosA| := mul_le_mul_of_nonneg_right (by linarith) hdx
      linarith
    · have : ((⌊x / (TILE_SIZE : α)⌋ : α) + 1 - x / (TILE_SIZE : α)) * |1 / clampEps cosA|
          ≤ 1 * |1 / clampEps cosA| := mul_le_mul_of_nonneg_right (by linarith) hdx
      linarith
  have by1 : (if clampEps sinA < 0
      then (y / (TILE_SIZE : α) - (⌊y / (TILE_SIZE : α)⌋ : α)) * |1 / clampEps sinA|
      else ((⌊y / (TILE_SIZE : α)⌋ : α) + 1 - y / (TILE_SIZE : α)) * |1 / clampEps sinA|)
      - |1 / clampEps sinA| ≤ 0 := by
    split_ifs
    · have : (y / (TILE_SIZE : α) - (⌊y / (TILE_SIZE : α)⌋ : α)) * |1 / clampEps sinA|
          ≤ 1 * |1 / clampEps sinA| := mul_le_mul_of_nonneg_right (by linarith) hdy
      linarith
    · have : ((⌊y / (TILE_SIZE : α)⌋ : α) + 1 - y / (TILE_SIZE : α)) * |1 / clampEps sinA|
          ≤ 1 * |1 / clampEps sinA| := mul_le_mul_of_nonneg_right (by linarith) hdy
      linarith
  refine ⟨?_, ?_, ax, ay, by linarith, by linarith⟩
  · rcases hsx with ⟨hp, hs⟩ | ⟨hn, hs⟩
    · rw [hs] at hx
      rw [if_neg (not_lt.mpr hp.le), if_neg (not_lt.mpr hp.le), mul_assoc, hx]
      push_cast
      ring
    · rw [hs] at hx
      rw [if_pos hn, if_pos hn, mul_assoc, hx]
      push_cast
      ring
  · rcases hsy with ⟨hp, hs⟩ | ⟨hn, hs⟩
    · rw [hs] at hy
      rw [if_neg (not_lt.mpr hp.le), if_neg (not_lt.mpr hp.le), mul_assoc, hy]
      push_cast
      ring
    · rw [hs] at hy
      rw [if_pos hn, if_pos hn, mul_assoc, hy]
      push_cast
      ring

theorem rayLoop_hitInv (map wallTypes : Grid) (doors : List Door) (x y sinA cosA : α) :
    hitInv (x / (TILE_SIZE : α)) (y / (TILE_SIZE : α)) (raySetup x y sinA cosA).cos
      (raySetup x y sinA cosA).sin (raySetup x y sinA cosA).deltaX (raySetup x y sinA cosA).deltaY
      (raySetup x y sinA cosA).stepX (raySetup x y sinA cosA).stepY
      (rayLoop map wallTypes doors x y sinA cosA) := by
  have hcx : (raySetup x y sinA cosA).deltaX * (raySetup x y sinA cosA).cos
      = (((raySetup x y sinA cosA).stepX : Int) : α) := (clampEps_step cosA).1
  have hcy : (raySetup x y sinA cosA).deltaY * (raySetup x y sinA cosA).sin
      = (((raySetup x y sinA cosA).stepY : Int) : α) := (clampEps_step sinA).1
  have hrun : rayLoop map wallTypes doors x y sinA cosA
      = ddaLoop map wallTypes doors (raySetup x y sinA cosA).deltaX (raySetup x y sinA cosA).deltaY
          (raySetup x y sinA cosA).stepX (raySetup x y sinA cosA).stepY 23
          (ddaStep map wallTypes doors (raySetup x y sinA cosA).deltaX
            (raySetup x y sinA cosA).deltaY (raySetup x y sinA cosA).stepX
            (raySetup x y sinA cosA).stepY (raySetup x y sinA cosA).init) := by
    show ddaLoop map wallTypes doors _ _ _ _ (23 + 1) _ = _
    have hit0 : (raySetup x y sinA cosA).init.iterations = 0 := rfl
    exact ddaLoop_running _ _ _ _ _ _ _ _ _ rfl (by rw [hit0]; decide)
  rw [hrun]
  exact ddaLoop_hitInv map wallTypes doors _ _ _ _ _ _ _ _ hcx hcy (abs_nonneg _) (abs_nonneg _)
    23 _ (hitInv_step map wallTypes doors _ _ _ _ _ _ _ _ hcx hcy _ (rayInv_init x y sinA cosA))

/-- C25: for every map, door list, player position `(x, y)` and direction, with
`cos`, `sin` the epsilon-clamped components and `D` the world-unit distance
that `castRay` computes before the clamp to `[1, MAX_DEPTH]`, `D` is not
negative and the point `P = (x + D * cos, y + D * sin)` lies on the face of
the returned cell `(mapX, mapY)` through which the ray entered it: either
`side = 0`, `P.x = TILE_SIZE * (mapX + (1 - stepX) / 2)` and
`TILE_SIZE * mapY <= P.y <= TILE_SIZE * (mapY + 1)`, or `side = 1` and the
same with the axes exchanged. -/
theorem castRay_hit_point (map wallTypes : Grid) (doors : List Door) (x y sinA cosA : α) :
    (raySetup x y sinA cosA).cos = clampEps cosA
    ∧ (raySetup x y sinA cosA).sin = clampEps sinA
    ∧ (castRay map wallTypes doors x y sinA cosA).distance
        = max 1 (min (rayHit x y (raySetup x y sinA cosA)
            (rayLoop map wallTypes doors x y sinA cosA)).2 (MAX_DEPTH : α))
    ∧ 0 ≤ (rayHit x y (raySetup x y sinA cosA) (rayLoop map wallTypes doors x y sinA cosA)).2
    ∧ (((castRay map wallTypes doors x y sinA cosA).side = 0
        ∧ x + (rayHit x y (raySetup x y sinA cosA) (rayLoop map wallTypes doors x y sinA cosA)).2
              * (raySetup x y sinA cosA).cos
            = (TILE_SIZE : α) * (((castRay map wallTypes doors x y sinA cosA).mapX : α)
                + (1 - ((raySetup x y sinA cosA).stepX : α)) / 2)
        ∧ (TILE_SIZE : α) * ((castRay map wallTypes doors x y sinA cosA).mapY : α)
            ≤ y + (rayHit x y (raySetup x y sinA cosA) (rayLoop map wallTypes doors x y sinA cosA)).2
                  * (raySetup x y sinA cosA).sin
        ∧ y + (rayHit x y (raySetup x y sinA cosA) (rayLoop map wallTypes doors x y sinA cosA)).2
              * (raySetup x y sinA cosA).sin
            ≤ (TILE_SIZE : α) * (((castRay map wallTypes doors x y sinA cosA).mapY : α) + 1))
      ∨ ((castRay map wallTypes doors x y sinA cosA).side = 1
        ∧ y + (rayHit x y (raySetup x y sinA cosA) (rayLoop map wallTypes doors x y sinA cosA)).2
              * (raySetup x y sinA cosA).sin
            = (TILE_SIZE : α) * (((castRay map wallTypes doors x y sinA cosA).mapY : α)
                + (1 - ((raySetup x y sinA cosA).stepY : α)) / 2)
        ∧ (TILE_SIZE : α) * ((castRay map wallTypes doors x y sinA cosA).mapX : α)
            ≤ x + (rayHit x y (raySetup x y sinA cosA) (rayLoop map wallTypes doors x y sinA cosA)).2
                  * (raySetup x y sinA cosA).cos
        ∧ x + (rayHit x y (raySetup x y sinA cosA) (rayLoop map wallTypes doors x y sinA cosA)).2
              * (raySetup x y sinA cosA).cos
            ≤ (TILE_SIZE : α) * (((castRay map wallTypes doors x y sinA cosA).mapX : α) + 1))) := by
  have hT : ((TILE_SIZE : Nat) : α) = 64 := by norm_num [TILE_SIZE]
  obtain ⟨hcx, hsx⟩ := clampEps_step cosA
  obtain ⟨hcy, hsy⟩ := clampEps_step sinA
  have hc : (raySetup x y sinA cosA).cos ≠ 0 := clampEps_ne_zero cosA
  have hs : (raySetup x y sinA cosA).sin ≠ 0 := clampEps_ne_zero sinA
  obtain ⟨i1, i2, h3⟩ := rayLoop_hitInv map wallTypes doors x y sinA cosA
  have hside : (castRay map wallTypes doors x y sinA cosA).side
      = (rayLoop map wallTypes doors x y sinA cosA).side := rfl
  have hmx : (castRay map wallTypes doors x y sinA cosA).mapX
      = (rayLoop map wallTypes doors x y sinA cosA).currentMapX := rfl
  have hmy : (castRay map wallTypes doors x y sinA cosA).mapY
      = (rayLoop map wallTypes doors x y sinA cosA).currentMapY := rfl
  refine ⟨rfl, rfl, rfl, ?_⟩
  rw [hside, hmx, hmy]
  generalize rayLoop map wallTypes doors x y sinA cosA = s at i1 i2 h3 ⊢
  rw [hT] at i1 i2 ⊢
  have hx64 : x = 64 * (x / 64) := by field_simp
  have hy64 : y = 64 * (y / 64) := by field_simp
  rcases h3 with ⟨h0, a, b, c3⟩ | ⟨h0, a, b, c3⟩
  · obtain ⟨e1, e2, e3, e4⟩ := hitInv_face (x / 64) (y / 64) (raySetup x y sinA cosA).cos
      (raySetup x y sinA cosA).sin (raySetup x y sinA cosA).deltaX (raySetup x y sinA cosA).deltaY
      (raySetup x y sinA cosA).stepX (raySetup x y sinA cosA).stepY hcx hcy hc hsy
      s.sideDistX s.sideDistY s.currentMapX s.currentMapY i1 i2 b c3
    have hD : (rayHit x y (raySetup x y sinA cosA) s).2
        = (s.sideDistX - (raySetup x y sinA cosA).deltaX) * 64 := by
      simp only [rayHit]
      rw [if_pos h0]
      simp only []
      rw [hT]
      push_cast
      rw [e1]
      exact abs_of_nonneg (mul_nonneg a (by norm_num))
    rw [hD]
    refine ⟨mul_nonneg a (by norm_num), Or.inl ⟨h0, ?_, ?_, ?_⟩⟩
    · rw [← e2]; nth_rewrite 1 [hx64]; ring
    · have := mul_le_mul_of_nonneg_left e3 (by norm_num : (0 : α) ≤ 64)
      nth_rewrite 1 [hy64]; linarith
    · have := mul_le_mul_of_nonneg_left e4 (by norm_num : (0 : α) ≤ 64)
      nth_rewrite 1 [hy64]; linarith
  · obtain ⟨e1, e2, e3, e4⟩ := hitInv_face (y / 64) (x / 64) (raySetup x y sinA cosA).sin
      (raySetup x y sinA cosA).cos (raySetup x y sinA cosA).deltaY (raySetup x y sinA cosA).deltaX
      (raySetup x y sinA cosA).stepY (raySetup x y sinA cosA).stepX hcy hcx hs hsx
      s.sideDistY s.sideDistX s.currentMapY s.currentMapX i2 i1 b c3
    have hD : (rayHit x y (raySetup x y sinA cosA) s).2
        = (s.sideDistY - (raySetup x y sinA cosA).deltaY) * 64 := by
      simp only [rayHit]
      rw [if_neg (by rw [h0]; decide)]
      simp only []
      rw [hT]
      push_cast
      rw [e1]
      exact abs_of_nonneg (mul_nonneg a (by norm_num))
    rw [hD]
    refine ⟨mul_nonneg a (by norm_num), Or.inr ⟨h0, ?_, ?_, ?_⟩⟩
    · rw [← e2]; nth_rewrite 1 [hy64]; ring
    · have := mul_le_mul_of_nonneg_left e3 (by norm_num : (0 : α) ≤ 64)
      nth_rewrite 1 [hx64]; linarith
    · have := mul_le_mul_of_nonneg_left e4 (by norm_num : (0 : α) ≤ 64)
      nth_rewrite 1 [hx64]; linarith

end HitPointClaims

/-! ## The heading -/

section HeadingLemmas

variable {α : Type} [LinearOrderedField α]

theorem normalizeDown_spec (twoPi : α) (n : Nat) : ∀ (fuel : Nat) (a : α),
    n ≤ fuel → a ≤ ((n : α) + 1) * twoPi →
    ∃ r, normalizeDown twoPi fuel a = some r ∧ r ≤ twoPi ∧ (a ≤ twoPi → r = a)
      ∧ (twoPi < a → 0 < r) := by
  induction n with
  | zero =>
    intro fuel a _ ha
    have ha1 : a ≤ twoPi := by simpa using ha
    refine ⟨a, ?_, ha1, fun _ => rfl, fun h => absurd h (not_lt.mpr ha1)⟩
    cases fuel with
    | zero => simp only [normalizeDown]; rw [if_neg (not_lt.mpr ha1)]
    | succ k => simp only [normalizeDown]; rw [if_neg (not_lt.mpr ha1)]
  | succ m ih =>
    intro fuel a hf ha
    cases fuel with
    | zero => omega
    | succ k =>
      by_cases hgt : a > twoPi
      · have hb : a - twoPi ≤ ((m : α) + 1) * twoPi := by
          push_cast at ha
          linarith
        obtain ⟨r, e, r1, r2, r3⟩ := ih k (a - twoPi) (by omega) hb
        refine ⟨r, ?_, r1, fun h => absurd hgt (not_lt.mpr h), fun _ => ?_⟩
        · simp only [normalizeDown]; rw [if_pos hgt]; exact e
        · by_cases h4 : a - twoPi ≤ twoPi
          · rw [r2 h4]; linarith
          · exact r3 (not_le.mp h4)
      · refine ⟨a, ?_, not_lt.mp hgt, fun _ => rfl, fun h => absurd h hgt⟩
        simp only [normalizeDown]; rw [if_neg hgt]

theorem normalizeUp_spec (twoPi : α) (n : Nat) : ∀ (fuel : Nat) (a : α),
    n ≤ fuel → -((n : α) * twoPi) ≤ a →
    ∃ r, normalizeUp twoPi fuel a = some r ∧ 0 ≤ r ∧ (0 ≤ a → r = a)
      ∧ (a < 0 → r < twoPi) := by
  induction n with
  | zero =>
    intro fuel a _ ha
    have ha1 : 0 ≤ a := by simpa using ha
    refine ⟨a, ?_, ha1, fun _ => rfl, fun h => absurd h (not_lt.mpr ha1)⟩
    cases fuel with
    | zero => simp only [normalizeUp]; rw [if_neg (not_lt.mpr ha1)]
    | succ k => simp only [normalizeUp]; rw [if_neg (not_lt.mpr ha1)]
  | succ m ih =>
    intro fuel a hf ha
    cases fuel with
    | zero => omega
    | succ k =>
      by_cases hlt : a < 0
      · have hb : -((m : α) * twoPi) ≤ a + twoPi := by
          push_cast at ha
          linarith
        obtain ⟨r, e, r1, r2, r3⟩ := ih k (a + twoPi) (by omega) hb
        refine ⟨r, ?_, r1, fun h => absurd hlt (not_lt.mpr h), fun _ => ?_⟩
        · simp only [normalizeUp]; rw [if_pos hlt]; exact e
        · by_cases h4 : 0 ≤ a + twoPi
          · rw [r2 h4]; linarith
          · exact r3 (not_le.mp h4)
      · refine ⟨a, ?_, not_lt.mp hlt, fun _ => rfl, fun h => absurd h hlt⟩
        simp only [normalizeUp]; rw [if_neg hlt]

end HeadingLemmas

section HeadingClaims

variable {α : Type} [LinearOrderedField α] [FloorRing α]

/-- C22 (amended): for every heading `a` and every mouse delta `movementX`, the
mouse-move update (`angle += movementX * 0.003` followed by the two loops)
terminates, with any number of loop passes allowed beyond a bound, and leaves
`player.angle` in the closed interval `[0, twoPi]`, for `twoPi = 2π > 0`;
without pointer lock the heading is unchanged. -/
theorem mouseMove_normalized (twoPi : α) (h2 : 0 < twoPi) (a movementX : α) :
    (∃ n : Nat, ∀ fuel : Nat, n ≤ fuel →
      ∃ r, mouseMove twoPi fuel true a movementX = some r ∧ 0 ≤ r ∧ r ≤ twoPi)
    ∧ ∀ fuel : Nat, mouseMove twoPi fuel false a movementX = some a := by
  refine ⟨?_, fun fuel => rfl⟩
  obtain ⟨n1, hn1⟩ := exists_nat_ge ((a + movementX * (3 / 1000)) / twoPi)
  obtain ⟨n2, hn2⟩ := exists_nat_ge (-(a + movementX * (3 / 1000)) / twoPi)
  rw [div_le_iff₀ h2] at hn1 hn2
  refine ⟨max n1 n2, fun fuel hf => ?_⟩
  have hd : a + movementX * (3 / 1000) ≤ ((n1 : α) + 1) * twoPi := by
    have : (n1 : α) * twoPi ≤ ((n1 : α) + 1) * twoPi := by
      rw [add_mul]; linarith
    linarith
  obtain ⟨r, e, r1, r2, r3⟩ := normalizeDown_spec twoPi n1 fuel
    (a + movementX * (3 / 1000)) (le_trans (le_max_left _ _) hf) hd
  have hu : -((n2 : α) * twoPi) ≤ r := by
    by_cases h4 : a + movementX * (3 / 1000) ≤ twoPi
    · rw [r2 h4]; linarith
    · have := r3 (not_le.mp h4)
      have : (0 : α) ≤ (n2 : α) * twoPi := mul_nonneg (Nat.cast_nonneg _) h2.le
      linarith
  obtain ⟨q, e2, q1, q2, q3⟩ := normalizeUp_spec twoPi n2 fuel r
    (le_trans (le_max_right _ _) hf) hu
  refine ⟨q, ?_, q1, ?_⟩
  · simp only [mouseMove, if_true]
    rw [e]
    exact e2
  · by_cases h5 : 0 ≤ r
    · rw [q2 h5]; exact r1
    · exact (q3 (not_le.mp h5)).le

end HeadingClaims

/-- C22 (as stated) fails: from the heading `2π - 0.003`, which lies in
`[0, 2π)`, a mouse delta of 1 gives exactly `2π`; the first loop tests
`angle > 2π` and so leaves it, and the result is not in `[0, 2π)`. -/
theorem mouseMove_counterexample :
    0 ≤ Real.pi * 2 - 3 / 1000 ∧ Real.pi * 2 - 3 / 1000 < Real.pi * 2
    ∧ (∀ fuel : Nat,
        mouseMove (Real.pi * 2) fuel true (Real.pi * 2 - 3 / 1000) 1 = some (Real.pi * 2))
    ∧ ¬ (Real.pi * 2 < Real.pi * 2) := by
  have hpi := Real.pi_gt_three
  refine ⟨by linarith, by linarith, ?_, lt_irrefl _⟩
  intro fuel
  have e : Real.pi * 2 - 3 / 1000 + 1 * (3 / 1000) = Real.pi * 2 := by ring
  simp only [mouseMove, if_true]
  rw [e]
  cases fuel with
  | zero =>
    simp only [normalizeDown, normalizeUp]
    rw [if_neg (lt_irrefl _)]
    simp only []
    rw [if_neg (not_lt.mpr (by linarith))]
  | succ k =>
    simp only [normalizeDown, normalizeUp]
    rw [if_neg (lt_irrefl _)]
    simp only []
    rw [if_neg (not_lt.mpr (by linarith))]

/-- Witness of C22 (amended): with `twoPi = 2π`, from the heading
`2π - 0.003` and a mouse delta of 1 the update terminates with a heading in
`[0, 2π]`. -/
theorem mouseMove_normalized_witness :
    0 < Real.pi * 2
    ∧ ∃ n : Nat, ∀ fuel : Nat, n ≤ fuel →
        ∃ r, mouseMove (Real.pi * 2) fuel true (Real.pi * 2 - 3 / 1000) 1 = some r
          ∧ 0 ≤ r ∧ r ≤ Real.pi * 2 :=
  ⟨by have := Real.pi_pos; linarith,
    (mouseMove_normalized (Real.pi * 2) (by have := Real.pi_pos; linarith)
      (Real.pi * 2 - 3 / 1000) 1).1⟩

/-! ## The bearing test of renderSprite -/

/-- C26: failing input of the bearing test. The heading `3π/2` lies in
`[0, 2π)` and points along `(0, -1)`; a sprite 100 units straight ahead has
`dx = 0`, `dy = -100`, for which `Math.atan2(dy, dx) = -π/2`; its signed
bearing relative to the heading is 0; and the test
`Math.abs(angle) > HALF_FOV + 0.5` is true for
`angle = -π/2 - 3π/2 = -2π`, so `renderSprite` discards the sprite. -/
theorem renderSprite_bearing_failing_input :
    (0 ≤ 3 * Real.pi / 2 ∧ 3 * Real.pi / 2 < 2 * Real.pi)
    ∧ (Real.cos (3 * Real.pi / 2) = 0 ∧ Real.sin (3 * Real.pi / 2) = -1)
    ∧ Complex.arg ⟨0, -100⟩ = -(Real.pi / 2)
    ∧ Complex.arg ((⟨0, -100⟩ : ℂ)
        / ⟨Real.cos (3 * Real.pi / 2), Real.sin (3 * Real.pi / 2)⟩) = 0
    ∧ Complex.arg ⟨0, -100⟩ - 3 * Real.pi / 2 = -(2 * Real.pi)
    ∧ spriteDiscarded Real.pi (Complex.arg ⟨0, -100⟩) (3 * Real.pi / 2) = true := by
  have hpi := Real.pi_gt_three
  have hc : Real.cos (3 * Real.pi / 2) = 0 := by
    have : 3 * Real.pi / 2 = Real.pi / 2 + Real.pi := by ring
    rw [this, Real.cos_add_pi, Real.cos_pi_div_two, neg_zero]
  have hs : Real.sin (3 * Real.pi / 2) = -1 := by
    have : 3 * Real.pi / 2 = Real.pi / 2 + Real.pi := by ring
    rw [this, Real.sin_add_pi, Real.sin_pi_div_two]
  have harg : Complex.arg ⟨0, -100⟩ = -(Real.pi / 2) := by
    have : (⟨0, -100⟩ : ℂ) = ((100 : ℝ) : ℂ) * (-Complex.I) := by
      apply Complex.ext <;> simp
    rw [this, Complex.arg_real_mul _ (by norm_num : (0 : ℝ) < 100), Complex.arg_neg_I]
  refine ⟨⟨by linarith, by linarith⟩, ⟨hc, hs⟩, harg, ?_, ?_, ?_⟩
  · rw [hc, hs]
    have : (⟨0, -100⟩ : ℂ) / ⟨0, -1⟩ = ((100 : ℝ) : ℂ) := by
      rw [div_eq_iff]
      · apply Complex.ext <;> simp
      · intro h
        have := congrArg Complex.im h
        simp at this
    rw [this, Complex.arg_ofReal_of_nonneg (by norm_num)]
  · rw [harg]; ring
  · rw [harg]
    simp only [spriteDiscarded, HALF_FOV, FOV, decide_eq_true_eq, gt_iff_lt]
    have : -(Real.pi / 2) - 3 * Real.pi / 2 = -(2 * Real.pi) := by ring
    rw [this, abs_neg, abs_of_pos (by linarith)]
    linarith

/-! ## The wall strip of a screen column -/

theorem cos_offset_ge (a W : ℝ) (i : Nat) (hi : (i : ℝ) < renderWidth W) :
    Real.cos (HALF_FOV Real.pi) ≤ Real.cos (rayAngleAt Real.pi a i W - a)
    ∧ 0 < Real.cos (HALF_FOV Real.pi) := by
  have hpi := Real.pi_pos
  have hrw : (0 : ℝ) < renderWidth W := lt_of_le_of_lt (Nat.cast_nonneg i) hi
  have h0 : (0 : ℝ) ≤ (i : ℝ) / renderWidth W := div_nonneg (Nat.cast_nonneg i) hrw.le
  have h1 : (i : ℝ) / renderWidth W < 1 := (div_lt_one hrw).mpr hi
  have hoff : rayAngleAt Real.pi a i W - a
      = -(Real.pi / 6) + ((i : ℝ) / renderWidth W) * (Real.pi / 3) := by
    simp only [rayAngleAt, HALF_FOV, FOV]; ring
  have hH : HALF_FOV Real.pi = Real.pi / 6 := by
    simp only [HALF_FOV, FOV]; ring
  have hm : ((i : ℝ) / renderWidth W) * (Real.pi / 3) < 1 * (Real.pi / 3) :=
    mul_lt_mul_of_pos_right h1 (by linarith)
  have hn : 0 ≤ ((i : ℝ) / renderWidth W) * (Real.pi / 3) := mul_nonneg h0 (by linarith)
  have habs : |rayAngleAt Real.pi a i W - a| ≤ Real.pi / 6 := by
    rw [hoff, abs_le]
    constructor <;> linarith
  rw [hH]
  constructor
  · rw [← Real.cos_abs (rayAngleAt Real.pi a i W - a)]
    exact Real.cos_le_cos_of_nonneg_of_le_pi (abs_nonneg _) (by linarith) habs
  · exact Real.cos_pos_of_mem_Ioo ⟨by linarith, by linarith⟩

/-- C28 (amended): when the canvas width `W0` with which the constructor
computed `PROJECTION_DIST` was positive, then for every canvas size at render
time, every player position and heading, every map and every screen column
`i` with `0 <= i < renderWidth`, the corrected distance
`ray.distance * cos(rayAngle - player.angle)` is at least
`cos(HALF_FOV) > 0`, so the strip height is well defined, positive and at
most `WALL_HEIGHT * PROJECTION_DIST / cos(HALF_FOV)`, and
`wallTop + wallBottom` is the canvas height. -/
theorem wallStrip_bounds (map wallTypes : Grid) (doors : List Door) (x y a W0 W H : ℝ) (i : Nat)
    (hW0 : 0 < W0) (hi : (i : ℝ) < renderWidth W) :
    0 < Real.cos (HALF_FOV Real.pi)
    ∧ Real.cos (HALF_FOV Real.pi)
        ≤ (wallStrip H (projectionDist W0 (Real.tan (HALF_FOV Real.pi)))
            (castRay map wallTypes doors x y (Real.sin (rayAngleAt Real.pi a i W))
              (Real.cos (rayAngleAt Real.pi a i W))).distance
            (Real.cos (rayAngleAt Real.pi a i W - a))).correctedDistance
    ∧ 0 < (wallStrip H (projectionDist W0 (Real.tan (HALF_FOV Real.pi)))
            (castRay map wallTypes doors x y (Real.sin (rayAngleAt Real.pi a i W))
              (Real.cos (rayAngleAt Real.pi a i W))).distance
            (Real.cos (rayAngleAt Real.pi a i W - a))).wallHeight
    ∧ (wallStrip H (projectionDist W0 (Real.tan (HALF_FOV Real.pi)))
            (castRay map wallTypes doors x y (Real.sin (rayAngleAt Real.pi a i W))
              (Real.cos (rayAngleAt Real.pi a i W))).distance
            (Real.cos (rayAngleAt Real.pi a i W - a))).wallHeight
        ≤ (WALL_HEIGHT : ℝ) * projectionDist W0 (Real.tan (HALF_FOV Real.pi))
            / Real.cos (HALF_FOV Real.pi)
    ∧ (wallStrip H (projectionDist W0 (Real.tan (HALF_FOV Real.pi)))
            (castRay map wallTypes doors x y (Real.sin (rayAngleAt Real.pi a i W))
              (Real.cos (rayAngleAt Real.pi a i W))).distance
            (Real.cos (rayAngleAt Real.pi a i W - a))).wallTop
        + (wallStrip H (projectionDist W0 (Real.tan (HALF_FOV Real.pi)))
            (castRay map wallTypes doors x y (Real.sin (rayAngleAt Real.pi a i W))
              (Real.cos (rayAngleAt Real.pi a i W))).distance
            (Real.cos (rayAngleAt Real.pi a i W - a))).wallBottom = H := by
  obtain ⟨hcos, hpos⟩ := cos_offset_ge a W i hi
  have hpi := Real.pi_pos
  have hd : (1 : ℝ) ≤ (castRay map wallTypes doors x y (Real.sin (rayAngleAt Real.pi a i W))
      (Real.cos (rayAngleAt Real.pi a i W))).distance := le_max_left _ _
  generalize (castRay map wallTypes doors x y (Real.sin (rayAngleAt Real.pi a i W))
      (Real.cos (rayAngleAt Real.pi a i W))).distance = d at hd ⊢
  generalize Real.cos (rayAngleAt Real.pi a i W - a) = c at hcos ⊢
  have hc0 : 0 < c := lt_of_lt_of_le hpos hcos
  have hcorr : Real.cos (HALF_FOV Real.pi) ≤ d * c := by
    calc Real.cos (HALF_FOV Real.pi) ≤ c := hcos
      _ = 1 * c := (one_mul c).symm
      _ ≤ d * c := mul_le_mul_of_nonneg_right hd hc0.le
  have hcorr0 : 0 < d * c := lt_of_lt_of_le hpos hcorr
  have htan : 0 < Real.tan (HALF_FOV Real.pi) := by
    apply Real.tan_pos_of_pos_of_lt_pi_div_two
    · simp only [HALF_FOV, FOV]; linarith
    · simp only [HALF_FOV, FOV]; linarith
  have hproj : 0 < projectionDist W0 (Real.tan (HALF_FOV Real.pi)) := by
    simp only [projectionDist]
    exact div_pos (by linarith) htan
  generalize projectionDist W0 (Real.tan (HALF_FOV Real.pi)) = p at hproj ⊢
  have hW : ((WALL_HEIGHT : Nat) : ℝ) = 100 := by norm_num [WALL_HEIGHT]
  simp only [wallStrip]
  rw [hW]
  refine ⟨hpos, hcorr, ?_, ?_, by ring⟩
  · exact mul_pos (div_pos (by norm_num) hcorr0) hproj
  · rw [mul_div_right_comm]
    apply mul_le_mul_of_nonneg_right _ hproj.le
    exact div_le_div_of_nonneg_left (by norm_num) hpos hcorr

/-- C28 (as stated) fails: when the constructor ran with a canvas of width 0,
`PROJECTION_DIST` is 0 and is not recomputed after a resize; on a canvas
later resized to 800 by 600, column 200 of 400 has a strip height of 0,
which is not positive. -/
theorem wallStrip_counterexample :
    ((200 : Nat) : ℝ) < renderWidth (800 : ℝ)
    ∧ projectionDist (0 : ℝ) (Real.tan (HALF_FOV Real.pi)) = 0
    ∧ (wallStrip (600 : ℝ) (projectionDist (0 : ℝ) (Real.tan (HALF_FOV Real.pi)))
        (castRay generateLevel.map generateLevel.wallTypes generateLevel.doors (96 : ℝ) 96
          (Real.sin (rayAngleAt Real.pi 0 200 800))
          (Real.cos (rayAngleAt Real.pi 0 200 800))).distance
        (Real.cos (rayAngleAt Real.pi 0 200 800 - 0))).wallHeight = 0 := by
  have hp : projectionDist (0 : ℝ) (Real.tan (HALF_FOV Real.pi)) = 0 := by
    simp [projectionDist]
  refine ⟨by norm_num [renderWidth], hp, ?_⟩
  simp only [wallStrip]
  rw [hp, mul_zero]

/-- Witness of C28 (amended): a canvas 800 wide at construction and at render
time, 600 high, the start position of the level, heading 0, column 200. -/
theorem wallStrip_bounds_witness :
    (0 : ℝ) < 800 ∧ ((200 : Nat) : ℝ) < renderWidth (800 : ℝ)
    ∧ 0 < (wallStrip (600 : ℝ) (projectionDist (800 : ℝ) (Real.tan (HALF_FOV Real.pi)))
        (castRay generateLevel.map generateLevel.wallTypes generateLevel.doors (96 : ℝ) 96
          (Real.sin (rayAngleAt Real.pi 0 200 800))
          (Real.cos (rayAngleAt Real.pi 0 200 800))).distance
        (Real.cos (rayAngleAt Real.pi 0 200 800 - 0))).wallHeight :=
  ⟨by norm_num, by norm_num [renderWidth],
    (wallStrip_bounds generateLevel.map generateLevel.wallTypes generateLevel.doors 96 96 0 800
      800 600 200 (by norm_num) (by norm_num [renderWidth])).2.2.1⟩

end DoomChemistry
